import Mathlib

/-!
# PokerTH sender thread (`src/net/common/senderthread.cpp`)

A shallow embedding of `SenderThread`: the two bounded send queues, the
enqueue operations `Send` / `SendLowPrio` (single packet and packet list),
`GetNumPacketsInQueue`, `operator<`, and one iteration of the loop in
`SenderThread::Main`, followed by theorems about them.

Conventions of the embedding:
* a `boost::shared_ptr<T>` is an `Option T` (`none` is the null pointer);
* a `std::deque` / `std::list` is a `List`, `push_back` appends at the end,
  `front` / `pop_front` take the head;
* the socket layer and the clock are an explicit per-iteration environment
  (`IterEnv`), and everything the loop does to the outside world is recorded
  as a list of `Event`s;
* macros and constants that come from headers outside this file
  (`MAX_PACKET_SIZE`, `INVALID_SESSION`, `IS_VALID_SEND`, ...) are fields of
  a `Platform` parameter.
-/

namespace PokerTH

/-! ## Data model -/

/-- Modelled from the spec: `NetPacket` (the class is declared in a header
outside this file). A packet is an immutable byte sequence with a known
length. `GetLen` reports that length as a `u_int16_t` (the type the loop
stores it in), hence the bound on the length of the raw data. -/
structure NetPacket where
  raw : List Nat
  fits : raw.length < 65536

/-- The value of `NetPacket::GetLen()`. -/
def NetPacket.GetLen (p : NetPacket) : Nat := p.raw.length

/-- The bytes behind `NetPacket::GetRawData()`. -/
def NetPacket.GetRawData (p : NetPacket) : List Nat := p.raw

/-- Modelled from the spec: `SessionData` (declared in a header outside this
file): a stable session id plus a socket descriptor. -/
structure SessionData where
  id : Nat
  socket : Int
deriving DecidableEq, Repr

/-- The value of `SessionData::GetId()`. -/
def SessionData.GetId (s : SessionData) : Nat := s.id

/-- The value of `SessionData::GetSocket()`. -/
def SessionData.GetSocket (s : SessionData) : Int := s.socket

/-- A queue entry, `std::pair<shared_ptr<NetPacket>, shared_ptr<SessionData>>`.
A default-constructed entry is `(none, none)`. -/
abbrev SendData := Option NetPacket × Option SessionData

/-- The queue type `SendDataDeque`. -/
abbrev SendDataDeque := List SendData

/-- The list type `NetPacketList`. -/
abbrev NetPacketList := List (Option NetPacket)

/-- Constants and macros that `senderthread.cpp` takes from other headers,
and the build flag `POKERTH_DEDICATED_SERVER`. -/
structure Platform where
  MAX_PACKET_SIZE : Nat
  INVALID_SESSION : Nat
  IS_VALID_SEND : Int → Bool
  IS_VALID_SELECT : Int → Bool
  IS_SOCKET_ERR_WOULDBLOCK : Int → Bool
  SOCKET_ERR_NOTCONN : Int
  SOCKET_ERR_NOTSOCK : Int
  ERR_SOCK_SELECT_FAILED : Int
  ERR_SOCK_SEND_FAILED : Int
  POKERTH_DEDICATED_SERVER : Bool

/-- The constant `SEND_ERROR_TIMEOUT_MSEC` (line 33). -/
def SEND_ERROR_TIMEOUT_MSEC : Int := 20000

/-- The constant `SEND_QUEUE_SIZE` (lines 35-41). -/
def SEND_QUEUE_SIZE (P : Platform) : Nat :=
  if P.POKERTH_DEDICATED_SERVER then 10000 else 1000

/-- The constant `SEND_LOW_PRIO_QUEUE_SIZE` (lines 35-41). -/
def SEND_LOW_PRIO_QUEUE_SIZE (P : Platform) : Nat :=
  if P.POKERTH_DEDICATED_SERVER then 10000000 else 10000

/-- The members of `SenderThread`, together with the one local variable of
`Main` that lives across loop iterations, `sendTimer`.

Modelled from the spec: the stall timer (`boost::timers::portable::microsec_timer`,
declared in a header outside this file) is either stopped (`none`) or running
since a clock reading in milliseconds (`some started`); `restart` starts it at
the current clock reading, `reset` stops it, `is_running` tests it and
`elapsed` is the current clock reading minus `started`. -/
structure SenderThread where
  m_outBuf : SendDataDeque
  m_lowPrioOutBuf : SendDataDeque
  m_tmpOutBuf : List Nat
  m_tmpOutBufSize : Nat
  m_curSession : Option SessionData
  m_lastInvalidSessionId : Nat
  sendTimer : Option Nat

/-- The constructor `SenderThread::SenderThread` (lines 43-46), and the timer
as `Main` creates it (`manual_start`, line 148). The staging array
`m_tmpOutBuf` is not initialised by the constructor; its bytes are never read
before they are written, and the model fills it with zeros. -/
def SenderThread.init (P : Platform) : SenderThread where
  m_outBuf := []
  m_lowPrioOutBuf := []
  m_tmpOutBuf := List.replicate P.MAX_PACKET_SIZE 0
  m_tmpOutBufSize := 0
  m_curSession := none
  m_lastInvalidSessionId := P.INVALID_SESSION
  sendTimer := none

/-! ## Enqueue operations -/

/-- The single-packet overload of `SenderThread::InternalStore` (lines 113-119). -/
def InternalStore (sendQueue : SendDataDeque) (maxQueueSize : Nat)
    (session : Option SessionData) (packet : Option NetPacket) : SendDataDeque :=
  if sendQueue.length < maxQueueSize then sendQueue ++ [(packet, session)] else sendQueue

/-- The packet-list overload of `SenderThread::InternalStore` (lines 121-135):
the `while` loop is the left fold that pushes every element in list order. -/
def InternalStoreList (sendQueue : SendDataDeque) (maxQueueSize : Nat)
    (session : Option SessionData) (packetList : NetPacketList) : SendDataDeque :=
  if sendQueue.length + packetList.length < maxQueueSize then
    packetList.foldl (fun q i => q ++ [(i, session)]) sendQueue
  else sendQueue

/-- The single-packet overload of `SenderThread::Send` (lines 52-60). -/
def Send (P : Platform) (st : SenderThread) (session : Option SessionData)
    (packet : Option NetPacket) : SenderThread :=
  if packet.isSome && session.isSome then
    { st with m_outBuf := InternalStore st.m_outBuf (SEND_QUEUE_SIZE P) session packet }
  else st

/-- The packet-list overload of `SenderThread::Send` (lines 62-70). -/
def SendList (P : Platform) (st : SenderThread) (session : Option SessionData)
    (packetList : NetPacketList) : SenderThread :=
  if !packetList.isEmpty && session.isSome then
    { st with m_outBuf := InternalStoreList st.m_outBuf (SEND_QUEUE_SIZE P) session packetList }
  else st

/-- The single-packet overload of `SenderThread::SendLowPrio` (lines 72-80). -/
def SendLowPrio (P : Platform) (st : SenderThread) (session : Option SessionData)
    (packet : Option NetPacket) : SenderThread :=
  if packet.isSome && session.isSome then
    { st with m_lowPrioOutBuf :=
        InternalStore st.m_lowPrioOutBuf (SEND_LOW_PRIO_QUEUE_SIZE P) session packet }
  else st

/-- The packet-list overload of `SenderThread::SendLowPrio` (lines 82-90). -/
def SendLowPrioList (P : Platform) (st : SenderThread) (session : Option SessionData)
    (packetList : NetPacketList) : SenderThread :=
  if !packetList.isEmpty && session.isSome then
    { st with m_lowPrioOutBuf :=
        InternalStoreList st.m_lowPrioOutBuf (SEND_LOW_PRIO_QUEUE_SIZE P) session packetList }
  else st

/-! ## Load reporting -/

/-- The function `SenderThread::GetNumPacketsInQueue` (lines 92-105); the
accumulator `numPackets` is an `unsigned` (32 bits). -/
def GetNumPacketsInQueue (st : SenderThread) : Nat :=
  let numPackets := st.m_lowPrioOutBuf.length % 2 ^ 32
  (numPackets + st.m_outBuf.length) % 2 ^ 32

/-- The comparison `SenderThread::operator<` (lines 107-111). -/
def SenderThread.lt (self other : SenderThread) : Bool :=
  decide (GetNumPacketsInQueue self < GetNumPacketsInQueue other)

/-! ## The send loop -/

/-- What the socket layer and the clock answer during one loop iteration:
the clock reading when `sendTimer.restart()` runs, the return value of
`send` and the `SOCKET_ERRNO()` after it, the return value of `select` and
the `SOCKET_ERRNO()` after it, and the clock reading when
`sendTimer.elapsed()` runs (milliseconds). Each value is only consulted if
the iteration reaches the corresponding call. -/
structure IterEnv where
  clockAtRestart : Nat
  bytesSent : Int
  sendErrCode : Int
  selectResult : Int
  selectErrCode : Int
  clockAtCheck : Nat

/-- What one loop iteration does to the outside world, in program order. -/
inductive Event where
  | popFront (e : SendData)
  | popFrontLowPrio (e : SendData)
  | send (socket : Int) (data : List Nat)
  | select (socket : Int)
  | signalNetError (sessionId : Nat) (errorKind : Int) (errCode : Int)
  | msleep
  | logTimeout (sessionId : Nat)

/-- The function `SenderThread::RemoveCurSendData` (lines 137-143). -/
def RemoveCurSendData (st : SenderThread) : SenderThread :=
  { st with m_tmpOutBufSize := 0, m_curSession := none }

/-- The call `memcpy(dst, src, n)` on byte arrays: the first `n` bytes of
`dst` are replaced by the first `n` bytes of `src`. -/
def memcpy (dst src : List Nat) (n : Nat) : List Nat :=
  src.take n ++ dst.drop n

/-- The call `memmove(buf, buf + off, n)`: the first `n` bytes of `buf` are
replaced by the `n` bytes that start at offset `off`. -/
def memmove (buf : List Nat) (off n : Nat) : List Nat :=
  (buf.drop off).take n ++ buf.drop n

/-- The cast `(unsigned)bytesSent` of an `int`. -/
def toUnsigned (x : Int) : Nat := (x % 2 ^ 32).toNat

/-- The locals of the dequeue block of `Main` (lines 157-179): the entry
`tmpData`, the flag `isLowPrio`, the engine after the pops, and the pops. -/
structure Polled where
  tmpData : SendData
  isLowPrio : Bool
  st : SenderThread
  events : List Event

/-- Lines 157-167: "Check main queue first." -/
def pollMainQueue (st : SenderThread) : Polled :=
  match st.m_outBuf with
  | [] => { tmpData := (none, none), isLowPrio := false, st := st, events := [] }
  | front :: rest =>
    { tmpData := front, isLowPrio := false, st := { st with m_outBuf := rest },
      events := [Event.popFront front] }

/-- Lines 169-179: the low priority queue is polled if `!tmpData.first.get()`. -/
def pollLowPrioQueue (p : Polled) : Polled :=
  if p.tmpData.1.isNone then
    match p.st.m_lowPrioOutBuf with
    | [] => p
    | front :: rest =>
      { tmpData := front, isLowPrio := true, st := { p.st with m_lowPrioOutBuf := rest },
        events := p.events ++ [Event.popFrontLowPrio front] }
  else p

/-- Lines 181-194: the throttle test, the length check and the copy into the
staging buffer. -/
def copyPacket (P : Platform) (env : IterEnv) (p : Polled) : SenderThread :=
  match p.tmpData with
  | (some packet, some session) =>
    if !p.isLowPrio || session.GetId != p.st.m_lastInvalidSessionId then
      let tmpLen := packet.GetLen
      if tmpLen ≤ P.MAX_PACKET_SIZE then
        { p.st with
          m_curSession := some session,
          m_tmpOutBufSize := tmpLen,
          m_tmpOutBuf := memcpy p.st.m_tmpOutBuf packet.GetRawData tmpLen,
          sendTimer := some env.clockAtRestart }
      else p.st
    else p.st
  | _ => p.st

/-- Lines 155-195: when nothing is being sent, take one entry and stage it. -/
def dequeueAndStage (P : Platform) (env : IterEnv) (st : SenderThread) :
    SenderThread × List Event :=
  if st.m_tmpOutBufSize = 0 then
    let p := pollLowPrioQueue (pollMainQueue st)
    (copyPacket P env p, p.events)
  else (st, [])

/-- The optional call of the error callback (lines 226-227 and 237-238). -/
def reportUnlessBenign (P : Platform) (sessionId : Nat) (errorKind errCode : Int) :
    List Event :=
  if errCode != P.SOCKET_ERR_NOTCONN && errCode != P.SOCKET_ERR_NOTSOCK then
    [Event.signalNetError sessionId errorKind errCode]
  else []

/-- Lines 196-262: send the next chunk of the staging buffer, or sleep.
The result is `none` where the C++ has no defined behaviour to model: a null
`m_curSession` is dereferenced, or the `assert` of line 255 fails. -/
def sendChunk (P : Platform) (env : IterEnv) (st : SenderThread) :
    Option (SenderThread × List Event) :=
  if st.m_tmpOutBufSize ≠ 0 then
    match st.m_curSession with
    | none => none
    | some cur =>
      let tmpSocket := cur.GetSocket
      let sendCall := Event.send tmpSocket (st.m_tmpOutBuf.take st.m_tmpOutBufSize)
      let bytesSent := env.bytesSent
      if !P.IS_VALID_SEND bytesSent then
        let errCode := env.sendErrCode
        if P.IS_SOCKET_ERR_WOULDBLOCK errCode then
          let selectResult := env.selectResult
          if !P.IS_VALID_SELECT selectResult then
            let errCode := env.selectErrCode
            if !P.IS_SOCKET_ERR_WOULDBLOCK errCode then
              some (RemoveCurSendData st,
                [sendCall, Event.select tmpSocket]
                  ++ reportUnlessBenign P cur.GetId P.ERR_SOCK_SELECT_FAILED errCode
                  ++ [Event.msleep])
            else some (st, [sendCall, Event.select tmpSocket, Event.msleep])
          else some (st, [sendCall, Event.select tmpSocket])
        else
          some (RemoveCurSendData st,
            [sendCall] ++ reportUnlessBenign P cur.GetId P.ERR_SOCK_SEND_FAILED errCode
              ++ [Event.msleep])
      else if toUnsigned bytesSent < st.m_tmpOutBufSize then
        if bytesSent ≠ 0 then
          let newSize := st.m_tmpOutBufSize - toUnsigned bytesSent
          some ({ st with
                  m_tmpOutBufSize := newSize,
                  m_tmpOutBuf := memmove st.m_tmpOutBuf bytesSent.toNat newSize },
                [sendCall])
        else some (st, [sendCall, Event.msleep])
      else if bytesSent = (st.m_tmpOutBufSize : Int) then
        some ({ st with m_tmpOutBufSize := 0, m_curSession := none, sendTimer := none },
              [sendCall])
      else none
  else some (st, [Event.msleep])

/-- Lines 264-277: "Check whether the send timed out." -/
def checkSendTimeout (env : IterEnv) (st : SenderThread) : SenderThread × List Event :=
  match st.sendTimer with
  | some started =>
    if (env.clockAtCheck : Int) - (started : Int) > SEND_ERROR_TIMEOUT_MSEC then
      match st.m_curSession with
      | some cur =>
        ({ RemoveCurSendData { st with m_lastInvalidSessionId := cur.GetId } with
             sendTimer := none },
         [Event.logTimeout cur.GetId])
      | none => ({ RemoveCurSendData st with sendTimer := none }, [])
    else (st, [])
  | none => (st, [])

/-- One iteration of the `while` loop of `SenderThread::Main` (lines 150-278). -/
def MainIteration (P : Platform) (env : IterEnv) (st : SenderThread) :
    Option (SenderThread × List Event) :=
  let staged := dequeueAndStage P env st
  match sendChunk P env staged.1 with
  | none => none
  | some sent =>
    let checked := checkSendTimeout env sent.1
    some (checked.1, staged.2 ++ sent.2 ++ checked.2)

/-! ## Runs of the engine -/

/-- The states an engine can be in: the freshly constructed engine, and what
any of the four enqueue operations or a loop iteration makes of such a state. -/
inductive Reachable (P : Platform) : SenderThread → Prop where
  | init : Reachable P (SenderThread.init P)
  | send (st : SenderThread) (session : Option SessionData) (packet : Option NetPacket) :
      Reachable P st → Reachable P (Send P st session packet)
  | sendList (st : SenderThread) (session : Option SessionData) (packetList : NetPacketList) :
      Reachable P st → Reachable P (SendList P st session packetList)
  | sendLowPrio (st : SenderThread) (session : Option SessionData)
      (packet : Option NetPacket) :
      Reachable P st → Reachable P (SendLowPrio P st session packet)
  | sendLowPrioList (st : SenderThread) (session : Option SessionData)
      (packetList : NetPacketList) :
      Reachable P st → Reachable P (SendLowPrioList P st session packetList)
  | iterate (st st' : SenderThread) (env : IterEnv) (events : List Event) :
      Reachable P st → MainIteration P env st = some (st', events) → Reachable P st'

/-- A POSIX-like choice of the platform macros, used to evaluate the model on
concrete inputs: `send` and `select` fail with a negative result, error 11 is
"would block", 107 "not connected", 88 "not a socket". -/
def posixPlatform : Platform where
  MAX_PACKET_SIZE := 268
  INVALID_SESSION := 0
  IS_VALID_SEND := fun r => decide (0 ≤ r)
  IS_VALID_SELECT := fun r => decide (0 ≤ r)
  IS_SOCKET_ERR_WOULDBLOCK := fun e => e == 11
  SOCKET_ERR_NOTCONN := 107
  SOCKET_ERR_NOTSOCK := 88
  ERR_SOCK_SELECT_FAILED := 2
  ERR_SOCK_SEND_FAILED := 3
  POKERTH_DEDICATED_SERVER := false

/-- A three byte packet for concrete evaluations. -/
def packetA : NetPacket := { raw := [10, 20, 30], fits := by decide }

/-- A two byte packet for concrete evaluations. -/
def packetB : NetPacket := { raw := [7, 8], fits := by decide }

/-- A session for concrete evaluations. -/
def session1 : SessionData := { id := 1, socket := 5 }

/-- Another session for concrete evaluations. -/
def session2 : SessionData := { id := 2, socket := 6 }

/-- One step of a run: a call of one of the four enqueue operations by a
producer, or one iteration of the loop. -/
inductive Op where
  | send (session : Option SessionData) (packet : Option NetPacket)
  | sendList (session : Option SessionData) (packetList : NetPacketList)
  | sendLowPrio (session : Option SessionData) (packet : Option NetPacket)
  | sendLowPrioList (session : Option SessionData) (packetList : NetPacketList)
  | iterate (env : IterEnv)

/-- The engine after a step, and what the step did to the outside world. -/
def Op.step (P : Platform) (st : SenderThread) : Op → Option (SenderThread × List Event)
  | Op.send session packet => some (Send P st session packet, [])
  | Op.sendList session packetList => some (SendList P st session packetList, [])
  | Op.sendLowPrio session packet => some (SendLowPrio P st session packet, [])
  | Op.sendLowPrioList session packetList =>
    some (SendLowPrioList P st session packetList, [])
  | Op.iterate env => MainIteration P env st

/-- The entries a step offers to the normal queue, in the order in which
`InternalStore` would push them. -/
def Op.offered : Op → List SendData
  | Op.send session packet => [(packet, session)]
  | Op.sendList session packetList => packetList.map (fun p => (p, session))
  | _ => []

/-- The entries a step offers to the low-priority queue. -/
def Op.offeredLowPrio : Op → List SendData
  | Op.sendLowPrio session packet => [(packet, session)]
  | Op.sendLowPrioList session packetList => packetList.map (fun p => (p, session))
  | _ => []

/-- The entries a step admitted to a queue: what it offered if the step was
accepted (the queue grew), nothing if it was rejected. -/
def admittedBy (offered : List SendData) (before after : SendDataDeque) : List SendData :=
  if before.length < after.length then offered else []

/-- The entries the loop removed from the normal queue, in order. -/
def removedFrom (events : List Event) : List SendData :=
  events.filterMap (fun e => match e with
    | Event.popFront d => some d
    | _ => none)

/-- The entries the loop removed from the low-priority queue, in order. -/
def removedFromLowPrio (events : List Event) : List SendData :=
  events.filterMap (fun e => match e with
    | Event.popFrontLowPrio d => some d
    | _ => none)

/-- An engine together with the history of its two queues: the entries
admitted to each queue and the entries the loop removed from each queue, both
in chronological order. -/
structure Run where
  st : SenderThread
  admitted : List SendData
  removed : List SendData
  admittedLowPrio : List SendData
  removedLowPrio : List SendData

/-- The freshly constructed engine, with empty histories. -/
def Run.fresh (P : Platform) : Run where
  st := SenderThread.init P
  admitted := []
  removed := []
  admittedLowPrio := []
  removedLowPrio := []

/-- Executes the steps in order, extending the histories. -/
def run (P : Platform) : List Op → Run → Option Run
  | [], r => some r
  | op :: ops, r =>
    match op.step P r.st with
    | none => none
    | some (st', events) =>
      run P ops
        { st := st'
          admitted := r.admitted ++ admittedBy op.offered r.st.m_outBuf st'.m_outBuf
          removed := r.removed ++ removedFrom events
          admittedLowPrio := r.admittedLowPrio
            ++ admittedBy op.offeredLowPrio r.st.m_lowPrioOutBuf st'.m_lowPrioOutBuf
          removedLowPrio := r.removedLowPrio ++ removedFromLowPrio events }

/-- Consecutive loop iterations, one per environment, with no enqueue in
between: for each iteration the engine after it and its events. -/
def iterations (P : Platform) : List IterEnv → SenderThread →
    Option (List (SenderThread × List Event))
  | [], _ => some []
  | env :: envs, st =>
    match MainIteration P env st with
    | none => none
    | some r =>
      match iterations P envs r.1 with
      | none => none
      | some rs => some (r :: rs)

/-- The `send` calls among the events: socket and bytes offered. -/
def sendCalls (events : List Event) : List (Int × List Nat) :=
  events.filterMap (fun e => match e with
    | Event.send socket data => some (socket, data)
    | _ => none)

/-- The error callback invocations among the events. -/
def callbacks (events : List Event) : List (Nat × Int × Int) :=
  events.filterMap (fun e => match e with
    | Event.signalNetError sessionId errorKind errCode => some (sessionId, errorKind, errCode)
    | _ => none)

/-- The bytes the socket took in an iteration whose `send` accepted `n`
bytes: the first `n` of the bytes offered. -/
def acceptedBytes (events : List Event) (n : Nat) : List Nat :=
  (sendCalls events).flatMap (fun call => call.2.take n)

/-- An iteration environment in which `send` accepts `n` bytes and no time
passes, for concrete evaluations. -/
def acceptingEnv (n : Int) : IterEnv where
  clockAtRestart := 0
  bytesSent := n
  sendErrCode := 0
  selectResult := 0
  selectErrCode := 0
  clockAtCheck := 0

/-- A run for concrete evaluations: a batch of two on the normal queue, one
low-priority packet, an iteration that sends the first packet whole, one more
normal packet, and an iteration that sends the second packet whole. -/
def sampleOps : List Op :=
  [Op.sendList (some session1) [some packetA, some packetB],
   Op.sendLowPrio (some session2) (some packetB),
   Op.iterate (acceptingEnv 3),
   Op.send (some session2) (some packetA),
   Op.iterate (acceptingEnv 2)]

/-- The engine after `Send(session1, [null])` and
`SendLowPrio(session2, packetB)` on a fresh engine: a packet list may hold a
null pointer, and the packet-list overload of `Send` does not look at the
elements. -/
def nullFrontEngine : SenderThread :=
  SendLowPrio posixPlatform
    (SendList posixPlatform (SenderThread.init posixPlatform) (some session1) [none])
    (some session2) (some packetB)

/-- An engine that is draining `packetA` for `session1` since clock reading 0,
for concrete evaluations. -/
def drainingEngine : SenderThread where
  m_outBuf := []
  m_lowPrioOutBuf := []
  m_tmpOutBuf := [10, 20, 30]
  m_tmpOutBufSize := 3
  m_curSession := some session1
  m_lastInvalidSessionId := 0
  sendTimer := some 0

/-- An iteration environment in which `send` returns zero bytes and the
clock reads `now` at the timeout check, for concrete evaluations. -/
def stalledEnv (now : Nat) : IterEnv where
  clockAtRestart := 0
  bytesSent := 0
  sendErrCode := 0
  selectResult := 0
  selectErrCode := 0
  clockAtCheck := now

/-- A packet of length zero, for concrete evaluations. -/
def emptyPacket : NetPacket := { raw := [], fits := by decide }

/-- A run that ends idle with the marker equal to the id of `session1` and a
zero-length packet for `session1` at the front of the normal queue: a packet
for `session1` stalls until the deadline has passed, then the zero-length
packet is enqueued. -/
def markerOps : List Op :=
  [Op.send (some session1) (some packetA),
   Op.iterate (stalledEnv 20001),
   Op.send (some session1) (some emptyPacket)]

/-- A packet one byte longer than the `MAX_PACKET_SIZE` of `posixPlatform`. -/
def oversizedPacket : NetPacket where
  raw := List.replicate 269 0
  fits := by rw [List.length_replicate]; omega

/-- A packet of exactly the `MAX_PACKET_SIZE` of `posixPlatform`. -/
def maxSizePacket : NetPacket where
  raw := List.replicate 268 0
  fits := by rw [List.length_replicate]; omega

/-- The engine after `n` single-packet `Send` calls on a fresh engine. -/
def engineWith : Nat → SenderThread
  | 0 => SenderThread.init posixPlatform
  | n + 1 => Send posixPlatform (engineWith n) (some session1) (some packetA)

/-- An iteration environment in which `send` fails (returns -1) with error
code `sendErr`, `select` returns `selectResult` with error code `selectErr`,
and no time passes, for concrete evaluations. -/
def failingEnv (sendErr selectResult selectErr : Int) : IterEnv where
  clockAtRestart := 0
  bytesSent := -1
  sendErrCode := sendErr
  selectResult := selectResult
  selectErrCode := selectErr
  clockAtCheck := 0

/-- Executes the steps in order and collects everything the engine did to
the outside world, in chronological order. -/
def runEvents (P : Platform) : List Op → SenderThread → Option (SenderThread × List Event)
  | [], st => some (st, [])
  | op :: ops, st =>
    match op.step P st with
    | none => none
    | some (st', events) =>
      match runEvents P ops st' with
      | none => none
      | some (st'', later) => some (st'', events ++ later)

/-- The sessions reported by the timeout log message of line 272, that is,
the sessions that were current when the stall-timeout check fired, in
chronological order. -/
def timedOutSessions (events : List Event) : List Nat :=
  events.filterMap (fun e => match e with
    | Event.logTimeout sessionId => some sessionId
    | _ => none)

/-- A run in which only the normal queue is used: a packet for `session1` is
enqueued with `Send`, and the iteration that stages it sees `send` return zero
bytes and the clock pass the stall deadline. -/
def normalTimeoutOps : List Op :=
  [Op.send (some session1) (some packetA),
   Op.iterate (stalledEnv 20001)]

/-- The non-null packets a step offers all have a positive length. -/
def Op.packetsPositive : Op → Prop
  | Op.send _ packet => ∀ p ∈ packet, 0 < p.GetLen
  | Op.sendList _ packetList => ∀ q ∈ packetList, ∀ p ∈ q, 0 < p.GetLen
  | Op.sendLowPrio _ packet => ∀ p ∈ packet, 0 < p.GetLen
  | Op.sendLowPrioList _ packetList => ∀ q ∈ packetList, ∀ p ∈ q, 0 < p.GetLen
  | Op.iterate _ => True

/-- The non-null packets of the entries of a queue all have a positive length. -/
def packetsPositive (q : SendDataDeque) : Prop :=
  ∀ e ∈ q, ∀ p ∈ e.1, 0 < p.GetLen

/-- A run in which a zero-length packet for `session1` is enqueued and
staged, nothing else is enqueued, and the clock reads 0, 100 and then 20001
at the timeout checks of three iterations. -/
def zeroLengthOps : List Op :=
  [Op.send (some session1) (some emptyPacket),
   Op.iterate (stalledEnv 0),
   Op.iterate (stalledEnv 100),
   Op.iterate (stalledEnv 20001)]

/-- The stall-timeout condition in the words of the spec, read off the engine
as it is when the end-of-iteration check runs: the session that times out is
the current session, if the stall timer is running and more than 20000 ms
have elapsed since it was started; otherwise no session times out. -/
def firedSession (env : IterEnv) (st : SenderThread) : Option SessionData :=
  match st.sendTimer with
  | none => none
  | some started =>
    if (env.clockAtCheck : Int) - (started : Int) > 20000 then st.m_curSession else none

/-- The session that times out in the iteration that starts from `st`: the
one for which the stall-timeout condition holds after the dequeue block and
the send block of that iteration. -/
def timedOutSession (P : Platform) (env : IterEnv) (st : SenderThread) :
    Option SessionData :=
  match sendChunk P env (dequeueAndStage P env st).1 with
  | none => none
  | some sent => firedSession env sent.1

/-- The id of the session that times out in a step, if any; enqueue
operations time nothing out. -/
def Op.timedOut (P : Platform) (st : SenderThread) : Op → Option Nat
  | Op.iterate env => (timedOutSession P env st).map SessionData.GetId
  | _ => none

/-- Executes the steps in order and collects the ids of the sessions that
timed out, in chronological order. -/
def runTimeouts (P : Platform) : List Op → SenderThread → Option (SenderThread × List Nat)
  | [], st => some (st, [])
  | op :: ops, st =>
    match op.step P st with
    | none => none
    | some (st', _) =>
      match runTimeouts P ops st' with
      | none => none
      | some (st'', later) => some (st'', (op.timedOut P st).toList ++ later)

/-- The socket accepts no bytes in this iteration: `send` returns zero bytes,
or fails with "would block" and the writability wait does not fail. -/
def socketStalls (P : Platform) (env : IterEnv) : Prop :=
  (P.IS_VALID_SEND env.bytesSent = true ∧ env.bytesSent = 0)
    ∨ (P.IS_VALID_SEND env.bytesSent = false
        ∧ P.IS_SOCKET_ERR_WOULDBLOCK env.sendErrCode = true
        ∧ P.IS_VALID_SELECT env.selectResult = true)

/-- The engine a run ends in (the fresh engine if the run does not return),
for concrete evaluations. -/
def engineAfter (ops : List Op) : SenderThread :=
  match runEvents posixPlatform ops (SenderThread.init posixPlatform) with
  | some (st, _) => st
  | none => SenderThread.init posixPlatform

/-- A run that leaves the stall timer running with no packet in progress: a
packet for `session1` is staged at clock reading 0 and its `send` fails with
error 32, which abandons the packet without stopping the timer; then a packet
for `session2` is enqueued. -/
def staleTimerOps : List Op :=
  [Op.send (some session1) (some packetA),
   Op.iterate (failingEnv 32 0 0),
   Op.send (some session2) (some packetA)]

/-! ## Basic facts about the enqueue operations -/

theorem foldl_push_back (session : Option SessionData) (packetList : NetPacketList)
    (q : SendDataDeque) :
    packetList.foldl (fun q i => q ++ [(i, session)]) q
      = q ++ packetList.map (fun i => (i, session)) := by
  induction packetList generalizing q with
  | nil => simp
  | cons p ps ih => simp [ih]

theorem InternalStore_length_le (q : SendDataDeque) (m : Nat) (session : Option SessionData)
    (packet : Option NetPacket) (h : q.length ≤ m) :
    (InternalStore q m session packet).length ≤ m := by
  unfold InternalStore
  split
  · simp; omega
  · exact h

theorem InternalStoreList_eq (q : SendDataDeque) (m : Nat) (session : Option SessionData)
    (packetList : NetPacketList) :
    InternalStoreList q m session packetList
      = if q.length + packetList.length < m then
          q ++ packetList.map (fun i => (i, session))
        else q := by
  unfold InternalStoreList
  rw [foldl_push_back]

theorem InternalStoreList_length_le (q : SendDataDeque) (m : Nat)
    (session : Option SessionData) (packetList : NetPacketList) (h : q.length ≤ m) :
    (InternalStoreList q m session packetList).length ≤ m := by
  rw [InternalStoreList_eq]
  split
  · simp; omega
  · exact h

/-! ## Basic facts about the loop iteration -/

theorem pollMainQueue_lowPrio (st : SenderThread) :
    (pollMainQueue st).st.m_lowPrioOutBuf = st.m_lowPrioOutBuf := by
  unfold pollMainQueue
  split <;> rfl

theorem pollMainQueue_outBuf_length (st : SenderThread) :
    (pollMainQueue st).st.m_outBuf.length ≤ st.m_outBuf.length := by
  unfold pollMainQueue
  split
  · simp
  · rename_i front rest h
    simp [h]

theorem pollLowPrioQueue_outBuf (p : Polled) :
    (pollLowPrioQueue p).st.m_outBuf = p.st.m_outBuf := by
  unfold pollLowPrioQueue
  split
  · split <;> rfl
  · rfl

theorem pollLowPrioQueue_lowPrio_length (p : Polled) :
    (pollLowPrioQueue p).st.m_lowPrioOutBuf.length ≤ p.st.m_lowPrioOutBuf.length := by
  unfold pollLowPrioQueue
  split
  · split
    · simp
    · rename_i front rest h
      simp [h]
  · simp

theorem copyPacket_queues (P : Platform) (env : IterEnv) (p : Polled) :
    (copyPacket P env p).m_outBuf = p.st.m_outBuf
      ∧ (copyPacket P env p).m_lowPrioOutBuf = p.st.m_lowPrioOutBuf := by
  unfold copyPacket
  split
  · dsimp only
    split
    · split <;> simp
    · simp
  · simp

theorem dequeueAndStage_queues_length (P : Platform) (env : IterEnv) (st : SenderThread) :
    (dequeueAndStage P env st).1.m_outBuf.length ≤ st.m_outBuf.length
      ∧ (dequeueAndStage P env st).1.m_lowPrioOutBuf.length ≤ st.m_lowPrioOutBuf.length := by
  unfold dequeueAndStage
  split
  · simp only [(copyPacket_queues P env _).1, (copyPacket_queues P env _).2,
      pollLowPrioQueue_outBuf]
    constructor
    · exact pollMainQueue_outBuf_length st
    · have h := pollLowPrioQueue_lowPrio_length (pollMainQueue st)
      rw [pollMainQueue_lowPrio] at h
      exact h
  · simp

theorem sendChunk_queues (P : Platform) (env : IterEnv) (st st' : SenderThread)
    (events : List Event) (h : sendChunk P env st = some (st', events)) :
    st'.m_outBuf = st.m_outBuf ∧ st'.m_lowPrioOutBuf = st.m_lowPrioOutBuf := by
  unfold sendChunk at h
  split at h
  · split at h
    · simp at h
    · simp only at h
      repeat' split at h
      all_goals first
        | (simp at h; done)
        | (simp only [Option.some.injEq, Prod.mk.injEq] at h
           obtain ⟨h1, _⟩ := h
           subst h1
           simp [RemoveCurSendData])
  · simp only [Option.some.injEq, Prod.mk.injEq] at h
    obtain ⟨h1, _⟩ := h
    subst h1
    simp

theorem checkSendTimeout_queues (env : IterEnv) (st : SenderThread) :
    (checkSendTimeout env st).1.m_outBuf = st.m_outBuf
      ∧ (checkSendTimeout env st).1.m_lowPrioOutBuf = st.m_lowPrioOutBuf := by
  unfold checkSendTimeout
  repeat' split
  all_goals simp [RemoveCurSendData]

theorem MainIteration_some (P : Platform) (env : IterEnv) (st st' : SenderThread)
    (events : List Event) (h : MainIteration P env st = some (st', events)) :
    ∃ sent : SenderThread × List Event,
      sendChunk P env (dequeueAndStage P env st).1 = some sent
        ∧ st' = (checkSendTimeout env sent.1).1
        ∧ events = (dequeueAndStage P env st).2 ++ sent.2 ++ (checkSendTimeout env sent.1).2 := by
  unfold MainIteration at h
  simp only at h
  split at h
  · simp at h
  · rename_i sent hs
    simp only [Option.some.injEq, Prod.mk.injEq] at h
    exact ⟨sent, hs, h.1.symm, h.2.symm⟩

theorem MainIteration_queues_length (P : Platform) (env : IterEnv) (st st' : SenderThread)
    (events : List Event) (h : MainIteration P env st = some (st', events)) :
    st'.m_outBuf.length ≤ st.m_outBuf.length
      ∧ st'.m_lowPrioOutBuf.length ≤ st.m_lowPrioOutBuf.length := by
  obtain ⟨sent, hs, hst, _⟩ := MainIteration_some P env st st' events h
  have h1 := sendChunk_queues P env _ sent.1 sent.2 hs
  have h2 := checkSendTimeout_queues env sent.1
  have h3 := dequeueAndStage_queues_length P env st
  subst hst
  rw [h2.1, h2.2, h1.1, h1.2]
  exact h3

/-- Both queues of a reachable engine respect their capacities. -/
theorem reachable_capacity (P : Platform) (st : SenderThread) (h : Reachable P st) :
    st.m_outBuf.length ≤ SEND_QUEUE_SIZE P
      ∧ st.m_lowPrioOutBuf.length ≤ SEND_LOW_PRIO_QUEUE_SIZE P := by
  induction h with
  | init => simp [SenderThread.init]
  | send st session packet _ ih =>
    unfold Send
    split
    · exact ⟨InternalStore_length_le _ _ _ _ ih.1, ih.2⟩
    · exact ih
  | sendList st session packetList _ ih =>
    unfold SendList
    split
    · exact ⟨InternalStoreList_length_le _ _ _ _ ih.1, ih.2⟩
    · exact ih
  | sendLowPrio st session packet _ ih =>
    unfold SendLowPrio
    split
    · exact ⟨ih.1, InternalStore_length_le _ _ _ _ ih.2⟩
    · exact ih
  | sendLowPrioList st session packetList _ ih =>
    unfold SendLowPrioList
    split
    · exact ⟨ih.1, InternalStoreList_length_le _ _ _ _ ih.2⟩
    · exact ih
  | iterate st st' env events _ hit ih =>
    have h := MainIteration_queues_length P env st st' events hit
    exact ⟨le_trans h.1 ih.1, le_trans h.2 ih.2⟩

/-! ## History of the queues -/

theorem removedFrom_append (a b : List Event) :
    removedFrom (a ++ b) = removedFrom a ++ removedFrom b := by
  simp [removedFrom]

theorem removedFromLowPrio_append (a b : List Event) :
    removedFromLowPrio (a ++ b) = removedFromLowPrio a ++ removedFromLowPrio b := by
  simp [removedFromLowPrio]

theorem removed_reportUnlessBenign (P : Platform) (i : Nat) (k e : Int) :
    removedFrom (reportUnlessBenign P i k e) = []
      ∧ removedFromLowPrio (reportUnlessBenign P i k e) = [] := by
  unfold reportUnlessBenign
  split <;> simp [removedFrom, removedFromLowPrio]

theorem sendChunk_removed (P : Platform) (env : IterEnv) (st st' : SenderThread)
    (events : List Event) (h : sendChunk P env st = some (st', events)) :
    removedFrom events = [] ∧ removedFromLowPrio events = [] := by
  unfold sendChunk at h
  split at h
  · split at h
    · simp at h
    · simp only at h
      repeat' split at h
      all_goals first
        | (simp at h; done)
        | (simp only [Option.some.injEq, Prod.mk.injEq] at h
           obtain ⟨_, h2⟩ := h
           subst h2
           first
             | (simp [removedFrom, removedFromLowPrio]; done)
             | (unfold reportUnlessBenign
                split <;> simp [removedFrom, removedFromLowPrio]))
  · simp only [Option.some.injEq, Prod.mk.injEq] at h
    obtain ⟨_, h2⟩ := h
    subst h2
    simp [removedFrom, removedFromLowPrio]

theorem checkSendTimeout_removed (env : IterEnv) (st : SenderThread) :
    removedFrom (checkSendTimeout env st).2 = []
      ∧ removedFromLowPrio (checkSendTimeout env st).2 = [] := by
  unfold checkSendTimeout
  repeat' split
  all_goals simp [removedFrom, removedFromLowPrio]

theorem dequeueAndStage_history (P : Platform) (env : IterEnv) (st : SenderThread) :
    st.m_outBuf = removedFrom (dequeueAndStage P env st).2
        ++ (dequeueAndStage P env st).1.m_outBuf
      ∧ st.m_lowPrioOutBuf = removedFromLowPrio (dequeueAndStage P env st).2
        ++ (dequeueAndStage P env st).1.m_lowPrioOutBuf := by
  unfold dequeueAndStage
  split
  · simp only [(copyPacket_queues P env _).1, (copyPacket_queues P env _).2]
    unfold pollLowPrioQueue pollMainQueue
    cases hq : st.m_outBuf with
    | nil =>
      cases hl : st.m_lowPrioOutBuf with
      | nil => simp [removedFrom, removedFromLowPrio, hq, hl]
      | cons f r => simp [removedFrom, removedFromLowPrio, hq, hl]
    | cons front rest =>
      cases hl : st.m_lowPrioOutBuf with
      | nil =>
        simp only []
        split <;> simp [removedFrom, removedFromLowPrio, hq, hl]
      | cons f r =>
        simp only []
        split <;> simp [removedFrom, removedFromLowPrio, hq, hl]
  · simp [removedFrom, removedFromLowPrio]

theorem MainIteration_history (P : Platform) (env : IterEnv) (st st' : SenderThread)
    (events : List Event) (h : MainIteration P env st = some (st', events)) :
    st.m_outBuf = removedFrom events ++ st'.m_outBuf
      ∧ st.m_lowPrioOutBuf = removedFromLowPrio events ++ st'.m_lowPrioOutBuf := by
  obtain ⟨sent, hs, hst, hev⟩ := MainIteration_some P env st st' events h
  have h1 := sendChunk_queues P env _ sent.1 sent.2 hs
  have h2 := checkSendTimeout_queues env sent.1
  have h3 := dequeueAndStage_history P env st
  have h4 := sendChunk_removed P env _ sent.1 sent.2 hs
  have h5 := checkSendTimeout_removed env sent.1
  subst hst hev
  simp only [removedFrom_append, removedFromLowPrio_append, h4.1, h4.2, h5.1, h5.2,
    List.append_nil, h2.1, h2.2, h1.1, h1.2]
  exact h3

theorem step_history (P : Platform) (op : Op) (st st' : SenderThread) (events : List Event)
    (h : op.step P st = some (st', events)) :
    st.m_outBuf ++ admittedBy op.offered st.m_outBuf st'.m_outBuf
        = removedFrom events ++ st'.m_outBuf
      ∧ st.m_lowPrioOutBuf
          ++ admittedBy op.offeredLowPrio st.m_lowPrioOutBuf st'.m_lowPrioOutBuf
        = removedFromLowPrio events ++ st'.m_lowPrioOutBuf := by
  cases op with
  | send session packet =>
    simp only [Op.step, Option.some.injEq, Prod.mk.injEq] at h
    obtain ⟨h1, h2⟩ := h
    subst h1 h2
    unfold Send InternalStore admittedBy
    split
    · split <;> simp [Op.offered, Op.offeredLowPrio, removedFrom, removedFromLowPrio]
    · simp [removedFrom, removedFromLowPrio]
  | sendList session packetList =>
    simp only [Op.step, Option.some.injEq, Prod.mk.injEq] at h
    obtain ⟨h1, h2⟩ := h
    subst h1 h2
    unfold SendList admittedBy
    rw [InternalStoreList_eq]
    split
    · split
      · rename_i hc hl
        have hne : 0 < packetList.length := by
          cases packetList with
          | nil => simp at hc
          | cons a l => simp
        simp [Op.offered, Op.offeredLowPrio, removedFrom, removedFromLowPrio, hne]
      · simp [removedFrom, removedFromLowPrio]
    · simp [removedFrom, removedFromLowPrio]
  | sendLowPrio session packet =>
    simp only [Op.step, Option.some.injEq, Prod.mk.injEq] at h
    obtain ⟨h1, h2⟩ := h
    subst h1 h2
    unfold SendLowPrio InternalStore admittedBy
    split
    · split <;> simp [Op.offered, Op.offeredLowPrio, removedFrom, removedFromLowPrio]
    · simp [removedFrom, removedFromLowPrio]
  | sendLowPrioList session packetList =>
    simp only [Op.step, Option.some.injEq, Prod.mk.injEq] at h
    obtain ⟨h1, h2⟩ := h
    subst h1 h2
    unfold SendLowPrioList admittedBy
    rw [InternalStoreList_eq]
    split
    · split
      · rename_i hc hl
        have hne : 0 < packetList.length := by
          cases packetList with
          | nil => simp at hc
          | cons a l => simp
        simp [Op.offered, Op.offeredLowPrio, removedFrom, removedFromLowPrio, hne]
      · simp [removedFrom, removedFromLowPrio]
    · simp [removedFrom, removedFromLowPrio]
  | iterate env =>
    simp only [Op.step] at h
    have hh := MainIteration_history P env st st' events h
    simp only [admittedBy, Op.offered, Op.offeredLowPrio, ite_self, List.append_nil]
    exact hh

theorem run_history (P : Platform) (ops : List Op) (r r' : Run)
    (hinv : r.admitted = r.removed ++ r.st.m_outBuf
      ∧ r.admittedLowPrio = r.removedLowPrio ++ r.st.m_lowPrioOutBuf)
    (h : run P ops r = some r') :
    r'.admitted = r'.removed ++ r'.st.m_outBuf
      ∧ r'.admittedLowPrio = r'.removedLowPrio ++ r'.st.m_lowPrioOutBuf := by
  induction ops generalizing r with
  | nil =>
    simp only [run, Option.some.injEq] at h
    subst h
    exact hinv
  | cons op ops ih =>
    simp only [run] at h
    split at h
    · simp at h
    · rename_i st' events hstep
      have hs := step_history P op r.st st' events hstep
      apply ih _ _ h
      constructor
      · simp only [hinv.1, List.append_assoc, hs.1]
      · simp only [hinv.2, List.append_assoc, hs.2]

/-! ## The enqueue contracts -/

/-- C1 (capacity invariant). In every state reachable from a freshly
constructed engine by any sequence of the four enqueue operations and loop
iterations, the normal queue holds at most `SEND_QUEUE_SIZE` entries and the
low-priority queue at most `SEND_LOW_PRIO_QUEUE_SIZE` entries; these are 1000
and 10000 in the default build, 10000 and 10000000 in the dedicated-server
build. -/
theorem capacity_invariant (P : Platform) (st : SenderThread) (h : Reachable P st) :
    st.m_outBuf.length ≤ SEND_QUEUE_SIZE P
      ∧ st.m_lowPrioOutBuf.length ≤ SEND_LOW_PRIO_QUEUE_SIZE P
      ∧ (P.POKERTH_DEDICATED_SERVER = false →
          SEND_QUEUE_SIZE P = 1000 ∧ SEND_LOW_PRIO_QUEUE_SIZE P = 10000)
      ∧ (P.POKERTH_DEDICATED_SERVER = true →
          SEND_QUEUE_SIZE P = 10000 ∧ SEND_LOW_PRIO_QUEUE_SIZE P = 10000000) := by
  refine ⟨(reachable_capacity P st h).1, (reachable_capacity P st h).2, ?_, ?_⟩
  · intro hd
    simp [SEND_QUEUE_SIZE, SEND_LOW_PRIO_QUEUE_SIZE, hd]
  · intro hd
    simp [SEND_QUEUE_SIZE, SEND_LOW_PRIO_QUEUE_SIZE, hd]

/-- The capacity invariant at the engine that received one `Send` and one
`SendLowPrio` batch. -/
theorem capacity_invariant_witness :
    Reachable posixPlatform
        (SendLowPrioList posixPlatform
          (Send posixPlatform (SenderThread.init posixPlatform) (some session1) (some packetA))
          (some session2) [some packetA, some packetB])
      ∧ (SendLowPrioList posixPlatform
          (Send posixPlatform (SenderThread.init posixPlatform) (some session1) (some packetA))
          (some session2) [some packetA, some packetB]).m_outBuf.length
          ≤ SEND_QUEUE_SIZE posixPlatform :=
  ⟨Reachable.sendLowPrioList _ _ _ (Reachable.send _ _ _ Reachable.init),
   (capacity_invariant posixPlatform _
     (Reachable.sendLowPrioList _ _ _ (Reachable.send _ _ _ Reachable.init))).1⟩

/-- C2 (batch atomicity). For every queue `q` with capacity `maxSize`, every
non-null session and every non-empty packet list, the batch enqueue appends
all entries at the back, in list order and each paired with the session,
exactly when `q.length + packetList.length < maxSize`, and otherwise leaves the
queue unchanged; a batch that would fill the queue to exactly `maxSize` is
rejected as a whole. The same holds for `Send` and `SendLowPrio` with a packet
list, on the normal and the low-priority queue of an engine. -/
theorem batch_atomicity (P : Platform) (q : SendDataDeque) (maxSize : Nat)
    (st : SenderThread) (session : SessionData) (packetList : NetPacketList)
    (hne : packetList ≠ []) :
    (InternalStoreList q maxSize (some session) packetList
        = if q.length + packetList.length < maxSize then
            q ++ packetList.map (fun p => (p, some session))
          else q)
      ∧ (q.length + packetList.length = maxSize →
          InternalStoreList q maxSize (some session) packetList = q)
      ∧ (SendList P st (some session) packetList
          = if st.m_outBuf.length + packetList.length < SEND_QUEUE_SIZE P then
              { st with
                m_outBuf := st.m_outBuf ++ packetList.map (fun p => (p, some session)) }
            else st)
      ∧ (SendLowPrioList P st (some session) packetList
          = if st.m_lowPrioOutBuf.length + packetList.length < SEND_LOW_PRIO_QUEUE_SIZE P then
              { st with
                m_lowPrioOutBuf :=
                  st.m_lowPrioOutBuf ++ packetList.map (fun p => (p, some session)) }
            else st) := by
  have hemp : packetList.isEmpty = false := by
    cases packetList with
    | nil => exact absurd rfl hne
    | cons a l => rfl
  refine ⟨InternalStoreList_eq _ _ _ _, ?_, ?_, ?_⟩
  · intro h
    rw [InternalStoreList_eq, if_neg (by omega)]
  · unfold SendList
    rw [InternalStoreList_eq]
    simp only [hemp, Bool.not_false, Option.isSome_some, Bool.and_self, if_true]
    split <;> rfl
  · unfold SendLowPrioList
    rw [InternalStoreList_eq]
    simp only [hemp, Bool.not_false, Option.isSome_some, Bool.and_self, if_true]
    split <;> rfl

/-- Batch atomicity at a two-packet batch offered to a fresh engine: both
entries are admitted, in list order. -/
theorem batch_atomicity_witness :
    [some packetA, some packetB] ≠ ([] : NetPacketList)
      ∧ (SendList posixPlatform (SenderThread.init posixPlatform) (some session1)
          [some packetA, some packetB]).m_outBuf
          = [(some packetA, some session1), (some packetB, some session1)] :=
  ⟨by simp, by
    rw [(batch_atomicity posixPlatform [] 0 (SenderThread.init posixPlatform) session1
      [some packetA, some packetB] (by simp)).2.2.1, if_pos (by decide)]
    rfl⟩

/-- C3 (single-packet enqueue). `Send` appends `(packet, session)` at the
back of the normal queue exactly when the session is non-null, the packet is
non-null and the normal queue holds fewer than `SEND_QUEUE_SIZE` entries; in
every other case it returns the engine unchanged. `SendLowPrio` does the same
on the low-priority queue with `SEND_LOW_PRIO_QUEUE_SIZE`. -/
theorem single_enqueue (P : Platform) (st : SenderThread) (session : Option SessionData)
    (packet : Option NetPacket) :
    (Send P st session packet
        = if session.isSome = true ∧ packet.isSome = true
              ∧ st.m_outBuf.length < SEND_QUEUE_SIZE P then
            { st with m_outBuf := st.m_outBuf ++ [(packet, session)] }
          else st)
      ∧ (SendLowPrio P st session packet
        = if session.isSome = true ∧ packet.isSome = true
              ∧ st.m_lowPrioOutBuf.length < SEND_LOW_PRIO_QUEUE_SIZE P then
            { st with m_lowPrioOutBuf := st.m_lowPrioOutBuf ++ [(packet, session)] }
          else st) := by
  constructor
  · unfold Send InternalStore
    by_cases hs : session.isSome = true <;> by_cases hp : packet.isSome = true <;>
      by_cases hl : st.m_outBuf.length < SEND_QUEUE_SIZE P <;> simp [hs, hp, hl]
  · unfold SendLowPrio InternalStore
    by_cases hs : session.isSome = true <;> by_cases hp : packet.isSome = true <;>
      by_cases hl : st.m_lowPrioOutBuf.length < SEND_LOW_PRIO_QUEUE_SIZE P <;>
      simp [hs, hp, hl]

/-! ## The dequeue contracts -/

/-- C4 (FIFO preservation). For every run of enqueue operations (single and
batch, accepted or rejected) interleaved with loop iterations on a fresh
engine, and for each of the two queues: the entries the loop removed from the
queue, followed by the entries still queued, are exactly the entries admitted
to that queue in admission order (batch entries in list order). So the removed
entries are a prefix of the admitted ones and the queue is the remaining
suffix. -/
theorem fifo_preservation (P : Platform) (ops : List Op) (r : Run)
    (h : run P ops (Run.fresh P) = some r) :
    (r.removed ++ r.st.m_outBuf = r.admitted
        ∧ r.removed <+: r.admitted
        ∧ r.st.m_outBuf = r.admitted.drop r.removed.length)
      ∧ (r.removedLowPrio ++ r.st.m_lowPrioOutBuf = r.admittedLowPrio
        ∧ r.removedLowPrio <+: r.admittedLowPrio
        ∧ r.st.m_lowPrioOutBuf = r.admittedLowPrio.drop r.removedLowPrio.length) := by
  have hinv := run_history P ops (Run.fresh P) r (by simp [Run.fresh, SenderThread.init]) h
  refine ⟨⟨hinv.1.symm, ?_, ?_⟩, ⟨hinv.2.symm, ?_, ?_⟩⟩
  · rw [hinv.1]; exact List.prefix_append _ _
  · rw [hinv.1]; simp
  · rw [hinv.2]; exact List.prefix_append _ _
  · rw [hinv.2]; simp

/-- FIFO preservation on the sample run: the loop removed the two batch
entries in list order, and the later packet is what remains queued. -/
theorem fifo_preservation_witness :
    ∃ r, run posixPlatform sampleOps (Run.fresh posixPlatform) = some r
      ∧ r.removed = [(some packetA, some session1), (some packetB, some session1)]
      ∧ r.st.m_outBuf = [(some packetA, some session2)]
      ∧ r.st.m_outBuf = r.admitted.drop r.removed.length :=
  ⟨_, rfl, rfl, rfl, (fifo_preservation posixPlatform sampleOps _ rfl).1.2.2⟩

/-- With a non-null packet at the front of the normal queue, an idle
iteration removes exactly that entry from the normal queue and leaves the
low-priority queue alone. -/
theorem priority_precedence_nonnull (P : Platform) (env : IterEnv) (st st' : SenderThread)
    (events : List Event) (packet : NetPacket) (session : Option SessionData)
    (rest : SendDataDeque) (hidle : st.m_tmpOutBufSize = 0)
    (hfront : st.m_outBuf = (some packet, session) :: rest)
    (h : MainIteration P env st = some (st', events)) :
    removedFrom events = [(some packet, session)] ∧ st'.m_outBuf = rest
      ∧ removedFromLowPrio events = [] ∧ st'.m_lowPrioOutBuf = st.m_lowPrioOutBuf := by
  obtain ⟨sent, hs, _, hev⟩ := MainIteration_some P env st st' events h
  have h4 := sendChunk_removed P env _ sent.1 sent.2 hs
  have h5 := checkSendTimeout_removed env sent.1
  have hd : (dequeueAndStage P env st).2 = [Event.popFront (some packet, session)] := by
    simp [dequeueAndStage, hidle, pollLowPrioQueue, pollMainQueue, hfront]
  have hr : removedFrom events = [(some packet, session)] := by
    rw [hev, removedFrom_append, removedFrom_append, h4.1, h5.1, hd]
    simp [removedFrom]
  have hl : removedFromLowPrio events = [] := by
    rw [hev, removedFromLowPrio_append, removedFromLowPrio_append, h4.2, h5.2, hd]
    simp [removedFromLowPrio]
  have hh := MainIteration_history P env st st' events h
  rw [hr, hfront] at hh
  rw [hl] at hh
  refine ⟨hr, ?_, hl, ?_⟩
  · have h1 := hh.1
    simp only [List.singleton_append, List.cons.injEq, true_and] at h1
    exact h1.symm
  · simpa using hh.2.symm

/-- C5 (priority precedence), the code at the failing input. The engine
`nullFrontEngine` is reachable, idle, and has both queues non-empty; its
normal queue starts with an entry whose packet pointer is null. The iteration
pops that entry, then, because the test before the low-priority poll is
`!tmpData.first.get()` and not "the normal queue was empty", also pops the
front of the low-priority queue and sends it: the low-priority queue does not
stay unchanged. -/
theorem priority_precedence_null_front :
    Reachable posixPlatform nullFrontEngine
      ∧ nullFrontEngine.m_tmpOutBufSize = 0
      ∧ nullFrontEngine.m_outBuf = [(none, some session1)]
      ∧ nullFrontEngine.m_lowPrioOutBuf = [(some packetB, some session2)]
      ∧ ∃ st', MainIteration posixPlatform (acceptingEnv 2) nullFrontEngine
          = some (st',
              [Event.popFront (none, some session1),
               Event.popFrontLowPrio (some packetB, some session2),
               Event.send 6 [7, 8]])
        ∧ st'.m_outBuf = [] ∧ st'.m_lowPrioOutBuf = [] :=
  ⟨Reachable.sendLowPrio _ _ _ (Reachable.sendList _ _ _ Reachable.init),
   rfl, rfl, rfl, _, rfl, rfl, rfl⟩

/-! ## Draining the staging buffer -/

theorem toUnsigned_ofNat (n : Nat) (h : n < 2 ^ 32) : toUnsigned (n : Int) = n := by
  unfold toUnsigned
  omega

/-- An iteration in which, after the dequeue block, a packet is staged and
the socket takes part of the buffer. -/
theorem MainIteration_partial (P : Platform) (env : IterEnv) (st : SenderThread)
    (cur : SessionData) (started c : Nat)
    (hcur : (dequeueAndStage P env st).1.m_curSession = some cur)
    (htimer : (dequeueAndStage P env st).1.sendTimer = some started)
    (hc : 0 < c) (hlt : c < (dequeueAndStage P env st).1.m_tmpOutBufSize)
    (hsize : (dequeueAndStage P env st).1.m_tmpOutBufSize < 2 ^ 32)
    (hsent : env.bytesSent = (c : Int)) (hvalid : P.IS_VALID_SEND (c : Int) = true)
    (htime : (env.clockAtCheck : Int) - (started : Int) ≤ SEND_ERROR_TIMEOUT_MSEC) :
    MainIteration P env st
      = some ({ (dequeueAndStage P env st).1 with
                m_tmpOutBufSize := (dequeueAndStage P env st).1.m_tmpOutBufSize - c,
                m_tmpOutBuf := memmove (dequeueAndStage P env st).1.m_tmpOutBuf c
                  ((dequeueAndStage P env st).1.m_tmpOutBufSize - c) },
              (dequeueAndStage P env st).2
                ++ [Event.send cur.GetSocket
                    ((dequeueAndStage P env st).1.m_tmpOutBuf.take
                      (dequeueAndStage P env st).1.m_tmpOutBufSize)]) := by
  unfold MainIteration
  generalize dequeueAndStage P env st = ds at *
  obtain ⟨s, evs⟩ := ds
  simp only at hcur htimer hlt hsize
  have hne : s.m_tmpOutBufSize ≠ 0 := by omega
  have hu : toUnsigned (c : Int) = c := toUnsigned_ofNat c (by omega)
  have hc0 : (c : Int) ≠ 0 := by omega
  have ht : ¬ ((env.clockAtCheck : Int) - (started : Int) > SEND_ERROR_TIMEOUT_MSEC) := by
    omega
  simp [sendChunk, checkSendTimeout, hne, hcur, htimer, hsent, hvalid, hu, hlt, hc0, ht]

/-- An iteration in which, after the dequeue block, a packet is staged and
the socket takes the whole buffer. -/
theorem MainIteration_full (P : Platform) (env : IterEnv) (st : SenderThread)
    (cur : SessionData)
    (hcur : (dequeueAndStage P env st).1.m_curSession = some cur)
    (hpos : 0 < (dequeueAndStage P env st).1.m_tmpOutBufSize)
    (hsize : (dequeueAndStage P env st).1.m_tmpOutBufSize < 2 ^ 32)
    (hsent : env.bytesSent = ((dequeueAndStage P env st).1.m_tmpOutBufSize : Int))
    (hvalid : P.IS_VALID_SEND ((dequeueAndStage P env st).1.m_tmpOutBufSize : Int) = true) :
    MainIteration P env st
      = some ({ (dequeueAndStage P env st).1 with
                m_tmpOutBufSize := 0, m_curSession := none, sendTimer := none },
              (dequeueAndStage P env st).2
                ++ [Event.send cur.GetSocket
                    ((dequeueAndStage P env st).1.m_tmpOutBuf.take
                      (dequeueAndStage P env st).1.m_tmpOutBufSize)]) := by
  unfold MainIteration
  generalize dequeueAndStage P env st = ds at *
  obtain ⟨s, evs⟩ := ds
  simp only at hcur hpos hsize hsent hvalid
  have hne : s.m_tmpOutBufSize ≠ 0 := by omega
  have hu : toUnsigned (s.m_tmpOutBufSize : Int) = s.m_tmpOutBufSize :=
    toUnsigned_ofNat _ hsize
  simp [sendChunk, checkSendTimeout, hne, hcur, hsent, hvalid, hu]

theorem dequeueAndStage_sendCalls (P : Platform) (env : IterEnv) (st : SenderThread) :
    sendCalls (dequeueAndStage P env st).2 = [] := by
  unfold dequeueAndStage
  split
  · simp only []
    unfold pollLowPrioQueue pollMainQueue
    cases st.m_outBuf with
    | nil => cases st.m_lowPrioOutBuf <;> simp [sendCalls]
    | cons front rest =>
      simp only []
      split
      · cases st.m_lowPrioOutBuf <;> simp [sendCalls]
      · simp [sendCalls]
  · simp [sendCalls]

theorem dequeueAndStage_draining (P : Platform) (env : IterEnv) (st : SenderThread)
    (h : st.m_tmpOutBufSize ≠ 0) : dequeueAndStage P env st = (st, []) := by
  simp [dequeueAndStage, h]

theorem sendCalls_append (a b : List Event) :
    sendCalls (a ++ b) = sendCalls a ++ sendCalls b := by
  simp [sendCalls]

theorem memmove_take (buf : List Nat) (n c : Nat) (hn : n ≤ buf.length) :
    (memmove buf c (n - c)).take (n - c) = (buf.take n).drop c := by
  unfold memmove
  rw [List.take_append_of_le_length (by simp; omega)]
  rw [List.take_take, Nat.min_self, List.drop_take]

theorem sum_pos_of_ne_nil (cs : List Nat) (hne : cs ≠ []) (hpos : ∀ c ∈ cs, 0 < c) :
    0 < cs.sum := by
  cases cs with
  | nil => exact absurd rfl hne
  | cons a l =>
    have := hpos a (by simp)
    simp only [List.sum_cons]
    omega

/-- Draining a staged buffer `data` through a socket that accepts the chunk
sizes `chunks`, one chunk per iteration. -/
theorem drain_chunks (P : Platform) (sess : SessionData) (t0 : Nat) (chunks : List Nat) :
    ∀ (data : List Nat) (envs : List IterEnv) (st : SenderThread),
      chunks ≠ [] → (∀ c ∈ chunks, 0 < c) → chunks.sum = data.length →
      data.length < 2 ^ 32 →
      envs.map (fun env => env.bytesSent) = chunks.map (fun (c : Nat) => (c : Int)) →
      (∀ c ∈ chunks, P.IS_VALID_SEND (c : Int) = true) →
      (∀ env ∈ envs, (env.clockAtCheck : Int) - (t0 : Int) ≤ SEND_ERROR_TIMEOUT_MSEC) →
      (∀ env ∈ envs.head?,
        (dequeueAndStage P env st).1.m_curSession = some sess
          ∧ (dequeueAndStage P env st).1.sendTimer = some t0
          ∧ (dequeueAndStage P env st).1.m_tmpOutBufSize = data.length
          ∧ (dequeueAndStage P env st).1.m_tmpOutBuf.take data.length = data) →
      ∃ results, iterations P envs st = some results
        ∧ results.length = chunks.length
        ∧ (∀ i r, results[i]? = some r →
            sendCalls r.2 = [(sess.GetSocket, data.drop (chunks.take i).sum)]
              ∧ (i + 1 < chunks.length →
                  r.1.m_tmpOutBufSize = data.length - (chunks.take (i + 1)).sum
                    ∧ 0 < r.1.m_tmpOutBufSize ∧ r.1.m_curSession = some sess)
              ∧ (i + 1 = chunks.length →
                  r.1.m_tmpOutBufSize = 0 ∧ r.1.m_curSession = none
                    ∧ r.1.sendTimer = none))
        ∧ (List.zipWith (fun r c => acceptedBytes r.2 c) results chunks).flatten = data := by
  induction chunks with
  | nil => intro _ _ _ h; exact absurd rfl h
  | cons c cs ih =>
    intro data envs st _ hpos hsum hlen henv hvalid htime hst
    cases envs with
    | nil => simp at henv
    | cons env envs' =>
      simp only [List.map_cons] at henv
      injection henv with hb henv'
      obtain ⟨hcur, htimer, hsz, hbuf⟩ := hst env (by simp)
      have hcpos : 0 < c := hpos c (by simp)
      have hbuflen : data.length ≤ (dequeueAndStage P env st).1.m_tmpOutBuf.length := by
        have := congrArg List.length hbuf
        simp only [List.length_take] at this
        omega
      have hcalls : sendCalls ((dequeueAndStage P env st).2
          ++ [Event.send sess.GetSocket
                ((dequeueAndStage P env st).1.m_tmpOutBuf.take
                  (dequeueAndStage P env st).1.m_tmpOutBufSize)])
          = [(sess.GetSocket, data)] := by
        rw [sendCalls_append, dequeueAndStage_sendCalls, hsz, hbuf]
        simp [sendCalls]
      by_cases hcs : cs = []
      · subst hcs
        have henvs : envs' = [] := by simpa using henv'
        subst henvs
        simp only [List.sum_cons, List.sum_nil, Nat.add_zero] at hsum
        have hmain := MainIteration_full P env st sess hcur (by omega) (by omega)
          (by rw [hb, hsz, hsum]) (by rw [hsz, ← hsum]; exact hvalid c (by simp))
        refine ⟨[_], by (simp only [iterations, hmain]; rfl), by simp, ?_, ?_⟩
        · intro i r hi
          cases i with
          | zero =>
            simp only [List.getElem?_cons_zero, Option.some.injEq] at hi
            subst hi
            refine ⟨by simpa using hcalls, by simp, by simp⟩
          | succ j => simp at hi
        · simp [acceptedBytes, hcalls, hsum]
      · have hcspos := sum_pos_of_ne_nil cs hcs (fun x hx => hpos x (by simp [hx]))
        simp only [List.sum_cons] at hsum
        have hmain := MainIteration_partial P env st sess t0 c hcur htimer hcpos
          (by omega) (by omega) hb (hvalid c (by simp)) (htime env (by simp))
        obtain ⟨trace1, htr, hlen1, hidx, hcat⟩ := ih (data.drop c) envs'
          { (dequeueAndStage P env st).1 with
            m_tmpOutBufSize := (dequeueAndStage P env st).1.m_tmpOutBufSize - c,
            m_tmpOutBuf := memmove (dequeueAndStage P env st).1.m_tmpOutBuf c
              ((dequeueAndStage P env st).1.m_tmpOutBufSize - c) }
          hcs (fun x hx => hpos x (by simp [hx])) (by simp; omega) (by simp; omega) henv'
          (fun x hx => hvalid x (by simp [hx])) (fun e he => htime e (by simp [he]))
          (by
            intro env' _
            rw [dequeueAndStage_draining _ _ _ (by simp only []; omega)]
            refine ⟨hcur, htimer, by simp; omega, ?_⟩
            simp only [List.length_drop]
            rw [← hsz, memmove_take _ _ _ (by omega), hsz, hbuf])
        refine ⟨_ :: trace1, by (simp only [iterations, hmain, htr]; rfl),
          by simp [hlen1], ?_, ?_⟩
        · intro i r hi
          cases i with
          | zero =>
            simp only [List.getElem?_cons_zero, Option.some.injEq] at hi
            subst hi
            refine ⟨by simpa using hcalls, ?_, ?_⟩
            · intro _
              simp only [List.take_succ_cons, List.take_zero, List.sum_cons, List.sum_nil]
              refine ⟨by omega, by omega, hcur⟩
            · intro h
              simp only [List.length_cons] at h
              have : cs.length = 0 := by omega
              exact absurd (List.length_eq_zero.mp this) hcs
          | succ j =>
            simp only [List.getElem?_cons_succ] at hi
            obtain ⟨h1, h2, h3⟩ := hidx j r hi
            refine ⟨?_, ?_, ?_⟩
            · rw [h1, List.drop_drop]
              simp only [List.take_succ_cons, List.sum_cons]
            · intro h
              simp only [List.length_cons] at h
              obtain ⟨h21, h22, h23⟩ := h2 (by omega)
              refine ⟨?_, h22, h23⟩
              rw [h21]
              simp only [List.take_succ_cons, List.sum_cons, List.length_drop]
              omega
            · intro h
              simp only [List.length_cons] at h
              exact h3 (by omega)
        · simp only [List.zipWith_cons_cons, List.flatten_cons, hcat]
          simp [acceptedBytes, hcalls]

theorem memcpy_take (dst src : List Nat) : (memcpy dst src src.length).take src.length = src := by
  simp [memcpy]

/-- The dequeue block on an idle engine whose next entry is a packet that
passes the throttle test and the length check: the packet is staged. -/
theorem dequeueAndStage_accepts (P : Platform) (env : IterEnv) (st : SenderThread)
    (packet : NetPacket) (session : SessionData) (rest : SendDataDeque)
    (hidle : st.m_tmpOutBufSize = 0)
    (hentry : st.m_outBuf = (some packet, some session) :: rest
      ∨ ((∀ e ∈ st.m_outBuf.head?, e.1 = none)
          ∧ st.m_lowPrioOutBuf = (some packet, some session) :: rest
          ∧ session.GetId ≠ st.m_lastInvalidSessionId))
    (hlen : packet.GetLen ≤ P.MAX_PACKET_SIZE) :
    (dequeueAndStage P env st).1.m_curSession = some session
      ∧ (dequeueAndStage P env st).1.sendTimer = some env.clockAtRestart
      ∧ (dequeueAndStage P env st).1.m_tmpOutBufSize = packet.GetLen
      ∧ (dequeueAndStage P env st).1.m_tmpOutBuf.take packet.GetLen = packet.GetRawData := by
  have hm : ∀ dst, (memcpy dst packet.GetRawData packet.GetLen).take packet.GetLen
      = packet.GetRawData := fun dst => memcpy_take dst packet.raw
  rcases hentry with h | ⟨h1, h2, h3⟩
  · simp [dequeueAndStage, hidle, pollMainQueue, pollLowPrioQueue, copyPacket, h, hlen, hm]
  · cases hq : st.m_outBuf with
    | nil =>
      simp [dequeueAndStage, hidle, pollMainQueue, pollLowPrioQueue, copyPacket, hq, h2, h3,
        hlen, hm]
    | cons f r =>
      have hf : f.1 = none := h1 f (by simp [hq])
      simp [dequeueAndStage, hidle, pollMainQueue, pollLowPrioQueue, copyPacket, hq, hf, h2,
        h3, hlen, hm]

/-- C6 (partial-write correctness). Let an idle engine have, as its next
entry, a packet with bytes `B` of length `L`, `0 < L ≤ MAX_PACKET_SIZE`, that
passes the throttle test (front of the normal queue; or front of the
low-priority queue, with a session id other than the marker, when the loop
polls that queue because the normal queue is empty or starts with a null
packet). Let the socket accept the chunk sizes `chunks`, each positive and
summing to `L`, one per iteration, and let the stall deadline not elapse.
Then the iterations all return and there are as many as chunks; the `i`-th
iteration makes exactly one `send` call, on the session's socket, offering
the suffix of `B` after the first `c1 + ... + c(i-1)` bytes; after each
iteration but the last, `remaining` is `L - (c1 + ... + ci) > 0` and the
current session is the packet's session; after the last one, and not earlier,
the engine is idle (remaining 0, no current session, timer stopped); and the
accepted chunks, concatenated in call order, are `B`. -/
theorem partial_write_correctness (P : Platform) (st : SenderThread) (packet : NetPacket)
    (session : SessionData) (rest : SendDataDeque) (chunks : List Nat)
    (envs : List IterEnv)
    (hidle : st.m_tmpOutBufSize = 0)
    (hentry : st.m_outBuf = (some packet, some session) :: rest
      ∨ ((∀ e ∈ st.m_outBuf.head?, e.1 = none)
          ∧ st.m_lowPrioOutBuf = (some packet, some session) :: rest
          ∧ session.GetId ≠ st.m_lastInvalidSessionId))
    (hlen : 0 < packet.GetLen ∧ packet.GetLen ≤ P.MAX_PACKET_SIZE)
    (hpos : ∀ c ∈ chunks, 0 < c) (hsum : chunks.sum = packet.GetLen)
    (henv : envs.map (fun env => env.bytesSent) = chunks.map (fun (c : Nat) => (c : Int)))
    (hvalid : ∀ c ∈ chunks, P.IS_VALID_SEND (c : Int) = true)
    (htime : ∀ first ∈ envs.head?, ∀ env ∈ envs,
      (env.clockAtCheck : Int) - (first.clockAtRestart : Int) ≤ SEND_ERROR_TIMEOUT_MSEC) :
    ∃ results, iterations P envs st = some results
      ∧ results.length = chunks.length
      ∧ (∀ i r, results[i]? = some r →
          sendCalls r.2
              = [(session.GetSocket, packet.GetRawData.drop (chunks.take i).sum)]
            ∧ (i + 1 < chunks.length →
                r.1.m_tmpOutBufSize = packet.GetLen - (chunks.take (i + 1)).sum
                  ∧ 0 < r.1.m_tmpOutBufSize ∧ r.1.m_curSession = some session)
            ∧ (i + 1 = chunks.length →
                r.1.m_tmpOutBufSize = 0 ∧ r.1.m_curSession = none ∧ r.1.sendTimer = none))
      ∧ (List.zipWith (fun r c => acceptedBytes r.2 c) results chunks).flatten
          = packet.GetRawData := by
  have hne : chunks ≠ [] := by
    intro h
    rw [h] at hsum
    simp only [List.sum_nil] at hsum
    omega
  cases envs with
  | nil =>
    cases chunks with
    | nil => exact absurd rfl hne
    | cons c cs => simp at henv
  | cons first envs' =>
    have hfits : packet.GetRawData.length < 2 ^ 32 := by
      have := packet.fits
      simp only [NetPacket.GetRawData]
      omega
    exact drain_chunks P session first.clockAtRestart chunks packet.GetRawData
      (first :: envs') st hne hpos hsum hfits henv hvalid (htime first (by simp))
      (by
        intro env henv0
        simp only [List.head?_cons, Option.mem_def, Option.some.injEq] at henv0
        subst henv0
        exact dequeueAndStage_accepts P first st packet session rest hidle hentry hlen.2)

/-- Partial-write correctness for the three byte packet `packetA`, sent to a
socket that accepts one byte and then two. -/
theorem partial_write_correctness_witness :
    ∃ results,
      iterations posixPlatform [acceptingEnv 1, acceptingEnv 2]
          (Send posixPlatform (SenderThread.init posixPlatform) (some session1)
            (some packetA)) = some results
        ∧ results.length = 2
        ∧ (List.zipWith (fun r c => acceptedBytes r.2 c) results [1, 2]).flatten
            = [10, 20, 30] :=
  (partial_write_correctness posixPlatform
      (Send posixPlatform (SenderThread.init posixPlatform) (some session1) (some packetA))
      packetA session1 [] [1, 2] [acceptingEnv 1, acceptingEnv 2]
      rfl (Or.inl rfl) (by decide) (by decide) rfl rfl (by decide)
      (by simp [acceptingEnv, SEND_ERROR_TIMEOUT_MSEC])).imp
    (fun _ h => ⟨h.1, h.2.1, h.2.2.2⟩)

/-! ## Stall timeout -/

/-- A draining iteration whose `send` returns zero bytes, or fails with
"would block" followed by a `select` that does not fail: the send block
changes nothing and calls no callback. -/
theorem sendChunk_stalled (P : Platform) (env : IterEnv) (st : SenderThread)
    (cur : SessionData) (hdrain : 0 < st.m_tmpOutBufSize)
    (hcur : st.m_curSession = some cur)
    (hstall : (P.IS_VALID_SEND env.bytesSent = true ∧ env.bytesSent = 0)
      ∨ (P.IS_VALID_SEND env.bytesSent = false
          ∧ P.IS_SOCKET_ERR_WOULDBLOCK env.sendErrCode = true
          ∧ P.IS_VALID_SELECT env.selectResult = true)) :
    ∃ events, sendChunk P env st = some (st, events) ∧ callbacks events = [] := by
  have hne : st.m_tmpOutBufSize ≠ 0 := by omega
  rcases hstall with ⟨hv, hz⟩ | ⟨hv, hw, hs⟩
  · have hu : toUnsigned 0 = 0 := by decide
    rw [hz] at hv
    exact ⟨[Event.send cur.GetSocket (st.m_tmpOutBuf.take st.m_tmpOutBufSize), Event.msleep],
      by simp [sendChunk, hne, hcur, hz, hv, hu, hdrain], by simp [callbacks]⟩
  · exact ⟨[Event.send cur.GetSocket (st.m_tmpOutBuf.take st.m_tmpOutBufSize),
        Event.select cur.GetSocket],
      by simp [sendChunk, hne, hcur, hv, hw, hs], by simp [callbacks]⟩

/-- C7 (timeout abandonment). In a draining state (remaining > 0, current
session set, stall timer running since `started`) whose socket accepts no
further bytes in this iteration (`send` returns zero bytes, or fails with
"would block" and the writability wait does not fail), the iteration invokes
no error callback, and its end-of-iteration check abandons the packet if and
only if the elapsed time `clockAtCheck - started` is strictly greater than
20000 ms. When it does, the marker becomes the current session's id and the
engine becomes idle (remaining 0, no current session, timer stopped), queues
and staging bytes untouched; when the elapsed time is at most 20000 ms the
whole engine state is unchanged. -/
theorem timeout_abandonment (P : Platform) (env : IterEnv) (st : SenderThread)
    (cur : SessionData) (started : Nat)
    (hdrain : 0 < st.m_tmpOutBufSize) (hcur : st.m_curSession = some cur)
    (htimer : st.sendTimer = some started)
    (hstall : (P.IS_VALID_SEND env.bytesSent = true ∧ env.bytesSent = 0)
      ∨ (P.IS_VALID_SEND env.bytesSent = false
          ∧ P.IS_SOCKET_ERR_WOULDBLOCK env.sendErrCode = true
          ∧ P.IS_VALID_SELECT env.selectResult = true)) :
    ∃ st' events, MainIteration P env st = some (st', events)
      ∧ callbacks events = []
      ∧ (st'.m_tmpOutBufSize = 0 ↔ (env.clockAtCheck : Int) - (started : Int) > 20000)
      ∧ ((env.clockAtCheck : Int) - (started : Int) > 20000 →
          st' = { st with
                  m_lastInvalidSessionId := cur.GetId,
                  m_tmpOutBufSize := 0,
                  m_curSession := none,
                  sendTimer := none })
      ∧ ((env.clockAtCheck : Int) - (started : Int) ≤ 20000 → st' = st) := by
  have hne : st.m_tmpOutBufSize ≠ 0 := by omega
  obtain ⟨events, hsend, hcb⟩ := sendChunk_stalled P env st cur hdrain hcur hstall
  by_cases ht : (env.clockAtCheck : Int) - (started : Int) > 20000
  · refine ⟨{ st with
              m_lastInvalidSessionId := cur.GetId,
              m_tmpOutBufSize := 0,
              m_curSession := none,
              sendTimer := none },
      events ++ [Event.logTimeout cur.GetId], ?_, ?_, ?_, ?_, ?_⟩
    · simp [MainIteration, dequeueAndStage_draining P env st hne, hsend, checkSendTimeout,
        htimer, SEND_ERROR_TIMEOUT_MSEC, ht, hcur, RemoveCurSendData]
    · simp only [callbacks, List.filterMap_append] at hcb ⊢
      simp [hcb]
    · simp [ht]
    · intro _
      rfl
    · intro h
      omega
  · refine ⟨st, events, ?_, hcb, ?_, ?_, ?_⟩
    · simp [MainIteration, dequeueAndStage_draining P env st hne, hsend, checkSendTimeout,
        htimer, SEND_ERROR_TIMEOUT_MSEC, ht]
    · simp only [ht, iff_false]
      exact hne
    · intro h
      exact absurd h ht
    · intro _
      rfl

/-- Timeout abandonment at `drainingEngine`, 20001 ms after the timer was
started: the marker becomes the id of `session1`. -/
theorem timeout_abandonment_witness :
    ∃ st' events, MainIteration posixPlatform (stalledEnv 20001) drainingEngine
        = some (st', events)
      ∧ callbacks events = []
      ∧ st' = { drainingEngine with
                m_lastInvalidSessionId := session1.GetId,
                m_tmpOutBufSize := 0,
                m_curSession := none,
                sendTimer := none } := by
  obtain ⟨st', events, h1, h2, _, h4, _⟩ :=
    timeout_abandonment posixPlatform (stalledEnv 20001) drainingEngine session1 0
      (by decide) rfl rfl (Or.inl ⟨rfl, rfl⟩)
  exact ⟨st', events, h1, h2, h4 (by decide)⟩

/-! ## Discarded and staged entries -/

theorem callbacks_append (a b : List Event) :
    callbacks (a ++ b) = callbacks a ++ callbacks b := by
  simp [callbacks]

theorem checkSendTimeout_quiet (env : IterEnv) (st : SenderThread) :
    (checkSendTimeout env st).1.m_tmpOutBuf = st.m_tmpOutBuf
      ∧ (st.m_tmpOutBufSize = 0 → (checkSendTimeout env st).1.m_tmpOutBufSize = 0)
      ∧ sendCalls (checkSendTimeout env st).2 = []
      ∧ callbacks (checkSendTimeout env st).2 = [] := by
  unfold checkSendTimeout
  repeat' split
  all_goals simp [RemoveCurSendData, sendCalls, callbacks]

/-- An iteration whose dequeue block stages nothing: no `send`, no callback,
the engine stays idle and the staging bytes are not touched. -/
theorem MainIteration_nothing_staged (P : Platform) (env : IterEnv) (st : SenderThread)
    (h : (dequeueAndStage P env st).1.m_tmpOutBufSize = 0) :
    ∃ st' events, MainIteration P env st = some (st', events)
      ∧ st'.m_tmpOutBufSize = 0
      ∧ st'.m_tmpOutBuf = (dequeueAndStage P env st).1.m_tmpOutBuf
      ∧ st'.m_outBuf = (dequeueAndStage P env st).1.m_outBuf
      ∧ st'.m_lowPrioOutBuf = (dequeueAndStage P env st).1.m_lowPrioOutBuf
      ∧ sendCalls events = sendCalls (dequeueAndStage P env st).2
      ∧ callbacks events = callbacks (dequeueAndStage P env st).2
      ∧ removedFrom events = removedFrom (dequeueAndStage P env st).2
      ∧ removedFromLowPrio events = removedFromLowPrio (dequeueAndStage P env st).2 := by
  have hq := checkSendTimeout_queues env (dequeueAndStage P env st).1
  have hc := checkSendTimeout_quiet env (dequeueAndStage P env st).1
  have hr := checkSendTimeout_removed env (dequeueAndStage P env st).1
  refine ⟨(checkSendTimeout env (dequeueAndStage P env st).1).1,
    (dequeueAndStage P env st).2 ++ [Event.msleep]
      ++ (checkSendTimeout env (dequeueAndStage P env st).1).2, ?_, hc.2.1 h, hc.1, hq.1, hq.2,
    ?_, ?_, ?_, ?_⟩
  · simp [MainIteration, sendChunk, h]
  · rw [sendCalls_append, sendCalls_append, hc.2.2.1]
    simp [sendCalls]
  · rw [callbacks_append, callbacks_append, hc.2.2.2]
    simp [callbacks]
  · rw [removedFrom_append, removedFrom_append, hr.1]
    simp [removedFrom]
  · rw [removedFromLowPrio_append, removedFromLowPrio_append, hr.2]
    simp [removedFromLowPrio]

/-- The dequeue block on an idle engine whose normal queue starts with a
packet that is too long: the entry is popped and nothing is staged. -/
theorem dequeueAndStage_oversized (P : Platform) (env : IterEnv) (st : SenderThread)
    (packet : NetPacket) (session : Option SessionData) (rest : SendDataDeque)
    (hidle : st.m_tmpOutBufSize = 0)
    (hfront : st.m_outBuf = (some packet, session) :: rest)
    (hbig : P.MAX_PACKET_SIZE < packet.GetLen) :
    dequeueAndStage P env st
      = ({ st with m_outBuf := rest }, [Event.popFront (some packet, session)]) := by
  have hnot : ¬ packet.GetLen ≤ P.MAX_PACKET_SIZE := by omega
  cases session with
  | none => simp [dequeueAndStage, hidle, pollMainQueue, pollLowPrioQueue, copyPacket, hfront]
  | some sess =>
    simp [dequeueAndStage, hidle, pollMainQueue, pollLowPrioQueue, copyPacket, hfront, hnot]

/-- The dequeue block on an idle engine that polls the low-priority queue
(the normal queue is empty or starts with a null packet) and finds an entry
that fails the throttle test or the length check: the entry is popped and
nothing is staged. -/
theorem dequeueAndStage_lowPrio_discard (P : Platform) (env : IterEnv) (st : SenderThread)
    (packet : Option NetPacket) (session : Option SessionData) (rest : SendDataDeque)
    (hidle : st.m_tmpOutBufSize = 0)
    (hnormal : ∀ e ∈ st.m_outBuf.head?, e.1 = none)
    (hfront : st.m_lowPrioOutBuf = (packet, session) :: rest)
    (hfail : ∀ p s, packet = some p → session = some s →
      s.GetId = st.m_lastInvalidSessionId ∨ P.MAX_PACKET_SIZE < p.GetLen) :
    (dequeueAndStage P env st).1
        = { st with m_outBuf := st.m_outBuf.tail, m_lowPrioOutBuf := rest }
      ∧ removedFromLowPrio (dequeueAndStage P env st).2 = [(packet, session)] := by
  have hcopy : ∀ s0 : SenderThread, s0.m_lastInvalidSessionId = st.m_lastInvalidSessionId →
      copyPacket P env (Polled.mk (packet, session) true s0 []) = s0 := by
    intro s0 hs0
    cases packet with
    | none => simp [copyPacket]
    | some p =>
      cases session with
      | none => simp [copyPacket]
      | some s =>
        rcases hfail p s rfl rfl with h | h
        · simp [copyPacket, hs0, h]
        · have hnot : ¬ p.GetLen ≤ P.MAX_PACKET_SIZE := by omega
          simp [copyPacket, hnot]
  have hcopy' : ∀ (s0 : SenderThread) (evs : List Event),
      s0.m_lastInvalidSessionId = st.m_lastInvalidSessionId →
      copyPacket P env (Polled.mk (packet, session) true s0 evs) = s0 := by
    intro s0 evs hs0
    have := hcopy s0 hs0
    simpa [copyPacket] using this
  cases hq : st.m_outBuf with
  | nil =>
    simp [dequeueAndStage, hidle, pollMainQueue, pollLowPrioQueue, hq, hfront, hcopy',
      removedFromLowPrio]
  | cons f r =>
    have hf : f.1 = none := hnormal f (by simp [hq])
    simp [dequeueAndStage, hidle, pollMainQueue, pollLowPrioQueue, hq, hfront, hf, hcopy',
      removedFromLowPrio]

theorem sendChunk_sendCalls (P : Platform) (env : IterEnv) (st st' : SenderThread)
    (cur : SessionData) (events : List Event) (hdrain : st.m_tmpOutBufSize ≠ 0)
    (hcur : st.m_curSession = some cur) (h : sendChunk P env st = some (st', events)) :
    sendCalls events = [(cur.GetSocket, st.m_tmpOutBuf.take st.m_tmpOutBufSize)] := by
  unfold sendChunk at h
  simp only [hdrain, hcur, ne_eq, not_false_eq_true, if_true] at h
  repeat' split at h
  all_goals first
    | (simp at h; done)
    | (simp only [Option.some.injEq, Prod.mk.injEq] at h
       obtain ⟨_, h2⟩ := h
       subst h2
       first
         | (simp [sendCalls]; done)
         | (unfold reportUnlessBenign
            split <;> simp [sendCalls]))

/-- The send block returns whenever the socket reports at most the bytes it
was offered. -/
theorem sendChunk_isSome (P : Platform) (env : IterEnv) (st : SenderThread)
    (cur : SessionData) (hcur : st.m_curSession = some cur)
    (hsize : st.m_tmpOutBufSize < 2 ^ 32)
    (hsock : P.IS_VALID_SEND env.bytesSent = true →
      0 ≤ env.bytesSent ∧ env.bytesSent ≤ (st.m_tmpOutBufSize : Int)) :
    (sendChunk P env st).isSome = true := by
  unfold sendChunk
  simp only [hcur]
  repeat' split
  all_goals first
    | rfl
    | (rename_i hv hlt hne
       simp only [Bool.not_eq_true, Bool.not_eq_false', Bool.not_eq_true'] at hv
       have hv' : P.IS_VALID_SEND env.bytesSent = true := by
         cases hb : P.IS_VALID_SEND env.bytesSent with
         | true => rfl
         | false => simp [hb] at hv
       have := hsock hv'
       unfold toUnsigned at hlt
       omega)

/-- An iteration whose dequeue block leaves a packet staged makes exactly one
`send` call, on the current session's socket, offering the staged bytes. -/
theorem MainIteration_staged_sends (P : Platform) (env : IterEnv) (st st' : SenderThread)
    (cur : SessionData) (events : List Event)
    (hdrain : (dequeueAndStage P env st).1.m_tmpOutBufSize ≠ 0)
    (hcur : (dequeueAndStage P env st).1.m_curSession = some cur)
    (h : MainIteration P env st = some (st', events)) :
    sendCalls events
        = [(cur.GetSocket,
            (dequeueAndStage P env st).1.m_tmpOutBuf.take
              (dequeueAndStage P env st).1.m_tmpOutBufSize)]
      ∧ removedFrom events = removedFrom (dequeueAndStage P env st).2
      ∧ removedFromLowPrio events = removedFromLowPrio (dequeueAndStage P env st).2 := by
  obtain ⟨sent, hsent, _, hev⟩ := MainIteration_some P env st st' events h
  have hcalls := sendChunk_sendCalls P env _ sent.1 cur sent.2 hdrain hcur hsent
  have hrem := sendChunk_removed P env _ sent.1 sent.2 hsent
  have hc := checkSendTimeout_quiet env sent.1
  have hr := checkSendTimeout_removed env sent.1
  subst hev
  refine ⟨?_, ?_, ?_⟩
  · rw [sendCalls_append, sendCalls_append, hc.2.2.1, dequeueAndStage_sendCalls, hcalls]
    simp
  · rw [removedFrom_append, removedFrom_append, hr.1, hrem.1]
    simp
  · rw [removedFromLowPrio_append, removedFromLowPrio_append, hr.2, hrem.2]
    simp

/-- An iteration whose dequeue block leaves a packet staged returns whenever
the socket reports at most the bytes it was offered. -/
theorem MainIteration_staged_isSome (P : Platform) (env : IterEnv) (st : SenderThread)
    (cur : SessionData)
    (hcur : (dequeueAndStage P env st).1.m_curSession = some cur)
    (hsize : (dequeueAndStage P env st).1.m_tmpOutBufSize < 2 ^ 32)
    (hsock : P.IS_VALID_SEND env.bytesSent = true →
      0 ≤ env.bytesSent
        ∧ env.bytesSent ≤ ((dequeueAndStage P env st).1.m_tmpOutBufSize : Int)) :
    (MainIteration P env st).isSome = true := by
  have hsome := sendChunk_isSome P env _ cur hcur hsize hsock
  obtain ⟨sent, hsent⟩ := Option.isSome_iff_exists.mp hsome
  simp [MainIteration, hsent]

/-- C8 (low-priority throttle), the claim as stated fails for a packet of
length zero. After the run `markerOps` the engine is idle, the marker is the
id of `session1`, and the front of the normal queue is a packet for `session1`
whose length, 0, is within `MAX_PACKET_SIZE`. The next iteration pops and
stages it (current session set) but, `m_tmpOutBufSize` being 0, makes no
`send` call. -/
theorem low_prio_throttle_zero_length :
    ∃ r, run posixPlatform markerOps (Run.fresh posixPlatform) = some r
      ∧ r.st.m_tmpOutBufSize = 0
      ∧ r.st.m_outBuf = [(some emptyPacket, some session1)]
      ∧ session1.GetId = r.st.m_lastInvalidSessionId
      ∧ emptyPacket.GetLen ≤ posixPlatform.MAX_PACKET_SIZE
      ∧ ∃ st' events, MainIteration posixPlatform (acceptingEnv 0) r.st = some (st', events)
          ∧ removedFrom events = [(some emptyPacket, some session1)]
          ∧ st'.m_curSession = some session1
          ∧ sendCalls events = [] :=
  ⟨_, rfl, rfl, rfl, rfl, by decide, _, _, rfl, rfl, rfl, rfl⟩

/-- C8 (low-priority throttle), amended. In an idle iteration, an entry popped
from the low-priority queue (the loop polls that queue when the normal queue
is empty or starts with a null packet) whose session id equals the marker is
removed from the queue and discarded: no `send` call, nothing staged, the
engine stays idle, and the entry is in neither queue afterwards. An entry
popped from the normal queue for a session with that same id and a packet
of length `L`, `0 < L ≤ MAX_PACKET_SIZE`, is staged, and the iteration makes
one `send` call on that session's socket offering the packet's bytes; the
iteration runs to its end for every socket result that respects the `assert`
of line 255 (at most the bytes offered are reported as sent). -/
theorem low_prio_throttle (P : Platform) (env : IterEnv) :
    (∀ (st : SenderThread) (packet : Option NetPacket) (session : SessionData)
        (rest : SendDataDeque),
        st.m_tmpOutBufSize = 0 →
        (∀ e ∈ st.m_outBuf.head?, e.1 = none) →
        st.m_lowPrioOutBuf = (packet, some session) :: rest →
        session.GetId = st.m_lastInvalidSessionId →
        ∃ st' events, MainIteration P env st = some (st', events)
          ∧ removedFromLowPrio events = [(packet, some session)]
          ∧ sendCalls events = []
          ∧ st'.m_tmpOutBufSize = 0
          ∧ st'.m_tmpOutBuf = st.m_tmpOutBuf
          ∧ st'.m_lowPrioOutBuf = rest
          ∧ st'.m_outBuf = st.m_outBuf.tail)
      ∧ (∀ (st : SenderThread) (packet : NetPacket) (session : SessionData)
          (rest : SendDataDeque),
          st.m_tmpOutBufSize = 0 →
          st.m_outBuf = (some packet, some session) :: rest →
          session.GetId = st.m_lastInvalidSessionId →
          0 < packet.GetLen → packet.GetLen ≤ P.MAX_PACKET_SIZE →
          ((dequeueAndStage P env st).1.m_curSession = some session
            ∧ (dequeueAndStage P env st).1.m_tmpOutBufSize = packet.GetLen
            ∧ (dequeueAndStage P env st).1.m_tmpOutBuf.take packet.GetLen
                = packet.GetRawData)
          ∧ (∀ st' events, MainIteration P env st = some (st', events) →
              removedFrom events = [(some packet, some session)]
                ∧ sendCalls events = [(session.GetSocket, packet.GetRawData)])
          ∧ ((P.IS_VALID_SEND env.bytesSent = true →
                0 ≤ env.bytesSent ∧ env.bytesSent ≤ (packet.GetLen : Int)) →
              (MainIteration P env st).isSome = true)) := by
  constructor
  · intro st packet session rest hidle hnormal hfront hid
    obtain ⟨hst, hrem⟩ := dequeueAndStage_lowPrio_discard P env st packet (some session) rest
      hidle hnormal hfront (by
        intro p s _ hs
        simp only [Option.some.injEq] at hs
        subst hs
        exact Or.inl hid)
    obtain ⟨st', events, hit, h1, h2, h3, h4, h5, _, _, h8⟩ :=
      MainIteration_nothing_staged P env st (by rw [hst]; exact hidle)
    refine ⟨st', events, hit, by rw [h8, hrem], ?_, h1, ?_, ?_, ?_⟩
    · rw [h5, dequeueAndStage_sendCalls]
    · rw [h2, hst]
    · rw [h4, hst]
    · rw [h3, hst]
  · intro st packet session rest hidle hfront _ hpos hle
    obtain ⟨hcur, _, hsz, hbuf⟩ :=
      dequeueAndStage_accepts P env st packet session rest hidle (Or.inl hfront) hle
    have hfits := packet.fits
    have hlen : packet.GetLen = packet.raw.length := rfl
    refine ⟨⟨hcur, hsz, hbuf⟩, ?_, ?_⟩
    · intro st' events hit
      obtain ⟨hcalls, hrem, _⟩ :=
        MainIteration_staged_sends P env st st' session events (by omega) hcur hit
      constructor
      · rw [hrem]
        simp [dequeueAndStage, hidle, pollMainQueue, pollLowPrioQueue, hfront, removedFrom]
      · rw [hcalls, hsz, hbuf]
    · intro hsock
      exact MainIteration_staged_isSome P env st session hcur (by omega)
        (by rw [hsz]; exact hsock)

/-- The amended throttle claim after the marker became the id of `session1`:
a low-priority packet for `session1` is discarded, a normal packet for
`session1` is sent. -/
theorem low_prio_throttle_witness :
    (∃ st' events,
        MainIteration posixPlatform (acceptingEnv 3)
            { drainingEngine with
              m_tmpOutBufSize := 0, m_curSession := none, sendTimer := none,
              m_lastInvalidSessionId := 1,
              m_lowPrioOutBuf := [(some packetA, some session1)] } = some (st', events)
          ∧ sendCalls events = [] ∧ st'.m_lowPrioOutBuf = [])
      ∧ (∃ st' events,
          MainIteration posixPlatform (acceptingEnv 3)
              { drainingEngine with
                m_tmpOutBufSize := 0, m_curSession := none, sendTimer := none,
                m_lastInvalidSessionId := 1,
                m_outBuf := [(some packetA, some session1)] } = some (st', events)
            ∧ sendCalls events = [(5, [10, 20, 30])]) := by
  constructor
  · obtain ⟨st', events, h1, _, h3, _, _, h6, _⟩ :=
      (low_prio_throttle posixPlatform (acceptingEnv 3)).1
        { drainingEngine with
          m_tmpOutBufSize := 0, m_curSession := none, sendTimer := none,
          m_lastInvalidSessionId := 1,
          m_lowPrioOutBuf := [(some packetA, some session1)] }
        (some packetA) session1 [] rfl (by simp [drainingEngine]) rfl rfl
    exact ⟨st', events, h1, h3, h6⟩
  · obtain ⟨_, h2, h3⟩ :=
      (low_prio_throttle posixPlatform (acceptingEnv 3)).2
        { drainingEngine with
          m_tmpOutBufSize := 0, m_curSession := none, sendTimer := none,
          m_lastInvalidSessionId := 1,
          m_outBuf := [(some packetA, some session1)] }
        packetA session1 [] rfl rfl rfl (by decide) (by decide)
    obtain ⟨r, hr⟩ := Option.isSome_iff_exists.mp (h3 (by decide))
    exact ⟨r.1, r.2, hr, (h2 r.1 r.2 hr).2⟩

theorem dequeueAndStage_callbacks (P : Platform) (env : IterEnv) (st : SenderThread) :
    callbacks (dequeueAndStage P env st).2 = [] := by
  unfold dequeueAndStage
  split
  · simp only []
    unfold pollLowPrioQueue pollMainQueue
    cases st.m_outBuf with
    | nil => cases st.m_lowPrioOutBuf <;> simp [callbacks]
    | cons front rest =>
      simp only []
      split
      · cases st.m_lowPrioOutBuf <;> simp [callbacks]
      · simp [callbacks]
  · simp [callbacks]

/-- C9 (oversized packet rejection). In an idle iteration, an entry dequeued
from the normal queue, or from the low-priority queue (polled when the normal
queue is empty or starts with a null packet), whose packet length as reported
by `GetLen` exceeds `MAX_PACKET_SIZE` is removed from its queue; nothing is
staged, no `send` call is made, no error callback is invoked and the engine
stays idle. A dequeued packet of length exactly `MAX_PACKET_SIZE` passes the
length check and is staged (for a low-priority entry, when its session id is
not the marker, which is the separate throttle test). -/
theorem oversized_packet_rejection (P : Platform) (env : IterEnv) :
    (∀ (st : SenderThread) (packet : NetPacket) (session : Option SessionData)
        (rest : SendDataDeque),
        st.m_tmpOutBufSize = 0 →
        st.m_outBuf = (some packet, session) :: rest →
        P.MAX_PACKET_SIZE < packet.GetLen →
        ∃ st' events, MainIteration P env st = some (st', events)
          ∧ removedFrom events = [(some packet, session)]
          ∧ st'.m_outBuf = rest
          ∧ st'.m_lowPrioOutBuf = st.m_lowPrioOutBuf
          ∧ sendCalls events = []
          ∧ callbacks events = []
          ∧ st'.m_tmpOutBufSize = 0
          ∧ st'.m_tmpOutBuf = st.m_tmpOutBuf)
      ∧ (∀ (st : SenderThread) (packet : NetPacket) (session : Option SessionData)
          (rest : SendDataDeque),
          st.m_tmpOutBufSize = 0 →
          (∀ e ∈ st.m_outBuf.head?, e.1 = none) →
          st.m_lowPrioOutBuf = (some packet, session) :: rest →
          P.MAX_PACKET_SIZE < packet.GetLen →
          ∃ st' events, MainIteration P env st = some (st', events)
            ∧ removedFromLowPrio events = [(some packet, session)]
            ∧ st'.m_lowPrioOutBuf = rest
            ∧ st'.m_outBuf = st.m_outBuf.tail
            ∧ sendCalls events = []
            ∧ callbacks events = []
            ∧ st'.m_tmpOutBufSize = 0
            ∧ st'.m_tmpOutBuf = st.m_tmpOutBuf)
      ∧ (∀ (st : SenderThread) (packet : NetPacket) (session : SessionData)
          (rest : SendDataDeque),
          st.m_tmpOutBufSize = 0 →
          (st.m_outBuf = (some packet, some session) :: rest
            ∨ ((∀ e ∈ st.m_outBuf.head?, e.1 = none)
                ∧ st.m_lowPrioOutBuf = (some packet, some session) :: rest
                ∧ session.GetId ≠ st.m_lastInvalidSessionId)) →
          packet.GetLen = P.MAX_PACKET_SIZE →
          (dequeueAndStage P env st).1.m_curSession = some session
            ∧ (dequeueAndStage P env st).1.m_tmpOutBufSize = P.MAX_PACKET_SIZE
            ∧ (dequeueAndStage P env st).1.m_tmpOutBuf.take P.MAX_PACKET_SIZE
                = packet.GetRawData) := by
  refine ⟨?_, ?_, ?_⟩
  · intro st packet session rest hidle hfront hbig
    have hds := dequeueAndStage_oversized P env st packet session rest hidle hfront hbig
    obtain ⟨st', events, hit, h1, h2, h3, h4, h5, h6, h7, _⟩ :=
      MainIteration_nothing_staged P env st (by rw [hds]; exact hidle)
    refine ⟨st', events, hit, ?_, ?_, ?_, ?_, ?_, h1, ?_⟩
    · rw [h7, hds]; simp [removedFrom]
    · rw [h3, hds]
    · rw [h4, hds]
    · rw [h5, dequeueAndStage_sendCalls]
    · rw [h6, dequeueAndStage_callbacks]
    · rw [h2, hds]
  · intro st packet session rest hidle hnormal hfront hbig
    obtain ⟨hst, hrem⟩ := dequeueAndStage_lowPrio_discard P env st (some packet) session rest
      hidle hnormal hfront (by
        intro p s hp _
        simp only [Option.some.injEq] at hp
        subst hp
        exact Or.inr hbig)
    obtain ⟨st', events, hit, h1, h2, h3, h4, h5, h6, _, h8⟩ :=
      MainIteration_nothing_staged P env st (by rw [hst]; exact hidle)
    refine ⟨st', events, hit, by rw [h8, hrem], ?_, ?_, ?_, ?_, h1, ?_⟩
    · rw [h4, hst]
    · rw [h3, hst]
    · rw [h5, dequeueAndStage_sendCalls]
    · rw [h6, dequeueAndStage_callbacks]
    · rw [h2, hst]
  · intro st packet session rest hidle hentry hmax
    obtain ⟨hcur, _, hsz, hbuf⟩ :=
      dequeueAndStage_accepts P env st packet session rest hidle hentry (by omega)
    rw [hmax] at hsz hbuf
    exact ⟨hcur, hsz, hbuf⟩

/-- Oversized packet rejection on `posixPlatform` (`MAX_PACKET_SIZE` 268): a
269 byte packet is dropped without a `send`, a 268 byte packet is staged. -/
theorem oversized_packet_rejection_witness :
    (∃ st' events,
        MainIteration posixPlatform (acceptingEnv 269)
            (Send posixPlatform (SenderThread.init posixPlatform) (some session1)
              (some oversizedPacket)) = some (st', events)
          ∧ st'.m_outBuf = [] ∧ sendCalls events = [] ∧ st'.m_tmpOutBufSize = 0)
      ∧ (dequeueAndStage posixPlatform (acceptingEnv 268)
            (Send posixPlatform (SenderThread.init posixPlatform) (some session1)
              (some maxSizePacket))).1.m_tmpOutBufSize = 268 := by
  constructor
  · obtain ⟨st', events, h1, _, h3, _, h5, _, h7, _⟩ :=
      (oversized_packet_rejection posixPlatform (acceptingEnv 269)).1
        (Send posixPlatform (SenderThread.init posixPlatform) (some session1)
          (some oversizedPacket))
        oversizedPacket (some session1) [] rfl rfl
        (by
          show 268 < (List.replicate 269 0).length
          rw [List.length_replicate]; omega)
    exact ⟨st', events, h1, h3, h5, h7⟩
  · exact ((oversized_packet_rejection posixPlatform (acceptingEnv 268)).2.2
        (Send posixPlatform (SenderThread.init posixPlatform) (some session1)
          (some maxSizePacket))
        maxSizePacket session1 [] rfl (Or.inl rfl)
        (by
          show (List.replicate 268 0).length = 268
          rw [List.length_replicate])).2.1

/-! ## Load reporting -/

theorem GetNumPacketsInQueue_reachable (P : Platform) (st : SenderThread)
    (h : Reachable P st) :
    GetNumPacketsInQueue st = st.m_outBuf.length + st.m_lowPrioOutBuf.length := by
  have hc := reachable_capacity P st h
  have h1 : SEND_QUEUE_SIZE P ≤ 10000 := by
    unfold SEND_QUEUE_SIZE
    split <;> omega
  have h2 : SEND_LOW_PRIO_QUEUE_SIZE P ≤ 10000000 := by
    unfold SEND_LOW_PRIO_QUEUE_SIZE
    split <;> omega
  unfold GetNumPacketsInQueue
  simp only []
  omega

theorem iterations_reachable (P : Platform) (envs : List IterEnv) :
    ∀ (st : SenderThread) (results : List (SenderThread × List Event)),
      Reachable P st → iterations P envs st = some results →
      ∀ r ∈ results, Reachable P r.1 := by
  induction envs with
  | nil =>
    intro st results _ h r hr
    simp only [iterations, Option.some.injEq] at h
    subst h
    simp at hr
  | cons env envs ih =>
    intro st results hst h r hr
    simp only [iterations] at h
    split at h
    · simp at h
    · rename_i r0 h0
      split at h
      · simp at h
      · rename_i rs hrs
        simp only [Option.some.injEq] at h
        subst h
        have hr0 : Reachable P r0.1 := Reachable.iterate st r0.1 env r0.2 hst h0
        rcases List.mem_cons.mp hr with h1 | h1
        · rw [h1]; exact hr0
        · exact ih r0.1 rs hr0 hrs r h1

theorem engineWith_reachable (n : Nat) : Reachable posixPlatform (engineWith n) := by
  induction n with
  | zero => exact Reachable.init
  | succ n ih => exact Reachable.send _ _ _ ih

/-- C10 (load ordering). For every two engines `a` and `b` (states reachable
from a freshly constructed engine), `GetNumPacketsInQueue` returns the normal
queue length plus the low-priority queue length, and `a < b` holds exactly
when that total for `a` is strictly less than that total for `b`. In
particular with totals 3 and 7 the first is lesser, and an engine `b'` whose
total is 5 less than that of the second (2) is lesser than the first. -/
theorem load_ordering (P : Platform) (a b : SenderThread) (ha : Reachable P a)
    (hb : Reachable P b) :
    GetNumPacketsInQueue a = a.m_outBuf.length + a.m_lowPrioOutBuf.length
      ∧ GetNumPacketsInQueue b = b.m_outBuf.length + b.m_lowPrioOutBuf.length
      ∧ (a.lt b = true ↔
          a.m_outBuf.length + a.m_lowPrioOutBuf.length
            < b.m_outBuf.length + b.m_lowPrioOutBuf.length)
      ∧ (GetNumPacketsInQueue a = 3 → GetNumPacketsInQueue b = 7 →
          a.lt b = true
            ∧ ∀ b' : SenderThread, Reachable P b' →
                b'.m_outBuf.length + b'.m_lowPrioOutBuf.length
                  = b.m_outBuf.length + b.m_lowPrioOutBuf.length - 5 →
                GetNumPacketsInQueue b' = 2 ∧ b'.lt a = true) := by
  have h1 := GetNumPacketsInQueue_reachable P a ha
  have h2 := GetNumPacketsInQueue_reachable P b hb
  refine ⟨h1, h2, ?_, ?_⟩
  · simp [SenderThread.lt, h1, h2]
  · intro h3 h7
    refine ⟨by simp [SenderThread.lt, h3, h7], ?_⟩
    intro b' hb' hlen
    have h4 := GetNumPacketsInQueue_reachable P b' hb'
    have h5 : GetNumPacketsInQueue b' = 2 := by omega
    exact ⟨h5, by simp [SenderThread.lt, h3, h5]⟩

/-- Load ordering at an engine holding 3 packets and an engine holding 7:
the first is lesser; after five iterations that each send one packet whole,
the second holds 2 packets and is the lesser one. -/
theorem load_ordering_witness :
    (engineWith 3).lt (engineWith 7) = true
      ∧ ∃ results last,
          iterations posixPlatform (List.replicate 5 (acceptingEnv 3)) (engineWith 7)
              = some results
            ∧ results.getLast? = some last
            ∧ GetNumPacketsInQueue last.1 = 2
            ∧ last.1.lt (engineWith 3) = true := by
  have h := load_ordering posixPlatform (engineWith 3) (engineWith 7)
    (engineWith_reachable 3) (engineWith_reachable 7)
  obtain ⟨hlt, hflip⟩ := h.2.2.2 rfl rfl
  refine ⟨hlt, _, _, rfl, rfl, ?_⟩
  exact hflip _
    (iterations_reachable posixPlatform (List.replicate 5 (acceptingEnv 3)) (engineWith 7) _
      (engineWith_reachable 7) rfl _ (List.mem_of_getLast?_eq_some rfl))
    rfl

/-! ## Socket errors -/

theorem callbacks_reportUnlessBenign (P : Platform) (i : Nat) (k e : Int) :
    callbacks (reportUnlessBenign P i k e)
      = if e ≠ P.SOCKET_ERR_NOTCONN ∧ e ≠ P.SOCKET_ERR_NOTSOCK then [(i, k, e)] else [] := by
  unfold reportUnlessBenign
  by_cases h1 : e = P.SOCKET_ERR_NOTCONN <;> by_cases h2 : e = P.SOCKET_ERR_NOTSOCK <;>
    simp [h1, h2, callbacks]

/-- The timeout check when the stall deadline has not elapsed. -/
theorem checkSendTimeout_not_elapsed (env : IterEnv) (st : SenderThread)
    (h : ∀ t, st.sendTimer = some t →
      (env.clockAtCheck : Int) - (t : Int) ≤ SEND_ERROR_TIMEOUT_MSEC) :
    checkSendTimeout env st = (st, []) := by
  unfold checkSendTimeout
  split
  · rename_i started hs
    have := h started hs
    rw [if_neg (by omega)]
  · rfl

/-- The timeout check when no session is current: it can only stop the timer. -/
theorem checkSendTimeout_no_session (env : IterEnv) (st : SenderThread)
    (h : st.m_curSession = none) :
    (checkSendTimeout env st).2 = []
      ∧ ((checkSendTimeout env st).1 = st
        ∨ (checkSendTimeout env st).1 = { RemoveCurSendData st with sendTimer := none }) := by
  unfold checkSendTimeout
  split
  · split
    · simp [h]
    · simp
  · simp

/-- The send block when `send` fails with an error other than "would block". -/
theorem sendChunk_send_failed (P : Platform) (env : IterEnv) (st : SenderThread)
    (cur : SessionData) (hdrain : st.m_tmpOutBufSize ≠ 0)
    (hcur : st.m_curSession = some cur)
    (hfail : P.IS_VALID_SEND env.bytesSent = false)
    (hnwb : P.IS_SOCKET_ERR_WOULDBLOCK env.sendErrCode = false) :
    sendChunk P env st
      = some (RemoveCurSendData st,
          [Event.send cur.GetSocket (st.m_tmpOutBuf.take st.m_tmpOutBufSize)]
            ++ reportUnlessBenign P cur.GetId P.ERR_SOCK_SEND_FAILED env.sendErrCode
            ++ [Event.msleep]) := by
  simp [sendChunk, hdrain, hcur, hfail, hnwb]

/-- C11 (send-failure reporting). In a draining state (remaining > 0, current
session set), when `send` fails with an error code `e` that is not "would
block", the iteration returns, has made exactly one `send` call (nothing is
resent), ends with remaining 0 and no current session, leaves queues, staging
bytes and marker as they were, and has invoked the error callback exactly
once, with (current session id, `ERR_SOCK_SEND_FAILED`, `e`), if `e` is
neither "not connected" nor "not a socket", and not at all otherwise. -/
theorem send_failure_reporting (P : Platform) (env : IterEnv) (st : SenderThread)
    (cur : SessionData) (hdrain : 0 < st.m_tmpOutBufSize)
    (hcur : st.m_curSession = some cur)
    (hfail : P.IS_VALID_SEND env.bytesSent = false)
    (hnwb : P.IS_SOCKET_ERR_WOULDBLOCK env.sendErrCode = false) :
    ∃ st' events, MainIteration P env st = some (st', events)
      ∧ st'.m_tmpOutBufSize = 0 ∧ st'.m_curSession = none
      ∧ (st' = RemoveCurSendData st ∨ st' = { RemoveCurSendData st with sendTimer := none })
      ∧ sendCalls events = [(cur.GetSocket, st.m_tmpOutBuf.take st.m_tmpOutBufSize)]
      ∧ callbacks events
          = if env.sendErrCode ≠ P.SOCKET_ERR_NOTCONN ∧ env.sendErrCode ≠ P.SOCKET_ERR_NOTSOCK
            then [(cur.GetId, P.ERR_SOCK_SEND_FAILED, env.sendErrCode)]
            else [] := by
  have hne : st.m_tmpOutBufSize ≠ 0 := by omega
  have hsend := sendChunk_send_failed P env st cur hne hcur hfail hnwb
  have hchk := checkSendTimeout_no_session env (RemoveCurSendData st) rfl
  refine ⟨(checkSendTimeout env (RemoveCurSendData st)).1,
    [Event.send cur.GetSocket (st.m_tmpOutBuf.take st.m_tmpOutBufSize)]
      ++ reportUnlessBenign P cur.GetId P.ERR_SOCK_SEND_FAILED env.sendErrCode
      ++ [Event.msleep], ?_, ?_, ?_, ?_, ?_, ?_⟩
  · simp [MainIteration, dequeueAndStage_draining P env st hne, hsend, hchk.1]
  · rcases hchk.2 with h | h <;> rw [h] <;> rfl
  · rcases hchk.2 with h | h <;> rw [h] <;> rfl
  · rcases hchk.2 with h | h
    · exact Or.inl h
    · exact Or.inr h
  · rw [sendCalls_append, sendCalls_append]
    have : sendCalls (reportUnlessBenign P cur.GetId P.ERR_SOCK_SEND_FAILED env.sendErrCode)
        = [] := by
      unfold reportUnlessBenign
      split <;> simp [sendCalls]
    rw [this]
    simp [sendCalls]
  · rw [callbacks_append, callbacks_append, callbacks_reportUnlessBenign]
    simp [callbacks]

/-- Send-failure reporting at `drainingEngine` when `send` fails with error
32: one callback with (1, `ERR_SOCK_SEND_FAILED`, 32), and the engine is idle. -/
theorem send_failure_reporting_witness :
    ∃ st' events, MainIteration posixPlatform (failingEnv 32 0 0) drainingEngine
        = some (st', events)
      ∧ st'.m_tmpOutBufSize = 0 ∧ st'.m_curSession = none
      ∧ callbacks events = [(1, 3, 32)] := by
  obtain ⟨st', events, h1, h2, h3, _, _, h6⟩ :=
    send_failure_reporting posixPlatform (failingEnv 32 0 0) drainingEngine session1
      (by decide) rfl rfl rfl
  exact ⟨st', events, h1, h2, h3, h6⟩

/-- The send block when `send` fails with "would block": the writability wait
and the handling of its result. -/
theorem sendChunk_would_block (P : Platform) (env : IterEnv) (st : SenderThread)
    (cur : SessionData) (hdrain : st.m_tmpOutBufSize ≠ 0)
    (hcur : st.m_curSession = some cur)
    (hfail : P.IS_VALID_SEND env.bytesSent = false)
    (hwb : P.IS_SOCKET_ERR_WOULDBLOCK env.sendErrCode = true) :
    ∃ sent events, sendChunk P env st = some (sent, events)
      ∧ sent = (if P.IS_VALID_SELECT env.selectResult = false
                  ∧ P.IS_SOCKET_ERR_WOULDBLOCK env.selectErrCode = false
                then RemoveCurSendData st else st)
      ∧ sendCalls events = [(cur.GetSocket, st.m_tmpOutBuf.take st.m_tmpOutBufSize)]
      ∧ callbacks events
          = (if P.IS_VALID_SELECT env.selectResult = false
                ∧ P.IS_SOCKET_ERR_WOULDBLOCK env.selectErrCode = false
                ∧ env.selectErrCode ≠ P.SOCKET_ERR_NOTCONN
                ∧ env.selectErrCode ≠ P.SOCKET_ERR_NOTSOCK
              then [(cur.GetId, P.ERR_SOCK_SELECT_FAILED, env.selectErrCode)]
              else []) := by
  cases hsel : P.IS_VALID_SELECT env.selectResult with
  | true =>
    exact ⟨st, [Event.send cur.GetSocket (st.m_tmpOutBuf.take st.m_tmpOutBufSize),
        Event.select cur.GetSocket],
      by simp [sendChunk, hdrain, hcur, hfail, hwb, hsel], by simp,
      by simp [sendCalls], by simp [callbacks]⟩
  | false =>
    cases hwb2 : P.IS_SOCKET_ERR_WOULDBLOCK env.selectErrCode with
    | true =>
      exact ⟨st, [Event.send cur.GetSocket (st.m_tmpOutBuf.take st.m_tmpOutBufSize),
          Event.select cur.GetSocket, Event.msleep],
        by simp [sendChunk, hdrain, hcur, hfail, hwb, hsel, hwb2], by simp,
        by simp [sendCalls], by simp [callbacks]⟩
    | false =>
      refine ⟨RemoveCurSendData st,
        [Event.send cur.GetSocket (st.m_tmpOutBuf.take st.m_tmpOutBufSize),
          Event.select cur.GetSocket]
          ++ reportUnlessBenign P cur.GetId P.ERR_SOCK_SELECT_FAILED env.selectErrCode
          ++ [Event.msleep],
        by simp [sendChunk, hdrain, hcur, hfail, hwb, hsel, hwb2], by simp, ?_, ?_⟩
      · rw [sendCalls_append, sendCalls_append]
        have : sendCalls
            (reportUnlessBenign P cur.GetId P.ERR_SOCK_SELECT_FAILED env.selectErrCode)
            = [] := by
          unfold reportUnlessBenign
          split <;> simp [sendCalls]
        rw [this]
        simp [sendCalls]
      · rw [callbacks_append, callbacks_append, callbacks_reportUnlessBenign]
        simp [callbacks]

/-- C12 (writability-wait failure reporting). In a draining state (remaining
> 0, current session set) in which `send` fails with "would block", let `e`
be the error code after `select`. The iteration returns and has made exactly
one `send` call. The send block (lines 196-262) abandons the current send
(`RemoveCurSendData`) exactly when the wait fails and `e` is not "would
block", and otherwise leaves the engine as it was; this is also the state at
the end of the iteration unless the separate stall-deadline check fires. The
error callback is invoked exactly once, with (current session id,
`ERR_SOCK_SELECT_FAILED`, `e`), exactly when the wait fails and `e` is not
"would block", not "not connected" and not "not a socket"; a wait that times
out or succeeds invokes no callback. -/
theorem select_failure_reporting (P : Platform) (env : IterEnv) (st : SenderThread)
    (cur : SessionData) (hdrain : 0 < st.m_tmpOutBufSize)
    (hcur : st.m_curSession = some cur)
    (hfail : P.IS_VALID_SEND env.bytesSent = false)
    (hwb : P.IS_SOCKET_ERR_WOULDBLOCK env.sendErrCode = true) :
    ∃ sent st' events, MainIteration P env st = some (st', events)
      ∧ (∃ blockEvents, sendChunk P env st = some (sent, blockEvents))
      ∧ sent = (if P.IS_VALID_SELECT env.selectResult = false
                  ∧ P.IS_SOCKET_ERR_WOULDBLOCK env.selectErrCode = false
                then RemoveCurSendData st else st)
      ∧ (sent.m_tmpOutBufSize = 0 ↔
          (P.IS_VALID_SELECT env.selectResult = false
            ∧ P.IS_SOCKET_ERR_WOULDBLOCK env.selectErrCode = false))
      ∧ ((∀ t, st.sendTimer = some t →
            (env.clockAtCheck : Int) - (t : Int) ≤ SEND_ERROR_TIMEOUT_MSEC) → st' = sent)
      ∧ sendCalls events = [(cur.GetSocket, st.m_tmpOutBuf.take st.m_tmpOutBufSize)]
      ∧ callbacks events
          = (if P.IS_VALID_SELECT env.selectResult = false
                ∧ P.IS_SOCKET_ERR_WOULDBLOCK env.selectErrCode = false
                ∧ env.selectErrCode ≠ P.SOCKET_ERR_NOTCONN
                ∧ env.selectErrCode ≠ P.SOCKET_ERR_NOTSOCK
              then [(cur.GetId, P.ERR_SOCK_SELECT_FAILED, env.selectErrCode)]
              else []) := by
  have hne : st.m_tmpOutBufSize ≠ 0 := by omega
  obtain ⟨sent, blockEvents, hsend, hsent, hcalls, hcb⟩ :=
    sendChunk_would_block P env st cur hne hcur hfail hwb
  have hq := checkSendTimeout_quiet env sent
  have htimer : sent.sendTimer = st.sendTimer := by
    rw [hsent]
    split <;> rfl
  refine ⟨sent, (checkSendTimeout env sent).1, blockEvents ++ (checkSendTimeout env sent).2,
    ?_, ⟨blockEvents, hsend⟩, hsent, ?_, ?_, ?_, ?_⟩
  · simp [MainIteration, dequeueAndStage_draining P env st hne, hsend]
  · rw [hsent]
    split
    · rename_i h
      simp [RemoveCurSendData, h]
    · rename_i h
      simp only [h, iff_false]
      exact hne
  · intro hdl
    rw [checkSendTimeout_not_elapsed env sent (by rw [htimer]; exact hdl)]
  · rw [sendCalls_append, hq.2.2.1, hcalls]
    simp
  · rw [callbacks_append, hq.2.2.2, hcb]
    simp

/-- Writability-wait failure reporting at `drainingEngine`: `send` fails with
"would block" (11) and `select` fails with error 9; the send is abandoned and
the callback is invoked with (1, `ERR_SOCK_SELECT_FAILED`, 9). -/
theorem select_failure_reporting_witness :
    ∃ st' events, MainIteration posixPlatform (failingEnv 11 (-1) 9) drainingEngine
        = some (st', events)
      ∧ st' = RemoveCurSendData drainingEngine
      ∧ callbacks events = [(1, 2, 9)] := by
  obtain ⟨sent, st', events, h1, _, h3, _, h5, _, h7⟩ :=
    select_failure_reporting posixPlatform (failingEnv 11 (-1) 9) drainingEngine session1
      (by decide) rfl rfl rfl
  refine ⟨st', events, h1, ?_, h7⟩
  rw [h5 (by
    intro t ht
    simp only [drainingEngine, Option.some.injEq] at ht
    subst ht
    decide), h3]
  rfl

/-- The send block under a transient condition: zero bytes sent without
error, or "would block" followed by a wait that succeeds, times out or fails
with "would block". -/
theorem sendChunk_transient (P : Platform) (env : IterEnv) (st : SenderThread)
    (cur : SessionData) (hdrain : 0 < st.m_tmpOutBufSize)
    (hcur : st.m_curSession = some cur)
    (htrans : (P.IS_VALID_SEND env.bytesSent = true ∧ env.bytesSent = 0)
      ∨ (P.IS_VALID_SEND env.bytesSent = false
          ∧ P.IS_SOCKET_ERR_WOULDBLOCK env.sendErrCode = true
          ∧ (P.IS_VALID_SELECT env.selectResult = true
            ∨ P.IS_SOCKET_ERR_WOULDBLOCK env.selectErrCode = true))) :
    ∃ events, sendChunk P env st = some (st, events)
      ∧ sendCalls events = [(cur.GetSocket, st.m_tmpOutBuf.take st.m_tmpOutBufSize)]
      ∧ callbacks events = [] := by
  have hne : st.m_tmpOutBufSize ≠ 0 := by omega
  rcases htrans with ⟨hv, hz⟩ | ⟨hv, hw, hs⟩
  · have hu : toUnsigned 0 = 0 := by decide
    rw [hz] at hv
    exact ⟨[Event.send cur.GetSocket (st.m_tmpOutBuf.take st.m_tmpOutBufSize), Event.msleep],
      by simp [sendChunk, hne, hcur, hz, hv, hu, hdrain], by simp [sendCalls],
      by simp [callbacks]⟩
  · obtain ⟨sent, events, hsend, hsent, hcalls, hcb⟩ :=
      sendChunk_would_block P env st cur hne hcur hv hw
    have hnot : ¬ (P.IS_VALID_SELECT env.selectResult = false
        ∧ P.IS_SOCKET_ERR_WOULDBLOCK env.selectErrCode = false) := by
      rcases hs with h | h <;> simp [h]
    have hnot' : ¬ (P.IS_VALID_SELECT env.selectResult = false
        ∧ P.IS_SOCKET_ERR_WOULDBLOCK env.selectErrCode = false
        ∧ env.selectErrCode ≠ P.SOCKET_ERR_NOTCONN
        ∧ env.selectErrCode ≠ P.SOCKET_ERR_NOTSOCK) := fun h => hnot ⟨h.1, h.2.1⟩
    rw [if_neg hnot] at hsent
    rw [if_neg hnot'] at hcb
    subst hsent
    exact ⟨events, hsend, hcalls, hcb⟩

/-- C18 (transient conditions are state-preserving). In a draining state
(remaining > 0, current session set), an iteration in which `send` returns
zero bytes without error, or fails with "would block" while the writability
wait succeeds, times out, or itself fails with "would block", returns with the
whole engine unchanged (staging bytes, remaining, current session, both
queues, marker, timer), has made its one `send` call and has invoked no
callback, provided the stall deadline has not elapsed. -/
theorem transient_conditions_preserve_state (P : Platform) (env : IterEnv)
    (st : SenderThread) (cur : SessionData) (hdrain : 0 < st.m_tmpOutBufSize)
    (hcur : st.m_curSession = some cur)
    (htrans : (P.IS_VALID_SEND env.bytesSent = true ∧ env.bytesSent = 0)
      ∨ (P.IS_VALID_SEND env.bytesSent = false
          ∧ P.IS_SOCKET_ERR_WOULDBLOCK env.sendErrCode = true
          ∧ (P.IS_VALID_SELECT env.selectResult = true
            ∨ P.IS_SOCKET_ERR_WOULDBLOCK env.selectErrCode = true)))
    (hdeadline : ∀ t, st.sendTimer = some t →
      (env.clockAtCheck : Int) - (t : Int) ≤ SEND_ERROR_TIMEOUT_MSEC) :
    ∃ events, MainIteration P env st = some (st, events)
      ∧ sendCalls events = [(cur.GetSocket, st.m_tmpOutBuf.take st.m_tmpOutBufSize)]
      ∧ callbacks events = [] := by
  have hne : st.m_tmpOutBufSize ≠ 0 := by omega
  obtain ⟨events, hsend, hcalls, hcb⟩ := sendChunk_transient P env st cur hdrain hcur htrans
  refine ⟨events, ?_, hcalls, hcb⟩
  simp [MainIteration, dequeueAndStage_draining P env st hne, hsend,
    checkSendTimeout_not_elapsed env st hdeadline]

/-- The transient case "would block, then the wait fails with would block"
at `drainingEngine`: nothing changes and no callback is invoked. -/
theorem transient_conditions_preserve_state_witness :
    ∃ events, MainIteration posixPlatform (failingEnv 11 (-1) 11) drainingEngine
        = some (drainingEngine, events)
      ∧ callbacks events = [] := by
  obtain ⟨events, h1, _, h3⟩ :=
    transient_conditions_preserve_state posixPlatform (failingEnv 11 (-1) 11)
      drainingEngine session1 (by decide) rfl (Or.inr ⟨rfl, rfl, Or.inr rfl⟩)
      (by
        intro t ht
        simp only [drainingEngine, Option.some.injEq] at ht
        subst ht
        decide)
  exact ⟨events, h1, h3⟩

/-! ## Frame properties of the three blocks of an iteration -/

/-- The two polls only touch the queues. -/
theorem polled_frame (st : SenderThread) :
    (pollLowPrioQueue (pollMainQueue st)).st
      = { st with
          m_outBuf := (pollLowPrioQueue (pollMainQueue st)).st.m_outBuf,
          m_lowPrioOutBuf := (pollLowPrioQueue (pollMainQueue st)).st.m_lowPrioOutBuf } := by
  unfold pollLowPrioQueue pollMainQueue
  cases st.m_outBuf with
  | nil => cases st.m_lowPrioOutBuf <;> simp
  | cons front rest =>
    simp only []
    split
    · cases st.m_lowPrioOutBuf <;> simp
    · simp

/-- An entry with a non-null packet in `tmpData` was popped from a queue. -/
theorem polled_tmpData_mem (st : SenderThread)
    (h : (pollLowPrioQueue (pollMainQueue st)).tmpData.1.isSome = true) :
    (pollLowPrioQueue (pollMainQueue st)).tmpData
      ∈ removedFrom (pollLowPrioQueue (pollMainQueue st)).events
          ++ removedFromLowPrio (pollLowPrioQueue (pollMainQueue st)).events := by
  revert h
  unfold pollLowPrioQueue pollMainQueue
  cases st.m_outBuf with
  | nil => cases st.m_lowPrioOutBuf <;> simp [removedFrom, removedFromLowPrio]
  | cons front rest =>
    simp only []
    split
    · cases st.m_lowPrioOutBuf <;> simp [removedFrom, removedFromLowPrio]
    · simp [removedFrom, removedFromLowPrio]

/-- The copy block either leaves the engine alone or stages the polled entry. -/
theorem copyPacket_cases (P : Platform) (env : IterEnv) (p : Polled) :
    copyPacket P env p = p.st
      ∨ ∃ packet session, p.tmpData = (some packet, some session)
          ∧ copyPacket P env p
              = { p.st with
                  m_curSession := some session,
                  m_tmpOutBufSize := packet.GetLen,
                  m_tmpOutBuf := memcpy p.st.m_tmpOutBuf packet.GetRawData packet.GetLen,
                  sendTimer := some env.clockAtRestart } := by
  unfold copyPacket
  split
  · rename_i packet session heq
    dsimp only
    split
    · split
      · exact Or.inr ⟨packet, session, heq, rfl⟩
      · exact Or.inl rfl
    · exact Or.inl rfl
  · exact Or.inl rfl

/-- The dequeue block never writes the marker; it changes the in-progress
state only by staging an entry it has just popped, which restarts the timer. -/
theorem dequeueAndStage_frame (P : Platform) (env : IterEnv) (st : SenderThread) :
    (dequeueAndStage P env st).1.m_lastInvalidSessionId = st.m_lastInvalidSessionId
      ∧ (((dequeueAndStage P env st).1.sendTimer = st.sendTimer
            ∧ (dequeueAndStage P env st).1.m_curSession = st.m_curSession
            ∧ (dequeueAndStage P env st).1.m_tmpOutBufSize = st.m_tmpOutBufSize
            ∧ (dequeueAndStage P env st).1.m_tmpOutBuf = st.m_tmpOutBuf)
        ∨ (st.m_tmpOutBufSize = 0
            ∧ (dequeueAndStage P env st).1.sendTimer = some env.clockAtRestart
            ∧ ∃ packet session,
                (some packet, some session)
                    ∈ removedFrom (dequeueAndStage P env st).2
                      ++ removedFromLowPrio (dequeueAndStage P env st).2
                  ∧ (dequeueAndStage P env st).1.m_curSession = some session
                  ∧ (dequeueAndStage P env st).1.m_tmpOutBufSize = packet.GetLen)) := by
  unfold dequeueAndStage
  split
  · rename_i hidle
    simp only []
    have hf := polled_frame st
    rcases copyPacket_cases P env (pollLowPrioQueue (pollMainQueue st)) with h | h
    · rw [h, hf]
      exact ⟨rfl, Or.inl ⟨rfl, rfl, rfl, rfl⟩⟩
    · obtain ⟨packet, session, htmp, hcp⟩ := h
      have hmem := polled_tmpData_mem st (by rw [htmp]; rfl)
      rw [htmp] at hmem
      rw [hcp]
      refine ⟨by rw [hf], Or.inr ⟨hidle, rfl, packet, session, hmem, rfl, rfl⟩⟩
  · exact ⟨rfl, Or.inl ⟨rfl, rfl, rfl, rfl⟩⟩

/-- The send block never writes the marker, keeps or clears the current
session, and stops the timer only when the whole buffer has been sent. -/
theorem sendChunk_frame (P : Platform) (env : IterEnv) (st st' : SenderThread)
    (events : List Event) (h : sendChunk P env st = some (st', events)) :
    st'.m_lastInvalidSessionId = st.m_lastInvalidSessionId
      ∧ (st'.m_curSession = st.m_curSession ∨ st'.m_curSession = none)
      ∧ (st'.sendTimer = st.sendTimer
        ∨ (st'.sendTimer = none ∧ st.m_tmpOutBufSize ≠ 0
            ∧ P.IS_VALID_SEND env.bytesSent = true
            ∧ env.bytesSent = (st.m_tmpOutBufSize : Int)
            ∧ st'.m_tmpOutBufSize = 0)) := by
  unfold sendChunk at h
  split at h
  · rename_i hne
    split at h
    · simp at h
    · simp only at h
      repeat' split at h
      all_goals first
        | (simp at h; done)
        | (simp only [Option.some.injEq, Prod.mk.injEq] at h
           obtain ⟨h1, _⟩ := h
           subst h1
           simp [RemoveCurSendData]
           done)
        | (rename_i hv _ heq
           simp only [Option.some.injEq, Prod.mk.injEq] at h
           obtain ⟨h1, _⟩ := h
           subst h1
           simp only [Bool.not_eq_true, Bool.not_eq_false'] at hv
           exact ⟨rfl, Or.inr rfl, Or.inr ⟨rfl, hne, by simpa using hv, heq, rfl⟩⟩)
  · simp only [Option.some.injEq, Prod.mk.injEq] at h
    obtain ⟨h1, _⟩ := h
    subst h1
    simp

/-- The timeout check changes the engine only when the timer is running and
more than the deadline has elapsed; it then stops the timer, clears the
in-progress state, and writes the marker if a session is current. -/
theorem checkSendTimeout_frame (env : IterEnv) (st : SenderThread) :
    (checkSendTimeout env st = (st, []))
      ∨ (∃ started, st.sendTimer = some started
          ∧ (env.clockAtCheck : Int) - (started : Int) > SEND_ERROR_TIMEOUT_MSEC
          ∧ (checkSendTimeout env st).1.sendTimer = none
          ∧ (checkSendTimeout env st).1.m_tmpOutBufSize = 0
          ∧ (checkSendTimeout env st).1.m_curSession = none
          ∧ ((st.m_curSession = none
                ∧ (checkSendTimeout env st).1.m_lastInvalidSessionId
                    = st.m_lastInvalidSessionId
                ∧ (checkSendTimeout env st).2 = [])
            ∨ (∃ cur, st.m_curSession = some cur
                ∧ (checkSendTimeout env st).1.m_lastInvalidSessionId = cur.GetId
                ∧ (checkSendTimeout env st).2 = [Event.logTimeout cur.GetId]))) := by
  unfold checkSendTimeout
  split
  · rename_i started hs
    split
    · rename_i ht
      right
      refine ⟨started, hs, ht, ?_⟩
      split
      · rename_i cur hc
        exact ⟨rfl, rfl, rfl, Or.inr ⟨cur, hc, rfl, rfl⟩⟩
      · rename_i hc
        exact ⟨rfl, rfl, rfl, Or.inl ⟨hc, rfl, rfl⟩⟩
    · exact Or.inl rfl
  · exact Or.inl rfl

/-- An iteration that begins draining is the send block followed by the
timeout check. -/
theorem MainIteration_draining_eq (P : Platform) (env : IterEnv) (st : SenderThread)
    (sent : SenderThread × List Event) (hdrain : st.m_tmpOutBufSize ≠ 0)
    (hsent : sendChunk P env st = some sent) :
    MainIteration P env st
      = some ((checkSendTimeout env sent.1).1, sent.2 ++ (checkSendTimeout env sent.1).2) := by
  simp [MainIteration, dequeueAndStage_draining P env st hdrain, hsent]

/-- C16 (one packet at a time). An iteration that begins draining
(remaining > 0) and returns has a current session at its start, removes no
entry from either queue, makes its one `send` call on that session's socket
with the first `remaining` bytes of the staging buffer, and ends with the
current session either the same or unset. Hence an iteration that removes an
entry from a queue began with remaining == 0. An iteration that begins
draining with a current session returns for every socket result that reports
at most the bytes offered. -/
theorem one_packet_at_a_time (P : Platform) (env : IterEnv) :
    (∀ (st st' : SenderThread) (events : List Event),
        st.m_tmpOutBufSize ≠ 0 → MainIteration P env st = some (st', events) →
        ∃ cur, st.m_curSession = some cur
          ∧ removedFrom events = [] ∧ removedFromLowPrio events = []
          ∧ st'.m_outBuf = st.m_outBuf ∧ st'.m_lowPrioOutBuf = st.m_lowPrioOutBuf
          ∧ sendCalls events = [(cur.GetSocket, st.m_tmpOutBuf.take st.m_tmpOutBufSize)]
          ∧ (st'.m_curSession = some cur ∨ st'.m_curSession = none))
      ∧ (∀ (st st' : SenderThread) (events : List Event),
          MainIteration P env st = some (st', events) →
          (removedFrom events ≠ [] ∨ removedFromLowPrio events ≠ []) →
          st.m_tmpOutBufSize = 0)
      ∧ (∀ (st : SenderThread) (cur : SessionData),
          st.m_tmpOutBufSize ≠ 0 → st.m_curSession = some cur →
          st.m_tmpOutBufSize < 2 ^ 32 →
          (P.IS_VALID_SEND env.bytesSent = true →
            0 ≤ env.bytesSent ∧ env.bytesSent ≤ (st.m_tmpOutBufSize : Int)) →
          (MainIteration P env st).isSome = true) := by
  have key : ∀ (st st' : SenderThread) (events : List Event),
      st.m_tmpOutBufSize ≠ 0 → MainIteration P env st = some (st', events) →
      ∃ cur, st.m_curSession = some cur
        ∧ removedFrom events = [] ∧ removedFromLowPrio events = []
        ∧ st'.m_outBuf = st.m_outBuf ∧ st'.m_lowPrioOutBuf = st.m_lowPrioOutBuf
        ∧ sendCalls events = [(cur.GetSocket, st.m_tmpOutBuf.take st.m_tmpOutBufSize)]
        ∧ (st'.m_curSession = some cur ∨ st'.m_curSession = none) := by
    intro st st' events hdrain hit
    have hds := dequeueAndStage_draining P env st hdrain
    obtain ⟨sent, hsent, hst, hev⟩ := MainIteration_some P env st st' events hit
    rw [hds] at hsent hev
    simp only [List.nil_append] at hev
    cases hc : st.m_curSession with
    | none => simp [sendChunk, hdrain, hc] at hsent
    | some cur =>
      have hrem := sendChunk_removed P env st sent.1 sent.2 hsent
      have hq := sendChunk_queues P env st sent.1 sent.2 hsent
      have hcalls := sendChunk_sendCalls P env st sent.1 cur sent.2 hdrain hc hsent
      have hfr := sendChunk_frame P env st sent.1 sent.2 hsent
      have hcq := checkSendTimeout_queues env sent.1
      have hcr := checkSendTimeout_removed env sent.1
      have hcc := checkSendTimeout_quiet env sent.1
      have hcf := checkSendTimeout_frame env sent.1
      refine ⟨cur, rfl, ?_, ?_, ?_, ?_, ?_, ?_⟩
      · rw [hev, removedFrom_append, hrem.1, hcr.1]; rfl
      · rw [hev, removedFromLowPrio_append, hrem.2, hcr.2]; rfl
      · rw [hst, hcq.1, hq.1]
      · rw [hst, hcq.2, hq.2]
      · rw [hev, sendCalls_append, hcalls, hcc.2.2.1]; rfl
      · rw [hst]
        rcases hcf with h | ⟨_, _, _, _, _, h5, _⟩
        · rw [h]
          rcases hfr.2.1 with h' | h'
          · exact Or.inl (by rw [h', hc])
          · exact Or.inr h'
        · exact Or.inr h5
  refine ⟨key, ?_, ?_⟩
  · intro st st' events hit hrem
    by_contra hne
    obtain ⟨_, _, h1, h2, _⟩ := key st st' events hne hit
    rcases hrem with h | h
    · exact h h1
    · exact h h2
  · intro st cur hdrain hcur hsize hsock
    have hsome := sendChunk_isSome P env st cur hcur hsize hsock
    obtain ⟨sent, hsent⟩ := Option.isSome_iff_exists.mp hsome
    rw [MainIteration_draining_eq P env st sent hdrain hsent]
    rfl

/-- One packet at a time at `drainingEngine` with a socket that accepts one
byte: the iteration returns, pops nothing, and offers the three staged bytes
on the socket of `session1`. -/
theorem one_packet_at_a_time_witness :
    ∃ st' events, MainIteration posixPlatform (acceptingEnv 1) drainingEngine
        = some (st', events)
      ∧ removedFrom events = [] ∧ removedFromLowPrio events = []
      ∧ sendCalls events = [(5, [10, 20, 30])] := by
  obtain ⟨r, hr⟩ := Option.isSome_iff_exists.mp
    ((one_packet_at_a_time posixPlatform (acceptingEnv 1)).2.2 drainingEngine session1
      (by decide) rfl (by decide) (by decide))
  obtain ⟨cur, hcur, h1, h2, _, _, h5, _⟩ :=
    (one_packet_at_a_time posixPlatform (acceptingEnv 1)).1 drainingEngine r.1 r.2
      (by decide) hr
  have hc : cur = session1 := by
    simp only [drainingEngine, Option.some.injEq] at hcur
    exact hcur.symm
  subst hc
  exact ⟨r.1, r.2, hr, h1, h2, h5⟩

/-! ## The stall timer -/

/-- A draining iteration in which the socket takes part of the buffer,
whatever the clock reads at the timeout check. -/
theorem MainIteration_partial_any_time (P : Platform) (env : IterEnv) (st : SenderThread)
    (cur : SessionData) (c : Nat)
    (hcur : st.m_curSession = some cur)
    (hc : 0 < c) (hlt : c < st.m_tmpOutBufSize) (hsize : st.m_tmpOutBufSize < 2 ^ 32)
    (hsent : env.bytesSent = (c : Int)) (hvalid : P.IS_VALID_SEND (c : Int) = true) :
    MainIteration P env st
      = some ((checkSendTimeout env
                { st with
                  m_tmpOutBufSize := st.m_tmpOutBufSize - c,
                  m_tmpOutBuf := memmove st.m_tmpOutBuf c (st.m_tmpOutBufSize - c) }).1,
              [Event.send cur.GetSocket (st.m_tmpOutBuf.take st.m_tmpOutBufSize)]
                ++ (checkSendTimeout env
                    { st with
                      m_tmpOutBufSize := st.m_tmpOutBufSize - c,
                      m_tmpOutBuf :=
                        memmove st.m_tmpOutBuf c (st.m_tmpOutBufSize - c) }).2) := by
  have hne : st.m_tmpOutBufSize ≠ 0 := by omega
  have hu : toUnsigned (c : Int) = c := toUnsigned_ofNat c (by omega)
  have hc0 : (c : Int) ≠ 0 := by omega
  have hs : sendChunk P env st
      = some ({ st with
                m_tmpOutBufSize := st.m_tmpOutBufSize - c,
                m_tmpOutBuf := memmove st.m_tmpOutBuf c (st.m_tmpOutBufSize - c) },
              [Event.send cur.GetSocket (st.m_tmpOutBuf.take st.m_tmpOutBufSize)]) := by
    simp [sendChunk, hne, hcur, hsent, hvalid, hu, hlt, hc0]
  rw [MainIteration_draining_eq P env st _ hne hs]

/-- Any number of partial writes leaves the timer running since the same
clock reading, as long as the deadline has not elapsed. -/
theorem partial_writes_keep_timer (P : Platform) (cur : SessionData) (started : Nat)
    (chunks : List Nat) :
    ∀ (envs : List IterEnv) (st : SenderThread),
      st.m_curSession = some cur → st.sendTimer = some started →
      chunks.sum < st.m_tmpOutBufSize → st.m_tmpOutBufSize < 2 ^ 32 →
      (∀ c ∈ chunks, 0 < c) →
      envs.map (fun env => env.bytesSent) = chunks.map (fun (c : Nat) => (c : Int)) →
      (∀ c ∈ chunks, P.IS_VALID_SEND (c : Int) = true) →
      (∀ env ∈ envs, (env.clockAtCheck : Int) - (started : Int) ≤ SEND_ERROR_TIMEOUT_MSEC) →
      ∃ results, iterations P envs st = some results
        ∧ results.length = chunks.length
        ∧ ∀ r ∈ results, r.1.sendTimer = some started ∧ r.1.m_curSession = some cur
            ∧ 0 < r.1.m_tmpOutBufSize ∧ r.1.m_tmpOutBufSize < 2 ^ 32 := by
  induction chunks with
  | nil =>
    intro envs st _ _ _ _ _ henv _ _
    have : envs = [] := by simpa using henv
    subst this
    exact ⟨[], rfl, rfl, by simp⟩
  | cons c cs ih =>
    intro envs st hcur htimer hsum hsize hpos henv hvalid htime
    cases envs with
    | nil => simp at henv
    | cons env envs' =>
      simp only [List.map_cons] at henv
      injection henv with hb henv'
      simp only [List.sum_cons] at hsum
      have hcpos : 0 < c := hpos c (by simp)
      have hm := MainIteration_partial_any_time P env st cur c hcur hcpos (by omega) hsize hb
        (hvalid c (by simp))
      rw [checkSendTimeout_not_elapsed env _ (by
        intro t ht
        simp only [htimer, Option.some.injEq] at ht
        subst ht
        exact htime env (by simp))] at hm
      obtain ⟨results, hres, hlen, hall⟩ := ih envs'
        { st with
          m_tmpOutBufSize := st.m_tmpOutBufSize - c,
          m_tmpOutBuf := memmove st.m_tmpOutBuf c (st.m_tmpOutBufSize - c) }
        hcur htimer (by simp only []; omega) (by simp only []; omega)
        (fun x hx => hpos x (by simp [hx])) henv' (fun x hx => hvalid x (by simp [hx]))
        (fun e he => htime e (by simp [he]))
      refine ⟨_ :: results, by (simp only [iterations, hm, hres]; rfl), by simp [hlen], ?_⟩
      intro r hr
      rcases List.mem_cons.mp hr with h | h
      · subst h
        exact ⟨htimer, hcur, by simp only []; omega, by simp only []; omega⟩
      · exact hall r h

/-- A partial write on an engine whose timer runs since `started`: the check
at the end of the iteration compares the clock against `started`. -/
theorem partial_write_checks_against (P : Platform) (env : IterEnv) (st : SenderThread)
    (cur : SessionData) (started c : Nat)
    (hcur : st.m_curSession = some cur) (htimer : st.sendTimer = some started)
    (hc : 0 < c) (hlt : c < st.m_tmpOutBufSize) (hsize : st.m_tmpOutBufSize < 2 ^ 32)
    (hsent : env.bytesSent = (c : Int)) (hvalid : P.IS_VALID_SEND (c : Int) = true) :
    ∃ st' events, MainIteration P env st = some (st', events)
      ∧ ((env.clockAtCheck : Int) - (started : Int) ≤ 20000 →
          st'.sendTimer = some started
            ∧ st'.m_tmpOutBufSize = st.m_tmpOutBufSize - c
            ∧ st'.m_curSession = some cur)
      ∧ ((env.clockAtCheck : Int) - (started : Int) > 20000 →
          st'.sendTimer = none ∧ st'.m_tmpOutBufSize = 0
            ∧ st'.m_curSession = none ∧ st'.m_lastInvalidSessionId = cur.GetId) := by
  have hm := MainIteration_partial_any_time P env st cur c hcur hc hlt hsize hsent hvalid
  refine ⟨_, _, hm, ?_, ?_⟩
  · intro ht
    rw [checkSendTimeout_not_elapsed env _ (by
      intro t htt
      simp only [htimer, Option.some.injEq] at htt
      subst htt
      exact ht)]
    exact ⟨htimer, rfl, hcur⟩
  · intro ht
    simp [checkSendTimeout, htimer, SEND_ERROR_TIMEOUT_MSEC, ht, hcur, RemoveCurSendData]

/-- From an idle engine, whatever its timer holds, through the staging of a
packet and any number of partial writes: the timer runs since the clock
reading at which the packet was staged. -/
theorem staged_partial_writes_timer (P : Platform) (st : SenderThread) (packet : NetPacket)
    (session : SessionData) (rest : SendDataDeque) (c : Nat) (cs : List Nat)
    (first : IterEnv) (more : List IterEnv)
    (hidle : st.m_tmpOutBufSize = 0)
    (hentry : st.m_outBuf = (some packet, some session) :: rest
      ∨ ((∀ e ∈ st.m_outBuf.head?, e.1 = none)
          ∧ st.m_lowPrioOutBuf = (some packet, some session) :: rest
          ∧ session.GetId ≠ st.m_lastInvalidSessionId))
    (hle : packet.GetLen ≤ P.MAX_PACKET_SIZE)
    (hsum : (c :: cs).sum < packet.GetLen)
    (hpos : ∀ x ∈ c :: cs, 0 < x)
    (henv : (first :: more).map (fun env => env.bytesSent)
      = (c :: cs).map (fun (x : Nat) => (x : Int)))
    (hvalid : ∀ x ∈ c :: cs, P.IS_VALID_SEND (x : Int) = true)
    (htime : ∀ env ∈ first :: more,
      (env.clockAtCheck : Int) - (first.clockAtRestart : Int) ≤ 20000) :
    ∃ results, iterations P (first :: more) st = some results
      ∧ results.length = (c :: cs).length
      ∧ ∀ r ∈ results, r.1.sendTimer = some first.clockAtRestart
          ∧ r.1.m_curSession = some session
          ∧ 0 < r.1.m_tmpOutBufSize ∧ r.1.m_tmpOutBufSize < 2 ^ 32 := by
  obtain ⟨hcur, htimer, hsz, _⟩ :=
    dequeueAndStage_accepts P first st packet session rest hidle hentry hle
  have hfits := packet.fits
  have hlen : packet.GetLen = packet.raw.length := rfl
  simp only [List.map_cons] at henv
  injection henv with hb henv'
  simp only [List.sum_cons] at hsum
  have hm := MainIteration_partial P first st session first.clockAtRestart c hcur htimer
    (hpos c (by simp)) (by omega) (by omega) hb (hvalid c (by simp)) (htime first (by simp))
  obtain ⟨results, hres, hl, hall⟩ :=
    partial_writes_keep_timer P session first.clockAtRestart cs more
      { (dequeueAndStage P first st).1 with
        m_tmpOutBufSize := (dequeueAndStage P first st).1.m_tmpOutBufSize - c,
        m_tmpOutBuf := memmove (dequeueAndStage P first st).1.m_tmpOutBuf c
          ((dequeueAndStage P first st).1.m_tmpOutBufSize - c) }
      hcur htimer (by simp only []; omega) (by simp only []; omega)
      (fun x hx => hpos x (by simp [hx])) henv' (fun x hx => hvalid x (by simp [hx]))
      (fun e he => htime e (by simp [he]))
  refine ⟨_ :: results, by (simp only [iterations, hm, hres]; rfl), by simp [hl], ?_⟩
  intro r hr
  rcases List.mem_cons.mp hr with h | h
  · subst h
    exact ⟨htimer, hcur, by simp only []; omega, by simp only []; omega⟩
  · exact hall r h

/-- C17 (overall deadline). Staging a packet restarts the stall timer at the
clock reading of that moment, whatever the timer held before. A partial write
(0 < sent < remaining) neither restarts nor stops it: from an idle engine,
through the staging of a packet and any number of partial writes, the timer
runs since the clock reading at which the packet was staged, and the check at
the end of a further partial write compares the clock against that reading,
abandoning the packet exactly when more than 20000 ms have elapsed since the
staging. More generally, when the timer runs since `started`, a partial write
leaves it running since `started` (for any number of consecutive partial
writes) and its check compares against `started`. The timer is stopped when
the whole buffer has been sent. In every iteration the timer is unchanged, or
restarted (at this iteration's clock reading) because a newly popped entry
was staged, or stopped because the whole buffer was sent or because more than
20000 ms had elapsed since the start of the running timer. -/
theorem overall_deadline (P : Platform) :
    (∀ (env : IterEnv) (st : SenderThread) (packet : NetPacket) (session : SessionData)
        (rest : SendDataDeque),
        st.m_tmpOutBufSize = 0 →
        (st.m_outBuf = (some packet, some session) :: rest
          ∨ ((∀ e ∈ st.m_outBuf.head?, e.1 = none)
              ∧ st.m_lowPrioOutBuf = (some packet, some session) :: rest
              ∧ session.GetId ≠ st.m_lastInvalidSessionId)) →
        packet.GetLen ≤ P.MAX_PACKET_SIZE →
        (dequeueAndStage P env st).1.sendTimer = some env.clockAtRestart
          ∧ (dequeueAndStage P env st).1.m_curSession = some session
          ∧ (dequeueAndStage P env st).1.m_tmpOutBufSize = packet.GetLen)
      ∧ (∀ (st : SenderThread) (packet : NetPacket) (session : SessionData)
          (rest : SendDataDeque) (c : Nat) (cs : List Nat) (first : IterEnv)
          (more : List IterEnv),
          st.m_tmpOutBufSize = 0 →
          (st.m_outBuf = (some packet, some session) :: rest
            ∨ ((∀ e ∈ st.m_outBuf.head?, e.1 = none)
                ∧ st.m_lowPrioOutBuf = (some packet, some session) :: rest
                ∧ session.GetId ≠ st.m_lastInvalidSessionId)) →
          packet.GetLen ≤ P.MAX_PACKET_SIZE →
          (c :: cs).sum < packet.GetLen →
          (∀ x ∈ c :: cs, 0 < x) →
          (first :: more).map (fun env => env.bytesSent)
            = (c :: cs).map (fun (x : Nat) => (x : Int)) →
          (∀ x ∈ c :: cs, P.IS_VALID_SEND (x : Int) = true) →
          (∀ env ∈ first :: more,
            (env.clockAtCheck : Int) - (first.clockAtRestart : Int) ≤ 20000) →
          ∃ results final, iterations P (first :: more) st = some results
            ∧ results.length = (c :: cs).length
            ∧ results.getLast? = some final
            ∧ (∀ r ∈ results, r.1.sendTimer = some first.clockAtRestart
                ∧ r.1.m_curSession = some session ∧ 0 < r.1.m_tmpOutBufSize)
            ∧ ∀ (last : IterEnv) (x : Nat),
                0 < x → x < final.1.m_tmpOutBufSize →
                last.bytesSent = (x : Int) → P.IS_VALID_SEND (x : Int) = true →
                ∃ st' events, MainIteration P last final.1 = some (st', events)
                  ∧ ((last.clockAtCheck : Int) - (first.clockAtRestart : Int) ≤ 20000 →
                      st'.sendTimer = some first.clockAtRestart
                        ∧ st'.m_curSession = some session)
                  ∧ ((last.clockAtCheck : Int) - (first.clockAtRestart : Int) > 20000 →
                      st'.sendTimer = none ∧ st'.m_tmpOutBufSize = 0
                        ∧ st'.m_curSession = none
                        ∧ st'.m_lastInvalidSessionId = session.GetId))
      ∧ (∀ (env : IterEnv) (st : SenderThread) (cur : SessionData) (started c : Nat),
        st.m_curSession = some cur → st.sendTimer = some started →
        0 < c → c < st.m_tmpOutBufSize → st.m_tmpOutBufSize < 2 ^ 32 →
        env.bytesSent = (c : Int) → P.IS_VALID_SEND (c : Int) = true →
        ∃ st' events, MainIteration P env st = some (st', events)
          ∧ ((env.clockAtCheck : Int) - (started : Int) ≤ 20000 →
              st'.sendTimer = some started
                ∧ st'.m_tmpOutBufSize = st.m_tmpOutBufSize - c
                ∧ st'.m_curSession = some cur)
          ∧ ((env.clockAtCheck : Int) - (started : Int) > 20000 →
              st'.sendTimer = none ∧ st'.m_tmpOutBufSize = 0
                ∧ st'.m_curSession = none ∧ st'.m_lastInvalidSessionId = cur.GetId))
      ∧ (∀ (chunks : List Nat) (envs : List IterEnv) (st : SenderThread)
          (cur : SessionData) (started : Nat),
          st.m_curSession = some cur → st.sendTimer = some started →
          chunks.sum < st.m_tmpOutBufSize → st.m_tmpOutBufSize < 2 ^ 32 →
          (∀ c ∈ chunks, 0 < c) →
          envs.map (fun env => env.bytesSent) = chunks.map (fun (c : Nat) => (c : Int)) →
          (∀ c ∈ chunks, P.IS_VALID_SEND (c : Int) = true) →
          (∀ env ∈ envs, (env.clockAtCheck : Int) - (started : Int) ≤ 20000) →
          ∃ results, iterations P envs st = some results
            ∧ results.length = chunks.length
            ∧ ∀ r ∈ results, r.1.sendTimer = some started ∧ r.1.m_curSession = some cur
                ∧ 0 < r.1.m_tmpOutBufSize)
      ∧ (∀ (env : IterEnv) (st : SenderThread) (cur : SessionData),
          st.m_curSession = some cur → 0 < st.m_tmpOutBufSize →
          st.m_tmpOutBufSize < 2 ^ 32 →
          env.bytesSent = (st.m_tmpOutBufSize : Int) →
          P.IS_VALID_SEND (st.m_tmpOutBufSize : Int) = true →
          ∃ st' events, MainIteration P env st = some (st', events)
            ∧ st'.sendTimer = none ∧ st'.m_tmpOutBufSize = 0 ∧ st'.m_curSession = none)
      ∧ (∀ (env : IterEnv) (st st' : SenderThread) (events : List Event),
          MainIteration P env st = some (st', events) →
          st'.sendTimer = st.sendTimer
            ∨ (st'.sendTimer = some env.clockAtRestart ∧ st.m_tmpOutBufSize = 0
                ∧ ∃ packet session,
                    (some packet, some session)
                        ∈ removedFrom events ++ removedFromLowPrio events
                      ∧ (dequeueAndStage P env st).1.m_curSession = some session)
            ∨ (st'.sendTimer = none ∧ st'.m_tmpOutBufSize = 0
                ∧ ((P.IS_VALID_SEND env.bytesSent = true
                      ∧ (dequeueAndStage P env st).1.m_tmpOutBufSize ≠ 0
                      ∧ env.bytesSent = ((dequeueAndStage P env st).1.m_tmpOutBufSize : Int))
                  ∨ ∃ started, (st.sendTimer = some started ∨ started = env.clockAtRestart)
                      ∧ (env.clockAtCheck : Int) - (started : Int) > 20000))) := by
  refine ⟨?_, ?_, ?_, ?_, ?_, ?_⟩
  · intro env st packet session rest hidle hentry hle
    obtain ⟨hcur, htimer, hsz, _⟩ :=
      dequeueAndStage_accepts P env st packet session rest hidle hentry hle
    exact ⟨htimer, hcur, hsz⟩
  · intro st packet session rest c cs first more hidle hentry hle hsum hpos henv hvalid htime
    obtain ⟨results, hres, hlen, hall⟩ :=
      staged_partial_writes_timer P st packet session rest c cs first more hidle hentry hle
        hsum hpos henv hvalid htime
    have hne : results ≠ [] := by
      intro h
      rw [h] at hlen
      simp at hlen
    refine ⟨results, results.getLast hne, hres, hlen, List.getLast?_eq_getLast _ hne,
      fun r hr => ⟨(hall r hr).1, (hall r hr).2.1, (hall r hr).2.2.1⟩, ?_⟩
    intro last x hx hlt hb hv
    obtain ⟨ht, hc, _, h32⟩ := hall _ (List.getLast_mem hne)
    obtain ⟨st', events, hit, h1, h2⟩ :=
      partial_write_checks_against P last (results.getLast hne).1 session
        first.clockAtRestart x hc ht hx hlt h32 hb hv
    exact ⟨st', events, hit, fun h => ⟨(h1 h).1, (h1 h).2.2⟩, h2⟩
  · intro env st cur started c hcur htimer hc hlt hsize hsent hvalid
    exact partial_write_checks_against P env st cur started c hcur htimer hc hlt hsize hsent
      hvalid
  · intro chunks envs st cur started hcur htimer hsum hsize hpos henv hvalid htime
    obtain ⟨results, h1, h2, h3⟩ :=
      partial_writes_keep_timer P cur started chunks envs st hcur htimer hsum hsize hpos
        henv hvalid htime
    exact ⟨results, h1, h2, fun r hr => ⟨(h3 r hr).1, (h3 r hr).2.1, (h3 r hr).2.2.1⟩⟩
  · intro env st cur hcur hpos hsize hsent hvalid
    have hne : st.m_tmpOutBufSize ≠ 0 := by omega
    have hds := dequeueAndStage_draining P env st hne
    have hm := MainIteration_full P env st cur (by rw [hds]; exact hcur)
      (by rw [hds]; exact hpos) (by rw [hds]; exact hsize) (by rw [hds]; exact hsent)
      (by rw [hds]; exact hvalid)
    exact ⟨_, _, hm, rfl, rfl, rfl⟩
  · intro env st st' events hit
    obtain ⟨sent, hsent, hst, hev⟩ := MainIteration_some P env st st' events hit
    have hD := (dequeueAndStage_frame P env st).2
    have hS := (sendChunk_frame P env _ sent.1 sent.2 hsent).2.2
    have hC := checkSendTimeout_frame env sent.1
    have hrem := sendChunk_removed P env _ sent.1 sent.2 hsent
    have hcr := checkSendTimeout_removed env sent.1
    rcases hC with hC | ⟨started, hts, hgt, h1, h2, _, _⟩
    · rw [hC] at hst
      subst hst
      rcases hS with hS | ⟨hS1, hS2, hS3, hS4, hS5⟩
      · rcases hD with hD | ⟨hD1, hD2, packet, session, hmem, hcs, _⟩
        · exact Or.inl (by rw [hS, hD.1])
        · refine Or.inr (Or.inl ⟨by rw [hS, hD2], hD1, packet, session, ?_, hcs⟩)
          rw [hev, removedFrom_append, removedFrom_append, removedFromLowPrio_append,
            removedFromLowPrio_append, hrem.1, hrem.2, hcr.1, hcr.2]
          simpa using hmem
      · exact Or.inr (Or.inr ⟨hS1, hS5, Or.inl ⟨hS3, hS2, hS4⟩⟩)
    · subst hst
      refine Or.inr (Or.inr ⟨h1, h2, Or.inr ⟨started, ?_, hgt⟩⟩)
      rcases hS with hS | ⟨hS1, _⟩
      · rw [hS] at hts
        rcases hD with hD | ⟨_, hD2, _⟩
        · exact Or.inl (by rw [← hD.1]; exact hts)
        · rw [hD2] at hts
          simp only [Option.some.injEq] at hts
          exact Or.inr hts.symm
      · rw [hS1] at hts
        simp at hts

/-- The overall deadline on an engine whose timer is stale: after the run
`staleTimerOps` the engine is idle with the timer still running since clock
reading 0 and a packet for `session2` queued. An iteration at clock reading
30000 stages the packet and writes one byte: the timer now runs since 30000,
although 30001 ms have passed since the stale start. After a further one-byte
write whose check reads 50001, so 20001 ms after the staging, the packet is
abandoned and the marker is the id of `session2`. -/
theorem overall_deadline_witness :
    (engineAfter staleTimerOps).sendTimer = some 0
      ∧ ∃ results final,
          iterations posixPlatform
              [{ acceptingEnv 1 with clockAtRestart := 30000, clockAtCheck := 30001 }]
              (engineAfter staleTimerOps) = some results
            ∧ results.getLast? = some final
            ∧ final.1.sendTimer = some 30000
            ∧ ∃ st' events,
                MainIteration posixPlatform { acceptingEnv 1 with clockAtCheck := 50001 }
                    final.1 = some (st', events)
                  ∧ st'.sendTimer = none ∧ st'.m_lastInvalidSessionId = 2 := by
  refine ⟨rfl, ?_⟩
  obtain ⟨results, final, h1, _, h3, h4, h5⟩ :=
    (overall_deadline posixPlatform).2.1 (engineAfter staleTimerOps) packetA session2 []
      1 [] { acceptingEnv 1 with clockAtRestart := 30000, clockAtCheck := 30001 } []
      rfl (Or.inl rfl) (by decide) (by decide) (by decide) rfl (by decide)
      (by
        intro env henv
        have henv2 : env
            = { acceptingEnv 1 with clockAtRestart := 30000, clockAtCheck := 30001 } := by
          simpa using henv
        subst henv2
        decide)
  have hfinal : final ∈ results := List.mem_of_getLast?_eq_some h3
  have hsize : 1 < final.1.m_tmpOutBufSize := by
    have hr : some results = some [(_, _)] := h1.symm.trans rfl
    simp only [Option.some.injEq] at hr
    rw [hr] at h3
    simp only [List.getLast?_singleton, Option.some.injEq] at h3
    rw [← h3]
    decide
  obtain ⟨st', events, h6, _, h8⟩ :=
    h5 { acceptingEnv 1 with clockAtCheck := 50001 } 1 (by decide) hsize rfl rfl
  exact ⟨results, final, h1, h3, (h4 final hfinal).1, st', events, h6,
    (h8 (by decide)).1, (h8 (by decide)).2.2.2⟩

/-! ## The last-invalid-session marker -/

/-- What an iteration does to the marker: nothing, unless the timeout check
fires while a session is current, in which case the marker becomes that
session's id and the timeout is logged. -/
theorem MainIteration_marker (P : Platform) (env : IterEnv) (st st' : SenderThread)
    (events : List Event) (h : MainIteration P env st = some (st', events)) :
    (st'.m_lastInvalidSessionId = st.m_lastInvalidSessionId ∧ timedOutSessions events = [])
      ∨ ∃ sent started cur,
          sendChunk P env (dequeueAndStage P env st).1 = some sent
            ∧ sent.1.sendTimer = some started
            ∧ (env.clockAtCheck : Int) - (started : Int) > SEND_ERROR_TIMEOUT_MSEC
            ∧ sent.1.m_curSession = some cur
            ∧ st'.m_lastInvalidSessionId = cur.GetId
            ∧ timedOutSessions events = [cur.GetId] := by
  obtain ⟨sent, hsent, hst, hev⟩ := MainIteration_some P env st st' events h
  have hD := (dequeueAndStage_frame P env st).1
  have hS := (sendChunk_frame P env _ sent.1 sent.2 hsent).1
  have hC := checkSendTimeout_frame env sent.1
  have ht1 : timedOutSessions (dequeueAndStage P env st).2 = [] := by
    unfold dequeueAndStage
    split
    · simp only []
      unfold pollLowPrioQueue pollMainQueue
      cases st.m_outBuf with
      | nil => cases st.m_lowPrioOutBuf <;> simp [timedOutSessions]
      | cons front rest =>
        simp only []
        split
        · cases st.m_lowPrioOutBuf <;> simp [timedOutSessions]
        · simp [timedOutSessions]
    · simp [timedOutSessions]
  have ht2 : timedOutSessions sent.2 = [] := by
    have hs := hsent
    unfold sendChunk at hs
    split at hs
    · split at hs
      · simp at hs
      · simp only at hs
        repeat' split at hs
        all_goals first
          | (simp at hs; done)
          | (simp only [Option.some.injEq] at hs
             rw [← hs]
             first
               | (simp [timedOutSessions]; done)
               | (unfold reportUnlessBenign
                  split <;> simp [timedOutSessions]))
    · simp only [Option.some.injEq] at hs
      rw [← hs]
      simp [timedOutSessions]
  have happ : timedOutSessions events = timedOutSessions (checkSendTimeout env sent.1).2 := by
    rw [hev]
    simp only [timedOutSessions, List.filterMap_append] at ht1 ht2 ⊢
    rw [ht1, ht2]
    rfl
  rcases hC with hC | ⟨started, hts, hgt, _, _, _, hm⟩
  · left
    rw [happ, hst, hC]
    exact ⟨by rw [hS, hD], rfl⟩
  · rcases hm with ⟨_, hm2, hm3⟩ | ⟨cur, hc, hm2, hm3⟩
    · left
      rw [happ, hst, hm2, hm3]
      exact ⟨by rw [hS, hD], rfl⟩
    · right
      refine ⟨sent, started, cur, hsent, hts, hgt, hc, by rw [hst, hm2], ?_⟩
      rw [happ, hm3]
      rfl

/-- C14 (marker write path). The marker starts as `INVALID_SESSION`; none of
the four enqueue operations changes it; and after any loop iteration its value
equals its value before, unless that iteration's stall-timeout check fired
(timer running since `started`, more than 20000 ms elapsed) while a session
was current, in which case it is that session's id. In particular a dequeue,
a send success, a send error or a writability-wait error does not change
it. -/
theorem marker_write_path (P : Platform) :
    (SenderThread.init P).m_lastInvalidSessionId = P.INVALID_SESSION
      ∧ (∀ (st : SenderThread) (session : Option SessionData) (packet : Option NetPacket),
          (Send P st session packet).m_lastInvalidSessionId = st.m_lastInvalidSessionId
            ∧ (SendLowPrio P st session packet).m_lastInvalidSessionId
                = st.m_lastInvalidSessionId)
      ∧ (∀ (st : SenderThread) (session : Option SessionData) (packetList : NetPacketList),
          (SendList P st session packetList).m_lastInvalidSessionId
              = st.m_lastInvalidSessionId
            ∧ (SendLowPrioList P st session packetList).m_lastInvalidSessionId
                = st.m_lastInvalidSessionId)
      ∧ (∀ (env : IterEnv) (st st' : SenderThread) (events : List Event),
          MainIteration P env st = some (st', events) →
          st'.m_lastInvalidSessionId = st.m_lastInvalidSessionId
            ∨ ∃ sent started cur,
                sendChunk P env (dequeueAndStage P env st).1 = some sent
                  ∧ sent.1.sendTimer = some started
                  ∧ (env.clockAtCheck : Int) - (started : Int) > 20000
                  ∧ sent.1.m_curSession = some cur
                  ∧ st'.m_lastInvalidSessionId = cur.GetId) := by
  refine ⟨rfl, ?_, ?_, ?_⟩
  · intro st session packet
    constructor
    · unfold Send
      split <;> rfl
    · unfold SendLowPrio
      split <;> rfl
  · intro st session packetList
    constructor
    · unfold SendList
      split <;> rfl
    · unfold SendLowPrioList
      split <;> rfl
  · intro env st st' events h
    rcases MainIteration_marker P env st st' events h with h1 | ⟨sent, started, cur, h2⟩
    · exact Or.inl h1.1
    · exact Or.inr ⟨sent, started, cur, h2.1, h2.2.1, h2.2.2.1, h2.2.2.2.1, h2.2.2.2.2.1⟩

/-- The marker write path at two iterations of `drainingEngine`: a failed
`send` leaves the marker at 0; a stall past the deadline writes it. -/
theorem marker_write_path_witness :
    (∃ st' events,
        MainIteration posixPlatform (failingEnv 32 0 0) drainingEngine = some (st', events)
          ∧ st'.m_lastInvalidSessionId = drainingEngine.m_lastInvalidSessionId)
      ∧ (∃ st' events,
          MainIteration posixPlatform (stalledEnv 20001) drainingEngine = some (st', events)
            ∧ st'.m_lastInvalidSessionId = 1
            ∧ (st'.m_lastInvalidSessionId = drainingEngine.m_lastInvalidSessionId
              ∨ ∃ sent started cur,
                  sendChunk posixPlatform (stalledEnv 20001)
                      (dequeueAndStage posixPlatform (stalledEnv 20001) drainingEngine).1
                    = some sent
                    ∧ sent.1.sendTimer = some started
                    ∧ ((stalledEnv 20001).clockAtCheck : Int) - (started : Int) > 20000
                    ∧ sent.1.m_curSession = some cur
                    ∧ st'.m_lastInvalidSessionId = cur.GetId)) :=
  ⟨⟨_, _, rfl, rfl⟩,
   ⟨_, _, rfl, rfl,
    (marker_write_path posixPlatform).2.2.2 (stalledEnv 20001) drainingEngine _ _ rfl⟩⟩

theorem getLast?_append_getD (a b : List Nat) (m : Nat) :
    ((a ++ b).getLast?).getD m = (b.getLast?).getD ((a.getLast?).getD m) := by
  rw [List.getLast?_append]
  cases b.getLast? <;> simp [Option.or]

theorem timedOutSessions_append (a b : List Event) :
    timedOutSessions (a ++ b) = timedOutSessions a ++ timedOutSessions b := by
  simp [timedOutSessions]

/-- After a step the marker is the last session the step logged as timed
out, or its old value if the step logged none. -/
theorem step_marker (P : Platform) (op : Op) (st st' : SenderThread) (events : List Event)
    (h : op.step P st = some (st', events)) :
    st'.m_lastInvalidSessionId
      = ((timedOutSessions events).getLast?).getD st.m_lastInvalidSessionId := by
  cases op with
  | send session packet =>
    simp only [Op.step, Option.some.injEq, Prod.mk.injEq] at h
    obtain ⟨h1, h2⟩ := h
    subst h1 h2
    unfold Send
    split <;> rfl
  | sendList session packetList =>
    simp only [Op.step, Option.some.injEq, Prod.mk.injEq] at h
    obtain ⟨h1, h2⟩ := h
    subst h1 h2
    unfold SendList
    split <;> rfl
  | sendLowPrio session packet =>
    simp only [Op.step, Option.some.injEq, Prod.mk.injEq] at h
    obtain ⟨h1, h2⟩ := h
    subst h1 h2
    unfold SendLowPrio
    split <;> rfl
  | sendLowPrioList session packetList =>
    simp only [Op.step, Option.some.injEq, Prod.mk.injEq] at h
    obtain ⟨h1, h2⟩ := h
    subst h1 h2
    unfold SendLowPrioList
    split <;> rfl
  | iterate env =>
    simp only [Op.step] at h
    rcases MainIteration_marker P env st st' events h with ⟨h1, h2⟩ | ⟨_, _, cur, h3⟩
    · rw [h2, h1]
      rfl
    · rw [h3.2.2.2.2.2, h3.2.2.2.2.1]
      rfl

theorem runEvents_marker (P : Platform) (ops : List Op) :
    ∀ (st st' : SenderThread) (events : List Event),
      runEvents P ops st = some (st', events) →
      st'.m_lastInvalidSessionId
        = ((timedOutSessions events).getLast?).getD st.m_lastInvalidSessionId := by
  induction ops with
  | nil =>
    intro st st' events h
    simp only [runEvents, Option.some.injEq, Prod.mk.injEq] at h
    obtain ⟨h1, h2⟩ := h
    subst h1 h2
    rfl
  | cons op ops ih =>
    intro st st' events h
    simp only [runEvents] at h
    split at h
    · simp at h
    · rename_i st1 ev1 hstep
      split at h
      · simp at h
      · rename_i st2 later hrun
        simp only [Option.some.injEq, Prod.mk.injEq] at h
        obtain ⟨h1, h2⟩ := h
        subst h1 h2
        rw [timedOutSessions_append, getLast?_append_getD, ih st1 st2 later hrun,
          step_marker P op st st1 ev1 hstep]

/-- C15 (marker provenance), the claim as stated fails: a stall timeout of a
packet dequeued from the normal queue sets the marker. In the run
`normalTimeoutOps` nothing is ever admitted to the low-priority queue, the loop
removes the packet of `session1` from the normal queue, the packet stalls past
the deadline, and the marker ends as the id of `session1`, which is not its
initial value. -/
theorem marker_provenance_normal_queue :
    ∃ r, run posixPlatform normalTimeoutOps (Run.fresh posixPlatform) = some r
      ∧ r.admittedLowPrio = [] ∧ r.removedLowPrio = []
      ∧ r.removed = [(some packetA, some session1)]
      ∧ r.st.m_lastInvalidSessionId = session1.GetId
      ∧ r.st.m_lastInvalidSessionId ≠ (SenderThread.init posixPlatform).m_lastInvalidSessionId :=
  ⟨_, rfl, rfl, rfl, rfl, rfl, by decide⟩

theorem dequeueAndStage_timedOut (P : Platform) (env : IterEnv) (st : SenderThread) :
    timedOutSessions (dequeueAndStage P env st).2 = [] := by
  unfold dequeueAndStage
  split
  · simp only []
    unfold pollLowPrioQueue pollMainQueue
    cases st.m_outBuf with
    | nil => cases st.m_lowPrioOutBuf <;> simp [timedOutSessions]
    | cons front rest =>
      simp only []
      split
      · cases st.m_lowPrioOutBuf <;> simp [timedOutSessions]
      · simp [timedOutSessions]
  · simp [timedOutSessions]

theorem getLast?_cons_of_some (x final : SenderThread × List Event)
    (results : List (SenderThread × List Event)) (h : results.getLast? = some final) :
    (x :: results).getLast? = some final := by
  cases results with
  | nil => simp at h
  | cons y ys => rw [List.getLast?_cons_cons]; exact h

theorem checkSendTimeout_fired (env : IterEnv) (st : SenderThread) :
    (checkSendTimeout env st).1.m_lastInvalidSessionId
        = ((firedSession env st).map SessionData.GetId).getD st.m_lastInvalidSessionId
      ∧ timedOutSessions (checkSendTimeout env st).2
          = ((firedSession env st).map SessionData.GetId).toList := by
  unfold checkSendTimeout firedSession
  cases st.sendTimer with
  | none => simp [timedOutSessions]
  | some started =>
    by_cases ht : (env.clockAtCheck : Int) - (started : Int) > 20000
    · cases hc : st.m_curSession with
      | none => simp [ht, SEND_ERROR_TIMEOUT_MSEC, RemoveCurSendData, timedOutSessions]
      | some cur => simp [ht, SEND_ERROR_TIMEOUT_MSEC, RemoveCurSendData, timedOutSessions]
    · simp [ht, SEND_ERROR_TIMEOUT_MSEC, timedOutSessions]

theorem sendChunk_timedOut (P : Platform) (env : IterEnv) (st : SenderThread)
    (sent : SenderThread × List Event) (h : sendChunk P env st = some sent) :
    timedOutSessions sent.2 = [] := by
  unfold sendChunk at h
  split at h
  · split at h
    · simp at h
    · simp only at h
      repeat' split at h
      all_goals first
        | (simp at h; done)
        | (simp only [Option.some.injEq] at h
           rw [← h]
           first
             | (simp [timedOutSessions]; done)
             | (unfold reportUnlessBenign
                split <;> simp [timedOutSessions]))
  · simp only [Option.some.injEq] at h
    rw [← h]
    simp [timedOutSessions]

/-- After a step the marker is the id of the session that timed out in the
step, or its old value if none did; and the timeout log of the step names
exactly that session. -/
theorem step_timedOut (P : Platform) (op : Op) (st st' : SenderThread) (events : List Event)
    (h : op.step P st = some (st', events)) :
    st'.m_lastInvalidSessionId = (op.timedOut P st).getD st.m_lastInvalidSessionId
      ∧ timedOutSessions events = (op.timedOut P st).toList := by
  cases op with
  | send session packet =>
    simp only [Op.step, Option.some.injEq, Prod.mk.injEq] at h
    obtain ⟨h1, h2⟩ := h
    subst h1 h2
    unfold Send
    split <;> exact ⟨rfl, rfl⟩
  | sendList session packetList =>
    simp only [Op.step, Option.some.injEq, Prod.mk.injEq] at h
    obtain ⟨h1, h2⟩ := h
    subst h1 h2
    unfold SendList
    split <;> exact ⟨rfl, rfl⟩
  | sendLowPrio session packet =>
    simp only [Op.step, Option.some.injEq, Prod.mk.injEq] at h
    obtain ⟨h1, h2⟩ := h
    subst h1 h2
    unfold SendLowPrio
    split <;> exact ⟨rfl, rfl⟩
  | sendLowPrioList session packetList =>
    simp only [Op.step, Option.some.injEq, Prod.mk.injEq] at h
    obtain ⟨h1, h2⟩ := h
    subst h1 h2
    unfold SendLowPrioList
    split <;> exact ⟨rfl, rfl⟩
  | iterate env =>
    simp only [Op.step] at h
    obtain ⟨sent, hsent, hst, hev⟩ := MainIteration_some P env st st' events h
    have hD := (dequeueAndStage_frame P env st).1
    have hS := (sendChunk_frame P env _ sent.1 sent.2 hsent).1
    have hF := checkSendTimeout_fired env sent.1
    have hto : Op.timedOut P st (Op.iterate env)
        = (firedSession env sent.1).map SessionData.GetId := by
      simp [Op.timedOut, timedOutSession, hsent]
    rw [hto, hst, hev, timedOutSessions_append, timedOutSessions_append,
      dequeueAndStage_timedOut, sendChunk_timedOut P env _ sent hsent, hF.1, hF.2, hS, hD]
    exact ⟨rfl, rfl⟩

theorem toList_append_getLast?_getD (o : Option Nat) (l : List Nat) (m : Nat) :
    ((o.toList ++ l).getLast?).getD m = (l.getLast?).getD (o.getD m) := by
  rw [getLast?_append_getD]
  cases o <;> rfl

theorem runTimeouts_marker (P : Platform) (ops : List Op) :
    ∀ (st st' : SenderThread) (events : List Event),
      runEvents P ops st = some (st', events) →
      ∃ ids, runTimeouts P ops st = some (st', ids)
        ∧ st'.m_lastInvalidSessionId = (ids.getLast?).getD st.m_lastInvalidSessionId
        ∧ timedOutSessions events = ids := by
  induction ops with
  | nil =>
    intro st st' events h
    simp only [runEvents, Option.some.injEq, Prod.mk.injEq] at h
    obtain ⟨h1, h2⟩ := h
    subst h1 h2
    exact ⟨[], rfl, rfl, rfl⟩
  | cons op ops ih =>
    intro st st' events h
    simp only [runEvents] at h
    split at h
    · simp at h
    · rename_i st1 ev1 hstep
      split at h
      · simp at h
      · rename_i st2 later hrun
        simp only [Option.some.injEq, Prod.mk.injEq] at h
        obtain ⟨h1, h2⟩ := h
        subst h1 h2
        obtain ⟨ids, hids, hm, hl⟩ := ih st1 st2 later hrun
        have hs := step_timedOut P op st st1 ev1 hstep
        refine ⟨(op.timedOut P st).toList ++ ids, ?_, ?_, ?_⟩
        · simp [runTimeouts, hstep, hids]
        · rw [toList_append_getLast?_getD, hm, hs.1]
        · rw [timedOutSessions_append, hs.2, hl]

/-- A draining iteration removes nothing from the queues. -/
theorem MainIteration_draining_removed (P : Platform) (env : IterEnv) (st st' : SenderThread)
    (events : List Event) (hdrain : st.m_tmpOutBufSize ≠ 0)
    (h : MainIteration P env st = some (st', events)) :
    removedFrom events = [] ∧ removedFromLowPrio events = [] := by
  obtain ⟨sent, hsent, _, hev⟩ := MainIteration_some P env st st' events h
  have hrem := sendChunk_removed P env _ sent.1 sent.2 hsent
  have hcr := checkSendTimeout_removed env sent.1
  rw [dequeueAndStage_draining P env st hdrain] at hev
  rw [hev]
  simp only [List.nil_append, removedFrom_append, removedFromLowPrio_append, hrem.1, hrem.2,
    hcr.1, hcr.2, List.append_nil, and_self]

/-- A draining engine whose socket stalls stays as it is while the deadline
has not elapsed, and on the first check after the deadline the marker becomes
the id of the current session. -/
theorem stalled_then_timeout (P : Platform) (s : SenderThread) (cur : SessionData)
    (started : Nat) (hdrain : 0 < s.m_tmpOutBufSize) (hcur : s.m_curSession = some cur)
    (htimer : s.sendTimer = some started) (last : IterEnv)
    (hlast : socketStalls P last)
    (hgt : (last.clockAtCheck : Int) - (started : Int) > 20000) (middle : List IterEnv) :
    (∀ env ∈ middle, socketStalls P env) →
    (∀ env ∈ middle, (env.clockAtCheck : Int) - (started : Int) ≤ 20000) →
    ∃ results final, iterations P (middle ++ [last]) s = some results
      ∧ results.getLast? = some final
      ∧ final.1.m_lastInvalidSessionId = cur.GetId
      ∧ final.1.m_curSession = none ∧ final.1.m_tmpOutBufSize = 0
      ∧ final.1.sendTimer = none
      ∧ ∀ r ∈ results, removedFrom r.2 = [] ∧ removedFromLowPrio r.2 = [] := by
  have hne : s.m_tmpOutBufSize ≠ 0 := by omega
  induction middle with
  | nil =>
    intro _ _
    obtain ⟨ev, hsend, _⟩ := sendChunk_stalled P last s cur hdrain hcur hlast
    have hm := MainIteration_draining_eq P last s (s, ev) hne hsend
    have hrem := MainIteration_draining_removed P last s _ _ hne hm
    refine ⟨[_], _, by (simp only [List.nil_append, iterations, hm]; rfl), rfl, ?_, ?_, ?_, ?_,
      ?_⟩
    · simp [checkSendTimeout, htimer, hcur, SEND_ERROR_TIMEOUT_MSEC, hgt, RemoveCurSendData]
    · simp [checkSendTimeout, htimer, hcur, SEND_ERROR_TIMEOUT_MSEC, hgt, RemoveCurSendData]
    · simp [checkSendTimeout, htimer, hcur, SEND_ERROR_TIMEOUT_MSEC, hgt, RemoveCurSendData]
    · simp [checkSendTimeout, htimer, hcur, SEND_ERROR_TIMEOUT_MSEC, hgt, RemoveCurSendData]
    · intro r hr
      simp only [List.mem_singleton] at hr
      subst hr
      exact hrem
  | cons env middle ih =>
    intro hst hle
    obtain ⟨ev, hsend, _⟩ := sendChunk_stalled P env s cur hdrain hcur (hst env (by simp))
    have hm := MainIteration_draining_eq P env s (s, ev) hne hsend
    rw [checkSendTimeout_not_elapsed env s (by
      intro t ht
      rw [htimer] at ht
      simp only [Option.some.injEq] at ht
      subst ht
      exact hle env (by simp))] at hm
    have hrem := MainIteration_draining_removed P env s _ _ hne hm
    obtain ⟨results, final, hres, hfin, h1, h2, h3, h4, h5⟩ :=
      ih (fun e he => hst e (by simp [he])) (fun e he => hle e (by simp [he]))
    refine ⟨(s, ev ++ []) :: results, final, ?_, ?_, h1, h2, h3, h4, ?_⟩
    · show iterations P (env :: (middle ++ [last])) s = _
      simp only [iterations, hm, hres]
    · exact getLast?_cons_of_some _ final results hfin
    · intro r hr
      rcases List.mem_cons.mp hr with h | h
      · subst h
        exact hrem
      · exact h5 r h

/-- The entry that the dequeue block accepts was popped from a queue. -/
theorem dequeueAndStage_accepts_removed (P : Platform) (env : IterEnv) (st : SenderThread)
    (packet : NetPacket) (session : SessionData) (rest : SendDataDeque)
    (hidle : st.m_tmpOutBufSize = 0)
    (hentry : st.m_outBuf = (some packet, some session) :: rest
      ∨ ((∀ e ∈ st.m_outBuf.head?, e.1 = none)
          ∧ st.m_lowPrioOutBuf = (some packet, some session) :: rest
          ∧ session.GetId ≠ st.m_lastInvalidSessionId)) :
    (some packet, some session)
      ∈ removedFrom (dequeueAndStage P env st).2
        ++ removedFromLowPrio (dequeueAndStage P env st).2 := by
  rcases hentry with h | ⟨h1, h2, _⟩
  · simp [dequeueAndStage, hidle, pollMainQueue, pollLowPrioQueue, h, removedFrom]
  · cases hq : st.m_outBuf with
    | nil =>
      simp [dequeueAndStage, hidle, pollMainQueue, pollLowPrioQueue, hq, h2,
        removedFrom, removedFromLowPrio]
    | cons f r =>
      have hf : f.1 = none := h1 f (by simp [hq])
      simp [dequeueAndStage, hidle, pollMainQueue, pollLowPrioQueue, hq, hf, h2,
        removedFrom, removedFromLowPrio]

/-- C15 (marker provenance), amended. In every state reached by a run from a
freshly constructed engine, the marker is its initial value `INVALID_SESSION`
if no session has timed out, and otherwise the id of the most recent session
that timed out, that is, of the session that was current when the stall timer
was running and more than 20000 ms had elapsed at the end-of-iteration check;
the timeouts the code logs are exactly these. This holds whichever queue the
packet was dequeued from: when an idle engine stages a packet from the normal
queue, or from the low-priority queue, and the socket stalls until the
deadline measured from the staging has passed, the marker becomes the id of
that packet's session; in the normal-queue case no entry is taken from the
low-priority queue on the way. -/
theorem marker_provenance (P : Platform) :
    (∀ (ops : List Op) (st : SenderThread) (events : List Event),
        runEvents P ops (SenderThread.init P) = some (st, events) →
        ∃ ids, runTimeouts P ops (SenderThread.init P) = some (st, ids)
          ∧ st.m_lastInvalidSessionId = (ids.getLast?).getD P.INVALID_SESSION
          ∧ timedOutSessions events = ids)
      ∧ (∀ (st : SenderThread) (packet : NetPacket) (session : SessionData)
          (rest : SendDataDeque) (first : IterEnv) (middle : List IterEnv) (last : IterEnv),
          st.m_tmpOutBufSize = 0 →
          (st.m_outBuf = (some packet, some session) :: rest
            ∨ ((∀ e ∈ st.m_outBuf.head?, e.1 = none)
                ∧ st.m_lowPrioOutBuf = (some packet, some session) :: rest
                ∧ session.GetId ≠ st.m_lastInvalidSessionId)) →
          0 < packet.GetLen → packet.GetLen ≤ P.MAX_PACKET_SIZE →
          (∀ env ∈ first :: middle ++ [last], socketStalls P env) →
          (∀ env ∈ first :: middle,
            (env.clockAtCheck : Int) - (first.clockAtRestart : Int) ≤ 20000) →
          (last.clockAtCheck : Int) - (first.clockAtRestart : Int) > 20000 →
          ∃ results final, iterations P (first :: middle ++ [last]) st = some results
            ∧ results.getLast? = some final
            ∧ final.1.m_lastInvalidSessionId = session.GetId
            ∧ (some packet, some session)
                ∈ results.flatMap (fun r => removedFrom r.2 ++ removedFromLowPrio r.2)
            ∧ (st.m_outBuf = (some packet, some session) :: rest →
                ∀ r ∈ results, removedFromLowPrio r.2 = [])) := by
  constructor
  · intro ops st events h
    exact runTimeouts_marker P ops (SenderThread.init P) st events h
  · intro st packet session rest first middle last hidle hentry hpos hle hstall hnot hgt
    obtain ⟨hcur, htimer, hsz, _⟩ :=
      dequeueAndStage_accepts P first st packet session rest hidle hentry hle
    have hdrain : 0 < (dequeueAndStage P first st).1.m_tmpOutBufSize := by omega
    obtain ⟨ev, hsend, _⟩ := sendChunk_stalled P first _ session hdrain hcur
      (hstall first (by simp))
    have hchk := checkSendTimeout_not_elapsed first (dequeueAndStage P first st).1 (by
      intro t ht
      rw [htimer] at ht
      simp only [Option.some.injEq] at ht
      subst ht
      exact hnot first (by simp))
    have hm : MainIteration P first st
        = some ((dequeueAndStage P first st).1, (dequeueAndStage P first st).2 ++ ev ++ []) := by
      simp [MainIteration, hsend, hchk]
    have hrem := sendChunk_removed P first _ _ ev hsend
    have hpop : (some packet, some session)
        ∈ removedFrom ((dequeueAndStage P first st).2 ++ ev ++ [])
          ++ removedFromLowPrio ((dequeueAndStage P first st).2 ++ ev ++ []) := by
      simp only [List.append_nil, removedFrom_append, removedFromLowPrio_append, hrem.1,
        hrem.2]
      exact dequeueAndStage_accepts_removed P first st packet session rest hidle hentry
    obtain ⟨results, final, hres, hfin, h1, _, _, _, h5⟩ :=
      stalled_then_timeout P (dequeueAndStage P first st).1 session first.clockAtRestart
        hdrain hcur htimer last (hstall last (by simp)) hgt middle
        (fun e he => hstall e (by simp [he])) (fun e he => hnot e (by simp [he]))
    refine ⟨((dequeueAndStage P first st).1, (dequeueAndStage P first st).2 ++ ev ++ [])
        :: results, final, ?_, ?_, h1, ?_, ?_⟩
    · show iterations P (first :: (middle ++ [last])) st = _
      simp only [iterations, hm, hres]
    · exact getLast?_cons_of_some _ final results hfin
    · simp only [List.flatMap_cons, List.mem_append]
      exact Or.inl (List.mem_append.mp hpop)
    · intro hn r hr
      rcases List.mem_cons.mp hr with h | h
      · subst h
        have hd : (dequeueAndStage P first st).2
            = [Event.popFront (some packet, some session)] := by
          simp [dequeueAndStage, hidle, pollLowPrioQueue, pollMainQueue, hn]
        simp only [List.append_nil, removedFromLowPrio_append, hrem.2, hd]
        simp [removedFromLowPrio]
      · exact (h5 r h).2

/-- Marker provenance on the run `normalTimeoutOps`: session 1 times out, the
log names it, and the marker is 1; and at an engine that holds one
normal-queue packet for `session1`, two stalled iterations, the second past
the deadline, end with marker 1 and never touch the low-priority queue. -/
theorem marker_provenance_witness :
    (∃ st events ids,
        runEvents posixPlatform normalTimeoutOps (SenderThread.init posixPlatform)
            = some (st, events)
          ∧ runTimeouts posixPlatform normalTimeoutOps (SenderThread.init posixPlatform)
            = some (st, ids)
          ∧ ids = [1] ∧ timedOutSessions events = ids
          ∧ st.m_lastInvalidSessionId = 1)
      ∧ (∃ results final,
          iterations posixPlatform [stalledEnv 10, stalledEnv 20001] (engineWith 1)
              = some results
            ∧ results.getLast? = some final
            ∧ final.1.m_lastInvalidSessionId = 1
            ∧ ∀ r ∈ results, removedFromLowPrio r.2 = []) := by
  constructor
  · obtain ⟨ids, h1, h2, h3⟩ :=
      (marker_provenance posixPlatform).1 normalTimeoutOps _ _ rfl
    have hids : ids = [1] := by
      have : some (_, ids) = some (_, [1]) := h1.symm.trans rfl
      simp only [Option.some.injEq, Prod.mk.injEq] at this
      exact this.2
    exact ⟨_, _, ids, rfl, h1, hids, h3, by rw [h2, hids]; rfl⟩
  · obtain ⟨results, final, h1, h2, h3, _, h5⟩ :=
      (marker_provenance posixPlatform).2 (engineWith 1) packetA session1 []
        (stalledEnv 10) [] (stalledEnv 20001) rfl (Or.inl rfl) (by decide) (by decide)
        (by
          intro env henv
          have henv2 : env = stalledEnv 10 ∨ env = stalledEnv 20001 := by
            simpa using henv
          rcases henv2 with h | h <;> subst h <;> exact Or.inl ⟨rfl, rfl⟩)
        (by
          intro env henv
          have henv2 : env = stalledEnv 10 := by simpa using henv
          subst henv2
          decide)
        (by decide)
    exact ⟨results, final, h1, h2, h3, h5 rfl⟩

/-! ## The in-progress state -/

theorem packetsPositive_append (a b : SendDataDeque) :
    packetsPositive (a ++ b) ↔ packetsPositive a ∧ packetsPositive b := by
  unfold packetsPositive
  constructor
  · intro h
    exact ⟨fun e he => h e (by simp [he]), fun e he => h e (by simp [he])⟩
  · intro h e he
    rcases List.mem_append.mp he with h1 | h1
    · exact h.1 e h1
    · exact h.2 e h1

theorem InternalStore_packetsPositive (q : SendDataDeque) (m : Nat)
    (session : Option SessionData) (packet : Option NetPacket)
    (hq : packetsPositive q) (hp : ∀ p ∈ packet, 0 < p.GetLen) :
    packetsPositive (InternalStore q m session packet) := by
  unfold InternalStore
  split
  · rw [packetsPositive_append]
    refine ⟨hq, ?_⟩
    intro e he
    simp only [List.mem_singleton] at he
    subst he
    exact hp
  · exact hq

theorem InternalStoreList_packetsPositive (q : SendDataDeque) (m : Nat)
    (session : Option SessionData) (packetList : NetPacketList)
    (hq : packetsPositive q) (hp : ∀ x ∈ packetList, ∀ p ∈ x, 0 < p.GetLen) :
    packetsPositive (InternalStoreList q m session packetList) := by
  rw [InternalStoreList_eq]
  split
  · rw [packetsPositive_append]
    refine ⟨hq, ?_⟩
    intro e he
    simp only [List.mem_map] at he
    obtain ⟨x, hx, hxe⟩ := he
    subst hxe
    exact hp x hx
  · exact hq

/-- The dequeue block keeps "remaining > 0 iff a session is current" when
the queued packets have positive lengths. -/
theorem dequeueAndStage_invariant (P : Platform) (env : IterEnv) (st : SenderThread)
    (hq : packetsPositive st.m_outBuf) (hl : packetsPositive st.m_lowPrioOutBuf)
    (hinv : 0 < st.m_tmpOutBufSize ↔ st.m_curSession.isSome = true) :
    packetsPositive (dequeueAndStage P env st).1.m_outBuf
      ∧ packetsPositive (dequeueAndStage P env st).1.m_lowPrioOutBuf
      ∧ (0 < (dequeueAndStage P env st).1.m_tmpOutBufSize
          ↔ (dequeueAndStage P env st).1.m_curSession.isSome = true) := by
  have hh := dequeueAndStage_history P env st
  have hq' := hq
  have hl' := hl
  rw [hh.1, packetsPositive_append] at hq'
  rw [hh.2, packetsPositive_append] at hl'
  refine ⟨hq'.2, hl'.2, ?_⟩
  rcases (dequeueAndStage_frame P env st).2 with h | ⟨_, _, packet, session, hmem, hc, hs⟩
  · rw [h.2.1, h.2.2.1]
    exact hinv
  · have hpos : 0 < packet.GetLen := by
      rcases List.mem_append.mp hmem with h1 | h1
      · exact hq'.1 _ h1 packet rfl
      · exact hl'.1 _ h1 packet rfl
    rw [hc, hs]
    simp [hpos]

/-- The send block keeps "remaining > 0 iff a session is current". -/
theorem sendChunk_invariant (P : Platform) (env : IterEnv) (st st' : SenderThread)
    (events : List Event)
    (hinv : 0 < st.m_tmpOutBufSize ↔ st.m_curSession.isSome = true)
    (h : sendChunk P env st = some (st', events)) :
    0 < st'.m_tmpOutBufSize ↔ st'.m_curSession.isSome = true := by
  unfold sendChunk at h
  split at h
  · rename_i hne
    split at h
    · simp at h
    · rename_i cur hcur
      simp only at h
      repeat' split at h
      all_goals first
        | (simp at h; done)
        | (simp only [Option.some.injEq, Prod.mk.injEq] at h
           obtain ⟨h1, _⟩ := h
           subst h1
           first
             | exact hinv
             | (simp [RemoveCurSendData]; done)
             | (rename_i hlt _
                simp only [hcur, Option.isSome_some, iff_true]
                omega))
  · simp only [Option.some.injEq, Prod.mk.injEq] at h
    obtain ⟨h1, _⟩ := h
    subst h1
    exact hinv

/-- The timeout check keeps "remaining > 0 iff a session is current". -/
theorem checkSendTimeout_invariant (env : IterEnv) (st : SenderThread)
    (hinv : 0 < st.m_tmpOutBufSize ↔ st.m_curSession.isSome = true) :
    0 < (checkSendTimeout env st).1.m_tmpOutBufSize
      ↔ (checkSendTimeout env st).1.m_curSession.isSome = true := by
  rcases checkSendTimeout_frame env st with h | ⟨_, _, _, _, h4, h5, _⟩
  · rw [h]
    exact hinv
  · rw [h4, h5]
    simp

theorem step_invariant (P : Platform) (op : Op) (st st' : SenderThread)
    (events : List Event) (hop : op.packetsPositive)
    (hq : packetsPositive st.m_outBuf) (hl : packetsPositive st.m_lowPrioOutBuf)
    (hinv : 0 < st.m_tmpOutBufSize ↔ st.m_curSession.isSome = true)
    (h : op.step P st = some (st', events)) :
    packetsPositive st'.m_outBuf ∧ packetsPositive st'.m_lowPrioOutBuf
      ∧ (0 < st'.m_tmpOutBufSize ↔ st'.m_curSession.isSome = true) := by
  cases op with
  | send session packet =>
    simp only [Op.step, Option.some.injEq, Prod.mk.injEq] at h
    obtain ⟨h1, _⟩ := h
    subst h1
    unfold Send
    split
    · exact ⟨InternalStore_packetsPositive _ _ _ _ hq hop, hl, hinv⟩
    · exact ⟨hq, hl, hinv⟩
  | sendList session packetList =>
    simp only [Op.step, Option.some.injEq, Prod.mk.injEq] at h
    obtain ⟨h1, _⟩ := h
    subst h1
    unfold SendList
    split
    · exact ⟨InternalStoreList_packetsPositive _ _ _ _ hq hop, hl, hinv⟩
    · exact ⟨hq, hl, hinv⟩
  | sendLowPrio session packet =>
    simp only [Op.step, Option.some.injEq, Prod.mk.injEq] at h
    obtain ⟨h1, _⟩ := h
    subst h1
    unfold SendLowPrio
    split
    · exact ⟨hq, InternalStore_packetsPositive _ _ _ _ hl hop, hinv⟩
    · exact ⟨hq, hl, hinv⟩
  | sendLowPrioList session packetList =>
    simp only [Op.step, Option.some.injEq, Prod.mk.injEq] at h
    obtain ⟨h1, _⟩ := h
    subst h1
    unfold SendLowPrioList
    split
    · exact ⟨hq, InternalStoreList_packetsPositive _ _ _ _ hl hop, hinv⟩
    · exact ⟨hq, hl, hinv⟩
  | iterate env =>
    simp only [Op.step] at h
    obtain ⟨sent, hsent, hst, _⟩ := MainIteration_some P env st st' events h
    obtain ⟨d1, d2, d3⟩ := dequeueAndStage_invariant P env st hq hl hinv
    have s3 := sendChunk_invariant P env _ sent.1 sent.2 d3 hsent
    have sq := sendChunk_queues P env _ sent.1 sent.2 hsent
    have cq := checkSendTimeout_queues env sent.1
    subst hst
    refine ⟨?_, ?_, checkSendTimeout_invariant env sent.1 s3⟩
    · rw [cq.1, sq.1]; exact d1
    · rw [cq.2, sq.2]; exact d2

theorem run_invariant (P : Platform) (ops : List Op) :
    ∀ (r r' : Run), (∀ op ∈ ops, op.packetsPositive) →
      packetsPositive r.st.m_outBuf → packetsPositive r.st.m_lowPrioOutBuf →
      (0 < r.st.m_tmpOutBufSize ↔ r.st.m_curSession.isSome = true) →
      run P ops r = some r' →
      (0 < r'.st.m_tmpOutBufSize ↔ r'.st.m_curSession.isSome = true) := by
  induction ops with
  | nil =>
    intro r r' _ _ _ hinv h
    simp only [run, Option.some.injEq] at h
    subst h
    exact hinv
  | cons op ops ih =>
    intro r r' hpos hq hl hinv h
    simp only [run] at h
    split at h
    · simp at h
    · rename_i st' events hstep
      obtain ⟨i1, i2, i3⟩ :=
        step_invariant P op r.st st' events (hpos op (by simp)) hq hl hinv hstep
      exact ih _ r' (fun o ho => hpos o (by simp [ho])) i1 i2 i3 h

/-- C13 (in-progress state invariant). Provided every enqueued packet has a
positive length, then in every state reached by a run of enqueue operations
and loop iterations from a freshly constructed engine, so at the start and at
the end of every loop iteration, remaining > 0 holds if and only if the
current session is set (non-null). -/
theorem in_progress_invariant (P : Platform) (ops : List Op) (r : Run)
    (hpos : ∀ op ∈ ops, op.packetsPositive)
    (h : run P ops (Run.fresh P) = some r) :
    0 < r.st.m_tmpOutBufSize ↔ r.st.m_curSession.isSome = true :=
  run_invariant P ops (Run.fresh P) r hpos
    (by simp [packetsPositive, Run.fresh, SenderThread.init])
    (by simp [packetsPositive, Run.fresh, SenderThread.init])
    (by simp [Run.fresh, SenderThread.init]) h

/-- The in-progress invariant after a `Send` of the three byte packet and an
iteration in which the socket takes one byte: two bytes remain and a session
is current. -/
theorem in_progress_invariant_witness :
    ∃ r, run posixPlatform
          [Op.send (some session1) (some packetA), Op.iterate (acceptingEnv 1)]
          (Run.fresh posixPlatform) = some r
      ∧ r.st.m_tmpOutBufSize = 2
      ∧ (0 < r.st.m_tmpOutBufSize ↔ r.st.m_curSession.isSome = true) :=
  ⟨_, rfl, rfl,
   in_progress_invariant posixPlatform
     [Op.send (some session1) (some packetA), Op.iterate (acceptingEnv 1)] _
     (by
       intro op hop
       simp only [List.mem_cons, List.mem_singleton, List.not_mem_nil, or_false] at hop
       rcases hop with h | h
       · subst h
         intro p hp
         simp only [Option.mem_def, Option.some.injEq] at hp
         subst hp
         decide
       · subst h
         trivial)
     rfl⟩

/-! ## Zero-length packets and null entries -/

/-- An iteration whose dequeue block leaves remaining at 0 sleeps and then
runs the timeout check. -/
theorem MainIteration_idle_eq (P : Platform) (env : IterEnv) (st : SenderThread)
    (h : (dequeueAndStage P env st).1.m_tmpOutBufSize = 0) :
    MainIteration P env st
      = some ((checkSendTimeout env (dequeueAndStage P env st).1).1,
          (dequeueAndStage P env st).2 ++ [Event.msleep]
            ++ (checkSendTimeout env (dequeueAndStage P env st).1).2) := by
  simp [MainIteration, sendChunk, h]

/-- An iteration that ends its dequeue block with remaining 0, a current
session and the timer running since `started`: no `send` call; the
in-progress state and the marker stay as they are while the deadline has not
elapsed, and the marker becomes the session's id once it has. -/
theorem MainIteration_lingering_session (P : Platform) (env : IterEnv) (st : SenderThread)
    (session : SessionData) (started : Nat)
    (hsize : (dequeueAndStage P env st).1.m_tmpOutBufSize = 0)
    (hcur : (dequeueAndStage P env st).1.m_curSession = some session)
    (htimer : (dequeueAndStage P env st).1.sendTimer = some started) :
    ∃ st' events, MainIteration P env st = some (st', events)
      ∧ sendCalls events = []
      ∧ ((env.clockAtCheck : Int) - (started : Int) ≤ 20000 →
          st'.m_curSession = some session ∧ st'.m_tmpOutBufSize = 0
            ∧ st'.sendTimer = some started
            ∧ st'.m_lastInvalidSessionId = st.m_lastInvalidSessionId
            ∧ timedOutSessions events = [])
      ∧ ((env.clockAtCheck : Int) - (started : Int) > 20000 →
          st'.m_lastInvalidSessionId = session.GetId
            ∧ st'.m_curSession = none ∧ st'.m_tmpOutBufSize = 0 ∧ st'.sendTimer = none
            ∧ timedOutSessions events = [session.GetId]) := by
  have hm := MainIteration_idle_eq P env st hsize
  have hq := checkSendTimeout_quiet env (dequeueAndStage P env st).1
  have hmark := (dequeueAndStage_frame P env st).1
  have ht1 : timedOutSessions ((dequeueAndStage P env st).2 ++ [Event.msleep]) = [] := by
    rw [timedOutSessions_append, dequeueAndStage_timedOut]
    simp [timedOutSessions]
  refine ⟨_, _, hm, ?_, ?_, ?_⟩
  · rw [sendCalls_append, sendCalls_append, dequeueAndStage_sendCalls, hq.2.2.1]
    simp [sendCalls]
  · intro ht
    rw [timedOutSessions_append, ht1,
      checkSendTimeout_not_elapsed env _ (by
        intro t htt
        rw [htimer] at htt
        simp only [Option.some.injEq] at htt
        subst htt
        exact ht)]
    exact ⟨hcur, hsize, htimer, hmark, rfl⟩
  · intro ht
    rw [timedOutSessions_append, ht1]
    simp [checkSendTimeout, htimer, hcur, SEND_ERROR_TIMEOUT_MSEC, ht, RemoveCurSendData,
      timedOutSessions]

/-- C19 (zero-length packet). For a dequeued entry whose packet has length 0
(it passes the throttle test, and the length check since `0 ≤
MAX_PACKET_SIZE`), the iteration sets the current session to the entry's
session and starts the stall timer while remaining stays 0, and makes no
`send` call: the engine has a current session with remaining == 0. In every
later iteration in which the dequeue block stages nothing, no `send` call is
made; the in-progress state and the marker stay unchanged while at most 20000
ms have elapsed since the timer was started, and once more have elapsed the
timeout check sets the marker to that session's id, although no `send` ever
stalled. -/
theorem zero_length_packet (P : Platform) (env : IterEnv) :
    (∀ (st : SenderThread) (packet : NetPacket) (session : SessionData)
        (rest : SendDataDeque),
        st.m_tmpOutBufSize = 0 →
        (st.m_outBuf = (some packet, some session) :: rest
          ∨ ((∀ e ∈ st.m_outBuf.head?, e.1 = none)
              ∧ st.m_lowPrioOutBuf = (some packet, some session) :: rest
              ∧ session.GetId ≠ st.m_lastInvalidSessionId)) →
        packet.GetLen = 0 →
        ((dequeueAndStage P env st).1.m_curSession = some session
          ∧ (dequeueAndStage P env st).1.m_tmpOutBufSize = 0
          ∧ (dequeueAndStage P env st).1.sendTimer = some env.clockAtRestart)
        ∧ ∃ st' events, MainIteration P env st = some (st', events)
            ∧ sendCalls events = []
            ∧ ((env.clockAtCheck : Int) - (env.clockAtRestart : Int) ≤ 20000 →
                st'.m_curSession = some session ∧ st'.m_tmpOutBufSize = 0
                  ∧ st'.sendTimer = some env.clockAtRestart
                  ∧ st'.m_lastInvalidSessionId = st.m_lastInvalidSessionId))
      ∧ (∀ (st : SenderThread) (session : SessionData) (started : Nat),
          st.m_tmpOutBufSize = 0 → st.m_curSession = some session →
          st.sendTimer = some started →
          ((dequeueAndStage P env st).1.m_tmpOutBufSize = st.m_tmpOutBufSize
            ∧ (dequeueAndStage P env st).1.m_curSession = st.m_curSession
            ∧ (dequeueAndStage P env st).1.sendTimer = st.sendTimer) →
          ∃ st' events, MainIteration P env st = some (st', events)
            ∧ sendCalls events = []
            ∧ ((env.clockAtCheck : Int) - (started : Int) ≤ 20000 →
                st'.m_curSession = some session ∧ st'.m_tmpOutBufSize = 0
                  ∧ st'.sendTimer = some started
                  ∧ st'.m_lastInvalidSessionId = st.m_lastInvalidSessionId)
            ∧ ((env.clockAtCheck : Int) - (started : Int) > 20000 →
                st'.m_lastInvalidSessionId = session.GetId
                  ∧ st'.m_curSession = none ∧ st'.sendTimer = none
                  ∧ timedOutSessions events = [session.GetId])) := by
  constructor
  · intro st packet session rest hidle hentry hzero
    obtain ⟨hcur, htimer, hsz, _⟩ :=
      dequeueAndStage_accepts P env st packet session rest hidle hentry (by omega)
    rw [hzero] at hsz
    refine ⟨⟨hcur, hsz, htimer⟩, ?_⟩
    obtain ⟨st', events, hit, hcalls, hle, _⟩ :=
      MainIteration_lingering_session P env st session env.clockAtRestart hsz hcur htimer
    exact ⟨st', events, hit, hcalls, fun ht =>
      ⟨(hle ht).1, (hle ht).2.1, (hle ht).2.2.1, (hle ht).2.2.2.1⟩⟩
  · intro st session started hidle hcur htimer hnone
    obtain ⟨st', events, hit, hcalls, hle, hgt⟩ :=
      MainIteration_lingering_session P env st session started
        (by rw [hnone.1, hidle]) (by rw [hnone.2.1, hcur]) (by rw [hnone.2.2, htimer])
    exact ⟨st', events, hit, hcalls,
      fun ht => ⟨(hle ht).1, (hle ht).2.1, (hle ht).2.2.1, (hle ht).2.2.2.1⟩,
      fun ht => ⟨(hgt ht).1, (hgt ht).2.1, (hgt ht).2.2.2.1, (hgt ht).2.2.2.2⟩⟩

/-- The zero-length packet on the run `zeroLengthOps`: no `send` call is ever
made, one timeout is logged, and the marker ends as the id of `session1`; the
first iteration, taken alone, leaves `session1` current with remaining 0. -/
theorem zero_length_packet_witness :
    (∃ st events,
        runEvents posixPlatform zeroLengthOps (SenderThread.init posixPlatform)
            = some (st, events)
          ∧ sendCalls events = []
          ∧ timedOutSessions events = [1]
          ∧ st.m_lastInvalidSessionId = 1)
      ∧ (∃ st' events,
          MainIteration posixPlatform (stalledEnv 0)
              (Send posixPlatform (SenderThread.init posixPlatform) (some session1)
                (some emptyPacket)) = some (st', events)
            ∧ sendCalls events = []
            ∧ st'.m_curSession = some session1 ∧ st'.m_tmpOutBufSize = 0) := by
  refine ⟨⟨_, _, rfl, rfl, rfl, rfl⟩, ?_⟩
  obtain ⟨_, st', events, h1, h2, h3⟩ :=
    (zero_length_packet posixPlatform (stalledEnv 0)).1
      (Send posixPlatform (SenderThread.init posixPlatform) (some session1)
        (some emptyPacket))
      emptyPacket session1 [] rfl (Or.inl rfl) rfl
  exact ⟨st', events, h1, h2, (h3 (by decide)).1, (h3 (by decide)).2.1⟩

/-- The half of the non-null invariant that the code does establish: every
entry stored in either queue of a reachable engine has a non-null session. -/
theorem reachable_sessions_nonnull (P : Platform) (st : SenderThread)
    (h : Reachable P st) :
    (∀ e ∈ st.m_outBuf, e.2.isSome = true)
      ∧ (∀ e ∈ st.m_lowPrioOutBuf, e.2.isSome = true) := by
  induction h with
  | init => simp [SenderThread.init]
  | send st session packet _ ih =>
    unfold Send InternalStore
    split
    · rename_i hg
      simp only [Bool.and_eq_true] at hg
      split
      · refine ⟨?_, ih.2⟩
        intro e he
        rcases List.mem_append.mp he with h1 | h1
        · exact ih.1 e h1
        · simp only [List.mem_singleton] at h1
          subst h1
          exact hg.2
      · exact ih
    · exact ih
  | sendList st session packetList _ ih =>
    unfold SendList
    rw [InternalStoreList_eq]
    split
    · rename_i hg
      simp only [Bool.and_eq_true] at hg
      split
      · refine ⟨?_, ih.2⟩
        intro e he
        rcases List.mem_append.mp he with h1 | h1
        · exact ih.1 e h1
        · simp only [List.mem_map] at h1
          obtain ⟨x, _, hx⟩ := h1
          subst hx
          exact hg.2
      · exact ih
    · exact ih
  | sendLowPrio st session packet _ ih =>
    unfold SendLowPrio InternalStore
    split
    · rename_i hg
      simp only [Bool.and_eq_true] at hg
      split
      · refine ⟨ih.1, ?_⟩
        intro e he
        rcases List.mem_append.mp he with h1 | h1
        · exact ih.2 e h1
        · simp only [List.mem_singleton] at h1
          subst h1
          exact hg.2
      · exact ih
    · exact ih
  | sendLowPrioList st session packetList _ ih =>
    unfold SendLowPrioList
    rw [InternalStoreList_eq]
    split
    · rename_i hg
      simp only [Bool.and_eq_true] at hg
      split
      · refine ⟨ih.1, ?_⟩
        intro e he
        rcases List.mem_append.mp he with h1 | h1
        · exact ih.2 e h1
        · simp only [List.mem_map] at h1
          obtain ⟨x, _, hx⟩ := h1
          subst hx
          exact hg.2
      · exact ih
    · exact ih
  | iterate st st' env events _ hit ih =>
    have hh := MainIteration_history P env st st' events hit
    constructor
    · intro e he
      exact ih.1 e (by rw [hh.1]; exact List.mem_append_right _ he)
    · intro e he
      exact ih.2 e (by rw [hh.2]; exact List.mem_append_right _ he)

/-- C20 (non-null entries), the code at the failing input. The packet-list
overload of `Send` stores a null packet: after `Send(session1, [null])` on a
fresh engine the normal queue holds the entry `(null, session1)`. At
`nullFrontEngine`, which is reachable and has a non-empty normal queue, the
loop's test `!tmpData.first.get()` after polling the normal queue is true, and
the idle iteration removes two entries in total, one from each queue. -/
theorem non_null_entries_null_packet :
    Reachable posixPlatform
        (SendList posixPlatform (SenderThread.init posixPlatform) (some session1) [none])
      ∧ (SendList posixPlatform (SenderThread.init posixPlatform) (some session1)
          [none]).m_outBuf = [(none, some session1)]
      ∧ Reachable posixPlatform nullFrontEngine
      ∧ nullFrontEngine.m_tmpOutBufSize = 0
      ∧ nullFrontEngine.m_outBuf ≠ []
      ∧ (pollMainQueue nullFrontEngine).tmpData.1.isNone = true
      ∧ ∃ st' events,
          MainIteration posixPlatform (acceptingEnv 2) nullFrontEngine = some (st', events)
            ∧ (removedFrom events ++ removedFromLowPrio events).length = 2 :=
  ⟨Reachable.sendList _ _ _ Reachable.init, rfl,
   Reachable.sendLowPrio _ _ _ (Reachable.sendList _ _ _ Reachable.init),
   rfl, fun h => absurd (congrArg List.length h) (by decide),
   rfl, _, _, rfl, rfl⟩

end PokerTH
